import Mathlib

/-!
# Ledger and approval workflow of the MLBB top-up bot

A shallow embedding of the Go sources under `src/mlbbtopup` (store layer
`database/database.go`, validation helpers `utils/validation.go`, and the
handlers in `handlers/*.go`) together with theorems about the ledger.

Modelling conventions.

* The `users` collection is a list of documents in natural order; `FindOne`,
  `UpdateOne` and `FindOneAndUpdate` act on the first document that satisfies
  the filter.
* A filter such as `{"orders.order_id": id, "orders.status": "pending"}` holds
  of a document when some array element satisfies the first condition and some
  (possibly different) element satisfies the second one.  Which of the two
  elements the positional `$` then denotes is not fixed by the source, so every
  update through `$` takes a `PosRule` and results are stated for both rules.
* Every store call takes a `fault` flag: when set the call returns
  `StoreErr.unavailable` and has no effect.
* Go `int` is 64 bit; balances and prices are modelled as `Int`, parsing is
  range checked.  Times are Unix seconds.
-/

namespace Mlbb

/-! ## Data model (`models/models.go`) -/

/-- Dynamic values of a `map[string]interface{}`.  `int` is a Go `int` put into
the map by the program; `int32` and `int64` are what the driver produces when it
decodes a stored integer. -/
inductive Value where
  | int (n : Int)
  | int32 (n : Int)
  | int64 (n : Int)
  | str (s : String)
  | bool (b : Bool)
  deriving DecidableEq, Repr

/-- Errors returned by the store layer. -/
inductive StoreErr where
  | errNoDocuments
  | unavailable
  deriving DecidableEq, Repr

deriving instance DecidableEq for Except

/-- Record `models.Order`, with the stamps written by the resolve callbacks. -/
structure Order where
  order_id : String
  game_id : String
  server_id : String
  amount : String
  price : Int
  status : String
  timestamp : Int
  user_id : String
  chat_id : Int
  confirmed_by : Option String
  confirmed_at : Option Int
  cancelled_by : Option String
  cancelled_at : Option Int
  deriving DecidableEq, Repr

/-- Record `models.Topup`, with the stamps written by the resolve callbacks. -/
structure Topup where
  topup_id : String
  amount : Int
  payment_method : String
  status : String
  timestamp : Int
  user_id : String
  chat_id : Int
  approved_by : Option String
  approved_at : Option Int
  rejected_by : Option String
  rejected_at : Option Int
  deriving DecidableEq, Repr

/-- Record `models.User`. -/
structure User where
  user_id : String
  name : String
  username : String
  balance : Int
  orders : List Order
  topups : List Topup
  joined_at : Int
  referred_by : Option String
  referral_earnings : Int
  deriving DecidableEq, Repr

/-- The singleton settings document; each entry is present when the key holds a
sub-document. -/
structure Settings where
  payment_info : Option (List (String × Value))
  maintenance : Option (List (String × Value))
  affiliate : Option (List (String × Value))
  auto_delete : Option (List (String × Value))
  deriving DecidableEq, Repr

/-- The persisted state: the users collection and the three singleton
documents (each absent until first written). -/
structure Store where
  users : List User
  prices : Option (List (String × Value))
  authorized : Option (List String)
  settings : Option Settings
  deriving DecidableEq, Repr

/-- The `models.Config` fields the handlers read. -/
structure Config where
  AdminID : Int
  AdminGroupID : Int
  deriving DecidableEq, Repr

/-- The `bson.M` passed to `FindAndUpdateOrder`: at most one value per key. -/
structure OrderUpdates where
  status : Option String
  confirmed_by : Option String
  confirmed_at : Option Int
  cancelled_by : Option String
  cancelled_at : Option Int
  deriving DecidableEq, Repr

/-- The `bson.M` passed to `FindAndUpdateTopup`: at most one value per key. -/
structure TopupUpdates where
  status : Option String
  approved_by : Option String
  approved_at : Option Int
  rejected_by : Option String
  rejected_at : Option Int
  deriving DecidableEq, Repr

/-- Which array condition of a two-condition filter fixes the positional `$`:
the one on the element id or the one on the element status. -/
inductive PosRule where
  | byId
  | byStatus
  deriving DecidableEq, Repr

/-! ## Generic collection helpers -/

/-- Apply `f` to the first element satisfying `p` (the effect of `UpdateOne`). -/
def modifyFirst {α : Type} (p : α → Bool) (f : α → α) : List α → List α
  | [] => []
  | x :: xs => if p x then f x :: xs else x :: modifyFirst p f xs

/-- Lookup in a string-keyed map. -/
def lookupKey {β : Type} (m : List (String × β)) (k : String) : Option β :=
  match m.find? (fun kv => kv.1 == k) with
  | some kv => some kv.2
  | none => none

/-- Assignment `m[k] = v` in a string-keyed map. -/
def insertKey {β : Type} (m : List (String × β)) (k : String) (v : β) : List (String × β) :=
  if m.any (fun kv => kv.1 == k) then
    m.map (fun kv => if kv.1 == k then (k, v) else kv)
  else m ++ [(k, v)]

/-! ## Store layer (`database/database.go`) -/

/-- Store call `GetUser`: `FindOne {user_id}`; absent users give `nil, nil`. -/
def GetUser (s : Store) (userID : String) (fault : Bool) : Except StoreErr (Option User) :=
  if fault then .error .unavailable
  else .ok (s.users.find? (fun u => u.user_id == userID))

/-- The effect of `UpdateOne {user_id: userID} ...` on the users collection. -/
def updateUser (s : Store) (userID : String) (f : User → User) : Store :=
  { s with users := modifyFirst (fun u => u.user_id == userID) f s.users }

/-- Store call `UpdateBalance`: `UpdateOne {user_id} {$inc balance}`. -/
def UpdateBalance (s : Store) (userID : String) (amountChange : Int) (fault : Bool) :
    Except StoreErr Store :=
  if fault then .error .unavailable
  else .ok (updateUser s userID (fun u => { u with balance := u.balance + amountChange }))

/-- Store call `SetBalance`: `UpdateOne {user_id} {$set balance}`. -/
def SetBalance (s : Store) (userID : String) (amount : Int) (fault : Bool) :
    Except StoreErr Store :=
  if fault then .error .unavailable
  else .ok (updateUser s userID (fun u => { u with balance := amount }))

/-- Store call `UpdateReferralEarnings`: one `$inc` of both counters. -/
def UpdateReferralEarnings (s : Store) (userID : String) (commissionAmount : Int)
    (fault : Bool) : Except StoreErr Store :=
  if fault then .error .unavailable
  else .ok (updateUser s userID (fun u =>
    { u with balance := u.balance + commissionAmount,
             referral_earnings := u.referral_earnings + commissionAmount }))

/-- Store call `AddOrder`: `UpdateOne {user_id} {$push orders}`. -/
def AddOrder (s : Store) (userID : String) (orderData : Order) (fault : Bool) :
    Except StoreErr Store :=
  if fault then .error .unavailable
  else .ok (updateUser s userID (fun u => { u with orders := u.orders ++ [orderData] }))

/-- Store call `AddTopup`: `UpdateOne {user_id} {$push topups}`. -/
def AddTopup (s : Store) (userID : String) (topupData : Topup) (fault : Bool) :
    Except StoreErr Store :=
  if fault then .error .unavailable
  else .ok (updateUser s userID (fun u => { u with topups := u.topups ++ [topupData] }))

/-- The `$set` of `orders.$.<key>` for every key of the update map. -/
def applyOrderUpdates (upd : OrderUpdates) (o : Order) : Order :=
  { o with
    status := upd.status.getD o.status,
    confirmed_by := upd.confirmed_by.orElse (fun _ => o.confirmed_by),
    confirmed_at := upd.confirmed_at.orElse (fun _ => o.confirmed_at),
    cancelled_by := upd.cancelled_by.orElse (fun _ => o.cancelled_by),
    cancelled_at := upd.cancelled_at.orElse (fun _ => o.cancelled_at) }

/-- The `$set` of `topups.$.<key>` for every key of the update map. -/
def applyTopupUpdates (upd : TopupUpdates) (t : Topup) : Topup :=
  { t with
    status := upd.status.getD t.status,
    approved_by := upd.approved_by.orElse (fun _ => t.approved_by),
    approved_at := upd.approved_at.orElse (fun _ => t.approved_at),
    rejected_by := upd.rejected_by.orElse (fun _ => t.rejected_by),
    rejected_at := upd.rejected_at.orElse (fun _ => t.rejected_at) }

/-- The filter `{"orders.order_id": orderID, "orders.status": "pending"}`. -/
def orderFilter (orderID : String) (u : User) : Bool :=
  u.orders.any (fun o => o.order_id == orderID) &&
    u.orders.any (fun o => o.status == "pending")

/-- The array element denoted by `orders.$` under a positional rule. -/
def orderAtPos (r : PosRule) (orderID : String) (o : Order) : Bool :=
  match r with
  | .byId => o.order_id == orderID
  | .byStatus => o.status == "pending"

/-- The `$set` at `orders.$` in the first document satisfying the filter. -/
def setOrderAtPos (r : PosRule) (s : Store) (orderID : String) (updates : OrderUpdates) : Store :=
  { s with users := modifyFirst (orderFilter orderID) (fun d =>
      { d with orders :=
          modifyFirst (orderAtPos r orderID) (applyOrderUpdates updates) d.orders }) s.users }

/-- Store call `FindAndUpdateOrder`: one `FindOneAndUpdate` on the filter
`orderFilter`, setting the update fields at `orders.$`; returns the owner. -/
def FindAndUpdateOrder (r : PosRule) (s : Store) (orderID : String) (updates : OrderUpdates)
    (fault : Bool) : Except StoreErr (Store × String) :=
  if fault then .error .unavailable
  else
    match s.users.find? (orderFilter orderID) with
    | none => .error .errNoDocuments
    | some u =>
      .ok (setOrderAtPos r s orderID updates, u.user_id)

/-- The filter `{"topups.topup_id": topupID}` of the first read. -/
def topupIdFilter (topupID : String) (u : User) : Bool :=
  u.topups.any (fun t => t.topup_id == topupID)

/-- The filter `{"topups.topup_id": topupID, "topups.status": "pending"}`. -/
def topupFilter (topupID : String) (u : User) : Bool :=
  u.topups.any (fun t => t.topup_id == topupID) &&
    u.topups.any (fun t => t.status == "pending")

/-- The array element denoted by `topups.$` under a positional rule. -/
def topupAtPos (r : PosRule) (topupID : String) (t : Topup) : Bool :=
  match r with
  | .byId => t.topup_id == topupID
  | .byStatus => t.status == "pending"

/-- The loop reading the amount of the first top-up with the given id out of
the document returned by the first read (`0` when none). -/
def topupAmountOf (topupID : String) (ts : List Topup) : Int :=
  match ts.find? (fun t => t.topup_id == topupID) with
  | some t => t.amount
  | none => 0

/-- The `$set` at `topups.$` in the first document satisfying the filter. -/
def setTopupAtPos (r : PosRule) (s : Store) (topupID : String) (updates : TopupUpdates) : Store :=
  { s with users := modifyFirst (topupFilter topupID) (fun d =>
      { d with topups :=
          modifyFirst (topupAtPos r topupID) (applyTopupUpdates updates) d.topups }) s.users }

/-- Fault flags of the three store calls inside `FindAndUpdateTopup`. -/
structure TopupFaults where
  findOne : Bool
  findOneAndUpdate : Bool
  updateBalance : Bool
  deriving DecidableEq, Repr

/-- Store call `FindAndUpdateTopup`: read the owner by top-up id, update the
pending element, and on `status = "approved"` credit the amount read before
the update when it is positive.  The store is returned also on error, since
the balance call can fail after the status was written. -/
def FindAndUpdateTopup (r : PosRule) (s : Store) (topupID : String) (updates : TopupUpdates)
    (f : TopupFaults) : Store × Except StoreErr String :=
  if f.findOne then (s, .error .unavailable)
  else
    match s.users.find? (topupIdFilter topupID) with
    | none => (s, .error .errNoDocuments)
    | some user =>
      if f.findOneAndUpdate then (s, .error .unavailable)
      else
        match s.users.find? (topupFilter topupID) with
        | none => (s, .error .errNoDocuments)
        | some updatedUser =>
          let s1 : Store := setTopupAtPos r s topupID updates
          if updates.status = some "approved" then
            let topupAmount := topupAmountOf topupID user.topups
            if topupAmount > 0 then
              match UpdateBalance s1 updatedUser.user_id topupAmount f.updateBalance with
              | .error e => (s1, .error e)
              | .ok s2 => (s2, .ok updatedUser.user_id)
            else (s1, .ok updatedUser.user_id)
          else (s1, .ok updatedUser.user_id)

/-- Store call `LoadPrices`: the custom price map, empty when the document is
absent.  The values are as the driver decodes them. -/
def LoadPrices (s : Store) (fault : Bool) : Except StoreErr (List (String × Value)) :=
  if fault then .error .unavailable else .ok (s.prices.getD [])

/-- Encoding of a map value on write: a Go `int` becomes a 32 bit integer when
it fits and a 64 bit integer otherwise. -/
def encodeValue : Value → Value
  | .int n => if -2147483648 ≤ n ∧ n ≤ 2147483647 then .int32 n else .int64 n
  | v => v

/-- Store call `SavePrices`: whole-table replace (upsert). -/
def SavePrices (s : Store) (prices : List (String × Value)) (fault : Bool) :
    Except StoreErr Store :=
  if fault then .error .unavailable
  else .ok { s with prices := some (prices.map (fun kv => (kv.1, encodeValue kv.2))) }

/-- Store call `LoadAuthorizedUsers`: the authorized ids, none when the
document is absent. -/
def LoadAuthorizedUsers (s : Store) (fault : Bool) : Except StoreErr (List String) :=
  if fault then .error .unavailable else .ok (s.authorized.getD [])

/-- Store call `LoadSettings`: the settings document, created from the given
defaults when absent. -/
def LoadSettings (s : Store) (defaultPayment defaultMaintenance defaultAffiliate
    defaultAutoDelete : List (String × Value)) (fault : Bool) :
    Except StoreErr (Store × Settings) :=
  if fault then .error .unavailable
  else
    match s.settings with
    | some config => .ok (s, config)
    | none =>
      let config : Settings :=
        { payment_info := some defaultPayment, maintenance := some defaultMaintenance,
          affiliate := some defaultAffiliate, auto_delete := some defaultAutoDelete }
      .ok ({ s with settings := some config }, config)

/-! ## Library functions used by the handlers -/

/-- Go `unicode.IsSpace`. -/
def isSpace (c : Char) : Bool :=
  let n := c.toNat
  n == 9 || n == 10 || n == 11 || n == 12 || n == 13 || n == 32 || n == 133 || n == 160 ||
    n == 5760 || (8192 ≤ n && n ≤ 8202) || n == 8232 || n == 8233 || n == 8239 ||
    n == 8287 || n == 12288

/-- Worker of `Fields`: `cur` holds the current field reversed. -/
def fieldsAux : List Char → List Char → List String
  | [], cur => if cur.isEmpty then [] else [String.mk cur.reverse]
  | c :: cs, cur =>
    if isSpace c then
      if cur.isEmpty then fieldsAux cs [] else String.mk cur.reverse :: fieldsAux cs []
    else fieldsAux cs (c :: cur)

/-- Go `strings.Fields`: the maximal runs of non-space characters. -/
def Fields (s : String) : List String := fieldsAux s.toList []

/-- Value of a run of decimal digits. -/
def digitsValue (cs : List Char) : Nat :=
  cs.foldl (fun acc c => acc * 10 + (c.toNat - 48)) 0

/-- Go `strconv.Atoi` on a 64 bit platform: optional sign, at least one
decimal digit, nothing else, value within the `int` range. -/
def Atoi (s : String) : Option Int :=
  let cs := s.toList
  let neg := cs.head? == some '-'
  let ds := if cs.head? == some '-' || cs.head? == some '+' then cs.tail else cs
  if ds.isEmpty || !ds.all Char.isDigit then none
  else
    let n := digitsValue ds
    if neg then (if n ≤ 9223372036854775808 then some (-(n : Int)) else none)
    else (if n ≤ 9223372036854775807 then some (n : Int) else none)

/-- Go `strconv.FormatInt(n, 10)`. -/
def FormatInt (n : Int) : String := toString n

/-- The bytes of a Go string. -/
def utf8Bytes (s : String) : List UInt8 := s.toList.flatMap String.utf8EncodeChar

/-! ## Validation helpers (`utils/validation.go`, `utils/helpers.go`) -/

/-- Source `ValidateGameID`: byte length 6 to 10 and `Atoi` succeeds. -/
def ValidateGameID (gameID : String) : Bool :=
  if gameID.utf8ByteSize < 6 || gameID.utf8ByteSize > 10 then false
  else (Atoi gameID).isSome

/-- Source `ValidateServerID`: byte length 3 to 5 and `Atoi` succeeds. -/
def ValidateServerID (serverID : String) : Bool :=
  if serverID.utf8ByteSize < 3 || serverID.utf8ByteSize > 5 then false
  else (Atoi serverID).isSome

/-- The deny-list of `IsBannedAccount`. -/
def bannedIDs : List String := ["123456789", "000000000", "111111111"]

/-- Source `IsBannedAccount`: in the deny-list, or non-empty with every byte
equal to the first one. -/
def IsBannedAccount (gameID : String) : Bool :=
  if bannedIDs.contains gameID then true
  else
    match utf8Bytes gameID with
    | [] => false
    | firstChar :: rest => rest.all (fun b => b == firstChar)

/-- The built-in price table of `GetPrice`. -/
def defaultPrices : List (String × Int) :=
  [("11", 950), ("22", 1900), ("33", 2850), ("56", 4200), ("112", 8200),
   ("86", 5100), ("172", 10200), ("257", 15300), ("343", 20400),
   ("429", 25500), ("514", 30600), ("600", 35700), ("706", 40800),
   ("878", 51000), ("963", 56100), ("1049", 61200), ("1135", 66300),
   ("1412", 81600), ("2195", 122400), ("3688", 204000),
   ("5532", 306000), ("9288", 510000), ("12976", 714000),
   ("55", 3500), ("165", 10000), ("275", 16000), ("565", 33000)]

/-- The week number of a weekly-pass key: the key starts with `wp` and the
remainder parses to an integer from 1 to 10. -/
def weekNumOf (key : String) : Option Int :=
  if ['w', 'p'].isPrefixOf key.toList then
    match Atoi (String.mk (key.toList.drop 2)) with
    | some weekNum => if weekNum ≥ 1 ∧ weekNum ≤ 10 then some weekNum else none
    | none => none
  else none

/-- Source `GetPrice`: a custom entry of dynamic type `int`, else the weekly
pass formula, else the built-in table (`0` for a missing key). -/
def GetPrice (diamonds : String) (customPrices : List (String × Value)) : Int :=
  match lookupKey customPrices diamonds with
  | some (.int price) => price
  | _ =>
    match weekNumOf diamonds with
    | some weekNum => weekNum * 6000
    | none => (lookupKey defaultPrices diamonds).getD 0

/-- Source `GenerateOrderID`: `"ORD"` followed by the Unix time. -/
def GenerateOrderID (now : Int) : String := "ORD" ++ FormatInt now

/-- Source `GenerateTopupID`: `"TOP"`, the Unix time, and the last four bytes
of the user id (the whole id when it has fewer than four bytes).  A Go string
is a sequence of bytes and the cut may fall inside a character, so the
identifier is given as its bytes. -/
def GenerateTopupID (now : Int) (userID : String) : List UInt8 :=
  let timestamp := FormatInt now
  if (utf8Bytes userID).length ≥ 4 then
    utf8Bytes "TOP" ++ utf8Bytes timestamp ++
      (utf8Bytes userID).drop ((utf8Bytes userID).length - 4)
  else utf8Bytes "TOP" ++ utf8Bytes timestamp ++ utf8Bytes userID

/-- Source `HasPendingTopup`: whether the user's record holds a top-up with
status pending (`false` for a user without a record). -/
def HasPendingTopup (s : Store) (userID : String) (fault : Bool) : Except StoreErr Bool :=
  match GetUser s userID fault with
  | .error e => .error e
  | .ok none => .ok false
  | .ok (some user) => .ok (user.topups.any (fun t => t.status == "pending"))

/-! ## Purchase flow (`handlers/user_handlers.go`) -/

/-- What `HandleMmb` sends back.  `silent` is a return after a logged store
error; `nilDereference` is the runtime fault of reading a field through the nil
record that `GetUser` returns for a user without a document. -/
inductive MmbReply where
  | silent
  | notAuthorized
  | maintenance
  | pendingTopupWarning
  | invalidFormat
  | invalidGameID
  | invalidServerID
  | bannedAccount
  | invalidAmount
  | insufficientBalance (price : Int) (balance : Int)
  | orderConfirmation (order : Order) (newBalance : Int)
  | nilDereference
  deriving DecidableEq, Repr

/-- Fault flags of the store calls of `HandleMmb`, in call order. -/
structure MmbFaults where
  loadAuthorizedUsers : Bool
  loadSettings : Bool
  hasPendingTopup : Bool
  loadPrices : Bool
  getUser : Bool
  updateBalance : Bool
  addOrder : Bool
  deriving DecidableEq, Repr

/-- The authorization test shared by the user commands: member of the
authorized list, or the configured admin. -/
def isAuthorized (cfg : Config) (authorizedUsers : List String) (userID : String) : Bool :=
  authorizedUsers.contains userID || userID == FormatInt cfg.AdminID

/-- The maintenance test of the user commands: the settings hold a maintenance
document whose entry for the feature is the boolean `false`. -/
def maintenanceOff (settings : Option Settings) (feature : String) : Bool :=
  match settings with
  | some config =>
    match config.maintenance with
    | some maintenance => lookupKey maintenance feature == some (.bool false)
    | none => false
  | none => false

/-- The order record built by `HandleMmb`. -/
def newOrder (orderID gameID serverID amount : String) (price now : Int) (userID : String)
    (chatID : Int) : Order :=
  { order_id := orderID, game_id := gameID, server_id := serverID, amount := amount,
    price := price, status := "pending", timestamp := now, user_id := userID,
    chat_id := chatID, confirmed_by := none, confirmed_at := none,
    cancelled_by := none, cancelled_at := none }

/-- The tail of `HandleMmb` once the price is known: balance check, debit,
order append. -/
def mmbPurchase (s : Store) (userID : String) (chatID : Int) (gameID serverID amount : String)
    (price now : Int) (f : MmbFaults) : Store × MmbReply :=
  match GetUser s userID f.getUser with
  | .error _ => (s, .silent)
  | .ok none => (s, .nilDereference)
  | .ok (some userDoc) =>
    if userDoc.balance < price then (s, .insufficientBalance price userDoc.balance)
    else
      let order := newOrder (GenerateOrderID now) gameID serverID amount price now userID chatID
      match UpdateBalance s userID (-price) f.updateBalance with
      | .error _ => (s, .silent)
      | .ok s2 =>
        match AddOrder s2 userID order f.addOrder with
        | .error _ => (s2, .silent)
        | .ok s3 => (s3, .orderConfirmation order (userDoc.balance - price))

/-- The middle of `HandleMmb`: argument parsing, the format and banned-account
checks and the price lookup. -/
def mmbValidate (s : Store) (userID : String) (chatID : Int) (args : String) (now : Int)
    (f : MmbFaults) : Store × MmbReply :=
  match Fields args with
  | [gameID, serverID, amount] =>
    if !ValidateGameID gameID then (s, .invalidGameID)
    else if !ValidateServerID serverID then (s, .invalidServerID)
    else if IsBannedAccount gameID then (s, .bannedAccount)
    else
      let customPrices := match LoadPrices s f.loadPrices with
        | .error _ => []
        | .ok m => m
      let price := GetPrice amount customPrices
      if price == 0 then (s, .invalidAmount)
      else mmbPurchase s userID chatID gameID serverID amount price now f
  | _ => (s, .invalidFormat)

/-- Source `HandleMmb` for a message from `fromID` in chat `chatID` with
argument string `args` at time `now`. -/
def HandleMmb (cfg : Config) (s : Store) (fromID chatID : Int) (args : String) (now : Int)
    (f : MmbFaults) : Store × MmbReply :=
  let userID := FormatInt fromID
  match LoadAuthorizedUsers s f.loadAuthorizedUsers with
  | .error _ => (s, .silent)
  | .ok authorizedUsers =>
    if !isAuthorized cfg authorizedUsers userID then (s, .notAuthorized)
    else
      let loaded : Store × Option Settings := match LoadSettings s [] [] [] [] f.loadSettings with
        | .error _ => (s, none)
        | .ok (s1, config) => (s1, some config)
      if maintenanceOff loaded.2 "orders" then (loaded.1, .maintenance)
      else
        let hasPending := match HasPendingTopup loaded.1 userID f.hasPendingTopup with
          | .error _ => false
          | .ok b => b
        if hasPending then (loaded.1, .pendingTopupWarning)
        else mmbValidate loaded.1 userID chatID args now f

/-! ## Resolve callbacks (`handlers/callback_handlers.go`) -/

/-- What a callback handler does besides its store effect. -/
inductive CallbackReply where
  | ignored
  | orderConfirmed (orderID : String) (targetUserID : String)
  | orderCancelled (orderID : String) (targetUserID : String) (refundAmount : Int)
  | topupApproved (topupID : String) (targetUserID : String)
  | topupRejected (topupID : String) (targetUserID : String)
  | paymentInstructions (paymentMethod : String) (amount : Int)
  deriving DecidableEq, Repr

/-- Source `isAdmin`: the id string parses to the configured admin id. -/
def isAdmin (cfg : Config) (userID : String) : Bool :=
  match Atoi userID with
  | some userIDInt => userIDInt == cfg.AdminID
  | none => false

/-- Go `strings.TrimPrefix`. -/
def trimLeading (s pre : String) : String :=
  if pre.toList.isPrefixOf s.toList then String.mk (s.toList.drop pre.length) else s

/-- Source `handleOrderConfirm`. -/
def handleOrderConfirm (cfg : Config) (r : PosRule) (s : Store) (fromID : Int)
    (adminName data : String) (now : Int) (fault : Bool) : Store × CallbackReply :=
  if !isAdmin cfg (FormatInt fromID) then (s, .ignored)
  else
    let orderID := trimLeading data "order_confirm_"
    let updates : OrderUpdates :=
      { status := some "confirmed", confirmed_by := some adminName, confirmed_at := some now,
        cancelled_by := none, cancelled_at := none }
    match FindAndUpdateOrder r s orderID updates fault with
    | .error _ => (s, .ignored)
    | .ok (s1, targetUserID) => (s1, .orderConfirmed orderID targetUserID)

/-- Source `getOrderByID`: the mock of the source, an empty order record and no
error, whatever the id. -/
def getOrderByID (_orderID : String) : Except StoreErr Order :=
  .ok { order_id := "", game_id := "", server_id := "", amount := "", price := 0,
        status := "", timestamp := 0, user_id := "", chat_id := 0, confirmed_by := none,
        confirmed_at := none, cancelled_by := none, cancelled_at := none }

/-- Fault flags of the store calls of `handleOrderCancel`. -/
structure CancelFaults where
  findAndUpdateOrder : Bool
  updateBalance : Bool
  deriving DecidableEq, Repr

/-- Source `handleOrderCancel`: the order is read through `getOrderByID`, the
handler returns unless that record is pending, and otherwise marks the order
cancelled and credits the price of that record. -/
def handleOrderCancel (cfg : Config) (r : PosRule) (s : Store) (fromID : Int)
    (adminName data : String) (now : Int) (f : CancelFaults) : Store × CallbackReply :=
  if !isAdmin cfg (FormatInt fromID) then (s, .ignored)
  else
    let orderID := trimLeading data "order_cancel_"
    match getOrderByID orderID with
    | .error _ => (s, .ignored)
    | .ok order =>
      if order.status != "pending" then (s, .ignored)
      else
        let refundAmount := order.price
        let updates : OrderUpdates :=
          { status := some "cancelled", confirmed_by := none, confirmed_at := none,
            cancelled_by := some adminName, cancelled_at := some now }
        match FindAndUpdateOrder r s orderID updates f.findAndUpdateOrder with
        | .error _ => (s, .ignored)
        | .ok (s1, targetUserID) =>
          let s2 := match UpdateBalance s1 targetUserID refundAmount f.updateBalance with
            | .error _ => s1
            | .ok s' => s'
          (s2, .orderCancelled orderID targetUserID refundAmount)

/-- Source `processAffiliateCommission`: an empty body. -/
def processAffiliateCommission (s : Store) (_userID _topupID : String) : Store := s

/-- Source `handleTopupApprove`. -/
def handleTopupApprove (cfg : Config) (r : PosRule) (s : Store) (fromID : Int)
    (adminName data : String) (now : Int) (f : TopupFaults) : Store × CallbackReply :=
  if !isAdmin cfg (FormatInt fromID) then (s, .ignored)
  else
    let topupID := trimLeading data "topup_approve_"
    let updates : TopupUpdates :=
      { status := some "approved", approved_by := some adminName, approved_at := some now,
        rejected_by := none, rejected_at := none }
    match FindAndUpdateTopup r s topupID updates f with
    | (s1, .error _) => (s1, .ignored)
    | (s1, .ok targetUserID) =>
      (processAffiliateCommission s1 targetUserID topupID, .topupApproved topupID targetUserID)

/-- Source `handleTopupReject`. -/
def handleTopupReject (cfg : Config) (r : PosRule) (s : Store) (fromID : Int)
    (adminName data : String) (now : Int) (f : TopupFaults) : Store × CallbackReply :=
  if !isAdmin cfg (FormatInt fromID) then (s, .ignored)
  else
    let topupID := trimLeading data "topup_reject_"
    let updates : TopupUpdates :=
      { status := some "rejected", approved_by := none, approved_at := none,
        rejected_by := some adminName, rejected_at := some now }
    match FindAndUpdateTopup r s topupID updates f with
    | (s1, .error _) => (s1, .ignored)
    | (s1, .ok targetUserID) => (s1, .topupRejected topupID targetUserID)

/-- Go `strings.Split` on a one-character separator; `cur` is the current
piece reversed. -/
def splitAux (sep : Char) : List Char → List Char → List String
  | [], cur => [String.mk cur.reverse]
  | c :: cs, cur =>
    if c == sep then String.mk cur.reverse :: splitAux sep cs [] else splitAux sep cs (c :: cur)

/-- Source `handleTopupPaymentMethod`: parses `topup_pay_<method>_<amount>`,
loads the settings and shows the payment instructions; no ledger effect. -/
def handleTopupPaymentMethod (s : Store) (data : String) (fault : Bool) :
    Store × CallbackReply :=
  match splitAux '_' data.toList [] with
  | [_, _, paymentMethod, amountStr] =>
    match Atoi amountStr with
    | none => (s, .ignored)
    | some amount =>
      match LoadSettings s [] [] [] [] fault with
      | .error _ => (s, .ignored)
      | .ok (s1, _) => (s1, .paymentInstructions paymentMethod amount)
  | _ => (s, .ignored)

/-- Source `handlePhoto` (`src/main.go`): logs the sender and returns. -/
def handlePhoto (s : Store) (_fromID : Int) : Store := s

/-! ## Top-up declaration (`handlers/user_handlers.go`) -/

/-- What `HandleTopup` sends back. -/
inductive TopupReply where
  | silent
  | notAuthorized
  | maintenance
  | pendingTopupProcess
  | invalidFormat
  | invalidAmount
  | paymentMethodSelection (amount : Int)
  deriving DecidableEq, Repr

/-- Fault flags of the store calls of `HandleTopup`. -/
structure TopupCmdFaults where
  loadAuthorizedUsers : Bool
  loadSettings : Bool
  hasPendingTopup : Bool
  deriving DecidableEq, Repr

/-- Source `HandleTopup`: the checks of the declare step; nothing is recorded. -/
def HandleTopup (cfg : Config) (s : Store) (fromID : Int) (args : String)
    (f : TopupCmdFaults) : Store × TopupReply :=
  let userID := FormatInt fromID
  match LoadAuthorizedUsers s f.loadAuthorizedUsers with
  | .error _ => (s, .silent)
  | .ok authorizedUsers =>
    if !isAuthorized cfg authorizedUsers userID then (s, .notAuthorized)
    else
      let loaded : Store × Option Settings := match LoadSettings s [] [] [] [] f.loadSettings with
        | .error _ => (s, none)
        | .ok (s1, config) => (s1, some config)
      if maintenanceOff loaded.2 "topups" then (loaded.1, .maintenance)
      else
        let hasPending := match HasPendingTopup loaded.1 userID f.hasPendingTopup with
          | .error _ => false
          | .ok b => b
        if hasPending then (loaded.1, .pendingTopupProcess)
        else
          match Fields args with
          | [amountStr] =>
            match Atoi amountStr with
            | none => (loaded.1, .invalidAmount)
            | some amount =>
              if amount < 1000 then (loaded.1, .invalidAmount)
              else (loaded.1, .paymentMethodSelection amount)
          | _ => (loaded.1, .invalidFormat)

/-! ## Admin commands (`handlers/admin_handlers.go`) -/

/-- What an admin command sends back. -/
inductive AdminReply where
  | notAdmin
  | invalidFormat
  | invalidAmount
  | userNotFound
  | topupNotFound
  | approvalError
  | approved (userID : String) (amount : Int)
  | insufficientBalance (amount : Int) (balance : Int)
  | deductionError
  | deducted (userID : String) (amount : Int) (newBalance : Int)
  | setPriceHelp
  | invalidBatchPriceCount (expected : Nat)
  | invalidPriceInBatch (item : String)
  | priceUpdateError
  | priceUpdated (item : String) (price : Int)
  | batchPriceUpdated (category : String)
  | weeklyPassUpdated (basePricePerWeek : Int)
  deriving DecidableEq, Repr

/-- Fault flags of the store calls of `HandleDeduct`. -/
structure DeductFaults where
  getUser : Bool
  updateBalance : Bool
  deriving DecidableEq, Repr

/-- Source `HandleDeduct`. -/
def HandleDeduct (cfg : Config) (s : Store) (fromID : Int) (args : String)
    (f : DeductFaults) : Store × AdminReply :=
  if !isAdmin cfg (FormatInt fromID) then (s, .notAdmin)
  else
    match Fields args with
    | [targetUserID, amountStr] =>
      match Atoi amountStr with
      | none => (s, .invalidAmount)
      | some amount =>
        if amount ≤ 0 then (s, .invalidAmount)
        else
          match GetUser s targetUserID f.getUser with
          | .error _ => (s, .userNotFound)
          | .ok none => (s, .userNotFound)
          | .ok (some userDoc) =>
            if userDoc.balance < amount then (s, .insufficientBalance amount userDoc.balance)
            else
              match UpdateBalance s targetUserID (-amount) f.updateBalance with
              | .error _ => (s, .deductionError)
              | .ok s1 => (s1, .deducted targetUserID amount (userDoc.balance - amount))
    | _ => (s, .invalidFormat)

/-- Source `findPendingTopup`: the id of the user's first pending top-up with
the given amount. -/
def findPendingTopup (s : Store) (userID : String) (amount : Int) (fault : Bool) :
    Except StoreErr String :=
  match GetUser s userID fault with
  | .error e => .error e
  | .ok none => .error .errNoDocuments
  | .ok (some userDoc) =>
    match userDoc.topups.find? (fun t => t.status == "pending" && t.amount == amount) with
    | some t => .ok t.topup_id
    | none => .error .errNoDocuments

/-- Fault flags of the store calls of `HandleApprove`. -/
structure ApproveFaults where
  findPendingTopup : Bool
  findAndUpdateTopup : TopupFaults
  deriving DecidableEq, Repr

/-- Source `HandleApprove`. -/
def HandleApprove (cfg : Config) (r : PosRule) (s : Store) (fromID : Int)
    (adminName args : String) (now : Int) (f : ApproveFaults) : Store × AdminReply :=
  if !isAdmin cfg (FormatInt fromID) then (s, .notAdmin)
  else
    match Fields args with
    | [targetUserID, amountStr] =>
      match Atoi amountStr with
      | none => (s, .invalidAmount)
      | some amount =>
        match findPendingTopup s targetUserID amount f.findPendingTopup with
        | .error _ => (s, .topupNotFound)
        | .ok topupID =>
          let updates : TopupUpdates :=
            { status := some "approved", approved_by := some adminName,
              approved_at := some now, rejected_by := none, rejected_at := none }
          match FindAndUpdateTopup r s topupID updates f.findAndUpdateTopup with
          | (s1, .error _) => (s1, .approvalError)
          | (s1, .ok _) => (s1, .approved targetUserID amount)
    | _ => (s, .invalidFormat)

/-! ### Price updates -/

/-- A non-negative finite `float64`: the value `m * 2 ^ e`. -/
structure F64 where
  m : Nat
  e : Int
  deriving DecidableEq, Repr

/-- Worker of `floorLog2`: halving with fuel. -/
def log2Fuel : Nat → Nat → Nat
  | 0, _ => 0
  | fuel + 1, n => if n < 2 then 0 else log2Fuel fuel (n / 2) + 1

/-- The position of the highest set bit of `n` (`0` for `n < 2`). -/
def floorLog2 (n : Nat) : Nat := log2Fuel n n

/-- The `float64` nearest to `num / den` (ties to even), for values in the
normal range. -/
def F64.round (num den : Nat) : F64 :=
  if num = 0 ∨ den = 0 then { m := 0, e := 0 }
  else
    let e0 : Int := (floorLog2 num : Int) - (floorLog2 den : Int) - 52
    let scaledNum : Int → Nat := fun e => if e ≥ 0 then num else num * 2 ^ (-e).toNat
    let scaledDen : Int → Nat := fun e => if e ≥ 0 then den * 2 ^ e.toNat else den
    let e := if scaledNum e0 < 2 ^ 52 * scaledDen e0 then e0 - 1 else e0
    let q := scaledNum e / scaledDen e
    let rem := scaledNum e % scaledDen e
    let up := 2 * rem > scaledDen e ∨ (2 * rem = scaledDen e ∧ q % 2 = 1)
    { m := if up then q + 1 else q, e := e }

/-- Conversion `float64(n)` of a non-negative integer. -/
def F64.ofNat (n : Nat) : F64 := F64.round n 1

/-- Division of `float64` values. -/
def F64.div (x y : F64) : F64 :=
  F64.round (x.m * 2 ^ x.e.toNat * 2 ^ (-y.e).toNat) (y.m * 2 ^ y.e.toNat * 2 ^ (-x.e).toNat)

/-- Multiplication of `float64` values. -/
def F64.mul (x y : F64) : F64 :=
  F64.round (x.m * y.m * 2 ^ (x.e + y.e).toNat) (2 ^ (-(x.e + y.e)).toNat)

/-- Conversion `int(x)`: truncation.  For a value that does not fit into 64
bits the language leaves the result to the implementation; it is modelled as
on amd64, where it is the smallest `int`. -/
def F64.toInt (x : F64) : Int :=
  if x.m * 2 ^ x.e.toNat / 2 ^ (-x.e).toNat < 9223372036854775808 then
    ((x.m * 2 ^ x.e.toNat / 2 ^ (-x.e).toNat : Nat) : Int)
  else -9223372036854775808

/-- Go `strings.ToLower` as far as ASCII letters go: `A` to `Z` are lowered
and every other character is kept.  Go also lowers the upper-case letters
outside ASCII, which this model keeps as they are, so the two agree on every
string without such a letter. -/
def ToLower (s : String) : String := String.mk (s.toList.map Char.toLower)

/-- The SKU list of the `normal` batch. -/
def normalDiamonds : List String :=
  ["11", "22", "33", "56", "86", "112", "172", "257", "343",
   "429", "514", "600", "706", "878", "963", "1049", "1135",
   "1412", "2195", "3688", "5532", "9288", "12976"]

/-- The SKU list of the `2x` batch. -/
def doublePass : List String := ["55", "165", "275", "565"]

/-- The loop of the batch updates: assigns the parsed prices in order and
stops at the first price that is not a non-negative integer, naming its SKU. -/
def batchAssign : List String → List String → List (String × Value) →
    Except String (List (String × Value))
  | diamond :: ds, p :: ps, m =>
    match Atoi p with
    | none => .error diamond
    | some price =>
      if price < 0 then .error diamond
      else batchAssign ds ps (insertKey m diamond (.int price))
  | _, _, m => .ok m

/-- Source `handleNormalDiamondsBatchUpdate` and `handle2xDiamondsBatchUpdate`,
which differ in the SKU list and the category name only. -/
def handleBatchUpdate (s : Store) (items : List String) (category : String)
    (prices : List String) (customPrices : List (String × Value)) (fault : Bool) :
    Store × AdminReply :=
  if prices.length ≠ items.length then (s, .invalidBatchPriceCount items.length)
  else
    match batchAssign items prices customPrices with
    | .error diamond => (s, .invalidPriceInBatch diamond)
    | .ok m =>
      match SavePrices s m fault with
      | .error _ => (s, .priceUpdateError)
      | .ok s1 => (s1, .batchPriceUpdated category)

/-- The price stored for `wp<i>` by the weekly-pass update. -/
def weeklyPrice (price weekNum : Nat) (i : Nat) : Int :=
  F64.toInt (F64.mul (F64.div (F64.ofNat price) (F64.ofNat weekNum)) (F64.ofNat i))

/-- Source `handleWeeklyPassUpdate`. -/
def handleWeeklyPassUpdate (s : Store) (weekNum price : Nat)
    (customPrices : List (String × Value)) (fault : Bool) : Store × AdminReply :=
  let m := (List.range 10).foldl
    (fun acc k => insertKey acc ("wp" ++ FormatInt ((k + 1 : Nat) : Int))
      (.int (weeklyPrice price weekNum (k + 1))))
    customPrices
  match SavePrices s m fault with
  | .error _ => (s, .priceUpdateError)
  | .ok s1 =>
    (s1, .weeklyPassUpdated (F64.toInt (F64.div (F64.ofNat price) (F64.ofNat weekNum))))

/-- Fault flags of the store calls of `HandleSetPrice`. -/
structure SetPriceFaults where
  loadPrices : Bool
  savePrices : Bool
  deriving DecidableEq, Repr

/-- Source `HandleSetPrice`. -/
def HandleSetPrice (cfg : Config) (s : Store) (fromID : Int) (args : String)
    (f : SetPriceFaults) : Store × AdminReply :=
  if !isAdmin cfg (FormatInt fromID) then (s, .notAdmin)
  else
    match Fields args with
    | [] => (s, .setPriceHelp)
    | [_] => (s, .setPriceHelp)
    | arg0 :: rest =>
      let item := ToLower arg0
      let customPrices := match LoadPrices s f.loadPrices with
        | .error _ => []
        | .ok m => m
      if item == "normal" then
        handleBatchUpdate s normalDiamonds "Normal Diamonds" rest customPrices f.savePrices
      else if item == "2x" then
        handleBatchUpdate s doublePass "2X Diamonds" rest customPrices f.savePrices
      else
        match rest with
        | [priceStr] =>
          match Atoi priceStr with
          | none => (s, .invalidAmount)
          | some price =>
            if price < 0 then (s, .invalidAmount)
            else
              match weekNumOf item with
              | some weekNum =>
                handleWeeklyPassUpdate s weekNum.toNat price.toNat customPrices f.savePrices
              | none =>
                match SavePrices s (insertKey customPrices item (.int price)) f.savePrices with
                | .error _ => (s, .priceUpdateError)
                | .ok s1 => (s1, .priceUpdated item price)
        | _ => (s, .invalidFormat)

/-! ## Sequential runs of the ledger -/

/-- One inbound event with the environment's choices (time, store faults). -/
inductive Op where
  | mmb (fromID chatID : Int) (args : String) (now : Int) (f : MmbFaults)
  | topup (fromID : Int) (args : String) (f : TopupCmdFaults)
  | paymentMethod (data : String) (fault : Bool)
  | photo (fromID : Int)
  | topupApprove (fromID : Int) (adminName data : String) (now : Int) (f : TopupFaults)
  | topupReject (fromID : Int) (adminName data : String) (now : Int) (f : TopupFaults)
  | orderConfirm (fromID : Int) (adminName data : String) (now : Int) (fault : Bool)
  | orderCancel (fromID : Int) (adminName data : String) (now : Int) (f : CancelFaults)
  | approve (fromID : Int) (adminName args : String) (now : Int) (f : ApproveFaults)
  | deduct (fromID : Int) (args : String) (f : DeductFaults)
  | setPrice (fromID : Int) (args : String) (f : SetPriceFaults)
  deriving DecidableEq, Repr

/-- The store after one event. -/
def step (cfg : Config) (r : PosRule) (s : Store) : Op → Store
  | .mmb fromID chatID args now f => (HandleMmb cfg s fromID chatID args now f).1
  | .topup fromID args f => (HandleTopup cfg s fromID args f).1
  | .paymentMethod data fault => (handleTopupPaymentMethod s data fault).1
  | .photo fromID => handlePhoto s fromID
  | .topupApprove fromID adminName data now f =>
    (handleTopupApprove cfg r s fromID adminName data now f).1
  | .topupReject fromID adminName data now f =>
    (handleTopupReject cfg r s fromID adminName data now f).1
  | .orderConfirm fromID adminName data now fault =>
    (handleOrderConfirm cfg r s fromID adminName data now fault).1
  | .orderCancel fromID adminName data now f =>
    (handleOrderCancel cfg r s fromID adminName data now f).1
  | .approve fromID adminName args now f => (HandleApprove cfg r s fromID adminName args now f).1
  | .deduct fromID args f => (HandleDeduct cfg s fromID args f).1
  | .setPrice fromID args f => (HandleSetPrice cfg s fromID args f).1

/-- The store after a sequence of events, handled one at a time. -/
def run (cfg : Config) (r : PosRule) (s : Store) (ops : List Op) : Store :=
  ops.foldl (step cfg r) s

/-- Every user's balance is non-negative. -/
def BalancesNonneg (s : Store) : Prop := ∀ u ∈ s.users, 0 ≤ u.balance

/-- No store call fails during `HandleMmb`. -/
def noMmbFaults : MmbFaults :=
  { loadAuthorizedUsers := false, loadSettings := false, hasPendingTopup := false,
    loadPrices := false, getUser := false, updateBalance := false, addOrder := false }

/-- No store call fails during `FindAndUpdateTopup`. -/
def noTopupFaults : TopupFaults :=
  { findOne := false, findOneAndUpdate := false, updateBalance := false }

/-- The settings document that `LoadSettings` leaves behind when the handlers
call it with empty defaults. -/
def settingsAfterLoad (settings : Option Settings) : Option Settings :=
  match settings with
  | some config => some config
  | none => some { payment_info := some [], maintenance := some [],
                   affiliate := some [], auto_delete := some [] }

/-! ## The precondition list of the purchase flow, as specified -/

/-- The preconditions of the purchase flow in the order the specification
lists them, each with whether it passes and the response sent when it fails:
caller authorized, orders not in maintenance, no pending top-up, exactly three
arguments, game id format, server id format, banned-account heuristic, SKU
resolves to a price, balance at least the price.  The balance check is the
one on the caller's record; for a caller without a record it does not count
as failed. -/
def mmbChecks (cfg : Config) (s : Store) (fromID : Int) (args : String) :
    List (Bool × MmbReply) :=
  let userID := FormatInt fromID
  let user := s.users.find? (fun u => u.user_id == userID)
  let fs := Fields args
  let price := GetPrice (fs.getD 2 "") (s.prices.getD [])
  [(isAuthorized cfg (s.authorized.getD []) userID, .notAuthorized),
   (!maintenanceOff s.settings "orders", .maintenance),
   (!(match user with
      | some u => u.topups.any (fun t => t.status == "pending")
      | none => false), .pendingTopupWarning),
   (fs.length == 3, .invalidFormat),
   (ValidateGameID (fs.getD 0 ""), .invalidGameID),
   (ValidateServerID (fs.getD 1 ""), .invalidServerID),
   (!IsBannedAccount (fs.getD 0 ""), .bannedAccount),
   (price != 0, .invalidAmount),
   (match user with
    | some u => decide (price ≤ u.balance)
    | none => true,
    .insufficientBalance price (match user with
      | some u => u.balance
      | none => 0))]

/-- The response of the first check that does not pass, if any. -/
def firstFailure : List (Bool × MmbReply) → Option MmbReply
  | [] => none
  | (passes, reply) :: rest => if passes then firstFailure rest else some reply

/-! ## Example states -/

/-- The configuration of the examples: admin `42`. -/
def adminCfg : Config := { AdminID := 42, AdminGroupID := -100 }

/-- An order of user `1001` as `HandleMmb` stores it, with the given status. -/
def mkOrder (orderID amount : String) (price : Int) (status : String) : Order :=
  { order_id := orderID, game_id := "12345678", server_id := "1234", amount := amount,
    price := price, status := status, timestamp := 1700000000, user_id := "1001",
    chat_id := 1001, confirmed_by := none, confirmed_at := none, cancelled_by := none,
    cancelled_at := none }

/-- A top-up of user `1001` with the given status. -/
def mkTopup (topupID : String) (amount : Int) (status : String) : Topup :=
  { topup_id := topupID, amount := amount, payment_method := "kpay", status := status,
    timestamp := 1700000000, user_id := "1001", chat_id := 1001, approved_by := none,
    approved_at := none, rejected_by := none, rejected_at := none }

/-- The record of user `1001`. -/
def mkUser (balance : Int) (orders : List Order) (topups : List Topup) : User :=
  { user_id := "1001", name := "Aye", username := "aye", balance := balance, orders := orders,
    topups := topups, joined_at := 1690000000, referred_by := none, referral_earnings := 0 }

/-- A store holding the single user `1001`, who is authorized. -/
def mkStore (balance : Int) (orders : List Order) (topups : List Topup)
    (prices : Option (List (String × Value))) : Store :=
  { users := [mkUser balance orders topups], prices := prices, authorized := some ["1001"],
    settings := none }

/-- User `1001` bought SKU `86` at 5100 (balance now 0); the order is pending
and the price table has since been changed to 6000. -/
def cancelStore : Store :=
  mkStore 0 [mkOrder "ORD1700000000" "86" 5100 "pending"] [] (some [("86", .int32 6000)])

/-- The update map of `handleOrderConfirm` for admin `Admin` at time `now`. -/
def confirmUpdates (now : Int) : OrderUpdates :=
  { status := some "confirmed", confirmed_by := some "Admin", confirmed_at := some now,
    cancelled_by := none, cancelled_at := none }

/-- User `1001` holds an order that the admin confirmed at time 1700000060 and
a second order that is still pending. -/
def twoOrdersStore : Store :=
  mkStore 100 [applyOrderUpdates (confirmUpdates 1700000060)
                 (mkOrder "ORD1700000000" "11" 950 "pending"),
               mkOrder "ORD1700000050" "86" 5100 "pending"] [] none

/-- The status and confirmation time of all orders, user by user. -/
def orderStamps (s : Store) : List (List (String × Option Int)) :=
  s.users.map (fun u => u.orders.map (fun o => (o.status, o.confirmed_at)))

/-- The statuses of all orders, user by user. -/
def orderStatuses (s : Store) : List (List String) :=
  s.users.map (fun u => u.orders.map (fun o => o.status))

/-- The balances of all users. -/
def balances (s : Store) : List Int := s.users.map (fun u => u.balance)

/-- The statuses of all top-ups, user by user. -/
def topupStatuses (s : Store) : List (List String) :=
  s.users.map (fun u => u.topups.map (fun t => t.status))

/-- The update map of `handleTopupApprove` for admin `Admin` at time `now`. -/
def approveUpdates (now : Int) : TopupUpdates :=
  { status := some "approved", approved_by := some "Admin", approved_at := some now,
    rejected_by := none, rejected_at := none }

/-- User `1001` has balance 1000 and one pending top-up whose stored amount is
negative. -/
def negativeTopupStore : Store :=
  mkStore 1000 [] [mkTopup "TOP17000000001001" (-500) "pending"] none

/-- Approval of the top-up of `negativeTopupStore` through the store call. -/
def approveNegative (r : PosRule) : Store × Except StoreErr String :=
  FindAndUpdateTopup r negativeTopupStore "TOP17000000001001" (approveUpdates 1700000100)
    noTopupFaults

/-- User `1001` has balance 0 and one pending top-up of 5000. -/
def pendingTopupStore : Store :=
  mkStore 0 [] [mkTopup "TOP17000000001001" 5000 "pending"] none

/-- User `1001` has balance 0 and two pending top-ups, of 5000 and of 3000. -/
def twoTopupsStore : Store :=
  mkStore 0 [] [mkTopup "TOP17000000001001" 5000 "pending",
                mkTopup "TOP17000000501001" 3000 "pending"] none

/-- The admin's approve action on the first top-up of `twoTopupsStore`. -/
def approveFirst (r : PosRule) (s : Store) (now : Int) : Store × CallbackReply :=
  handleTopupApprove adminCfg r s 42 "Admin" "topup_approve_TOP17000000001001" now noTopupFaults

/-- No store call fails during `HandleTopup`. -/
def noTopupCmdFaults : TopupCmdFaults :=
  { loadAuthorizedUsers := false, loadSettings := false, hasPendingTopup := false }

/-- The store calls of `HandleMmb` succeed up to and including the debit, and
the order append fails. -/
def addOrderFails : MmbFaults :=
  { loadAuthorizedUsers := false, loadSettings := false, hasPendingTopup := false,
    loadPrices := false, getUser := false, updateBalance := false, addOrder := true }

/-- The first half of the end-to-end scenario: user `1001` (balance 0) declares
a top-up of 5000, selects the first payment method and sends the screenshot. -/
def afterProofStore (r : PosRule) : Store :=
  run adminCfg r (mkStore 0 [] [] none)
    [.topup 1001 "5000" noTopupCmdFaults, .paymentMethod "topup_pay_kpay_5000" false,
     .photo 1001]

/-- The second half of the end-to-end scenario, from a balance of 5000: user
`1001` buys SKU `11` and the admin then cancels the resulting order. -/
def afterCancelStore (r : PosRule) : Store :=
  run adminCfg r (mkStore 5000 [] [] none)
    [.mmb 1001 1001 "12345678 1234 11" 1700000300 noMmbFaults,
     .orderCancel 42 "Admin" "order_cancel_ORD1700000300" 1700000400
       { findAndUpdateOrder := false, updateBalance := false }]

/-- User `1001` holds one confirmed order and one approved top-up; nothing is
pending. -/
def resolvedStore : Store :=
  mkStore 0 [mkOrder "ORD1700000000" "11" 950 "confirmed"]
    [mkTopup "TOP17000000001001" 5000 "approved"] none

/-- The referrer `2002` (balance 0, no earnings) and the user `1001`, who was
referred by `2002` and has one pending top-up of 5000. -/
def referralStore : Store :=
  { users :=
      [{ user_id := "2002", name := "Su", username := "su", balance := 0, orders := [],
         topups := [], joined_at := 1680000000, referred_by := none, referral_earnings := 0 },
       { mkUser 0 [] [mkTopup "TOP17000000001001" 5000 "pending"] with
           referred_by := some "2002" }],
    prices := none, authorized := some ["1001", "2002"], settings := none }

/-- Per user: id, balance and referral earnings. -/
def earnings (s : Store) : List (String × Int × Int) :=
  s.users.map (fun u => (u.user_id, u.balance, u.referral_earnings))

/-- No store call fails during `HandleSetPrice`. -/
def noSetPriceFaults : SetPriceFaults := { loadPrices := false, savePrices := false }

/-- User `1001` has balance 10000 and the admin has set the price of SKU `86`
to 6000 through `/setprice 86 6000`. -/
def afterSetPriceStore : Store :=
  (HandleSetPrice adminCfg (mkStore 10000 [] [] none) 42 "86 6000" noSetPriceFaults).1

/-- An optional sign followed by at least one decimal digit and nothing else:
the strings on which `strconv.Atoi` does not report a syntax error. -/
def isSignedDecimal (s : String) : Bool :=
  let cs := s.toList
  let ds := if cs.head? == some '-' || cs.head? == some '+' then cs.tail else cs
  !ds.isEmpty && ds.all Char.isDigit

/-- The table after assigning the `i`-th price to the `i`-th item, in order. -/
def batchResult (items : List String) (prices : List Int) (m : List (String × Value)) :
    List (String × Value) :=
  (items.zip prices).foldl (fun acc kp => insertKey acc kp.1 (.int kp.2)) m

/-- No store call fails during `HandleDeduct`. -/
def noDeductFaults : DeductFaults := { getUser := false, updateBalance := false }

/-- The document that `CreateUser` inserts for a user without a record. -/
def newUser (userID name username : String) (referrerID : Option String) (now : Int) : User :=
  { user_id := userID, name := name, username := username, balance := 0, orders := [],
    topups := [], joined_at := now, referred_by := referrerID, referral_earnings := 0 }

/-- Store call `CreateUser`: an upsert on `{user_id}` whose update holds
`$setOnInsert` only, so a record that exists is left as it is and otherwise
the new document is inserted. -/
def CreateUser (s : Store) (userID name username : String) (referrerID : Option String)
    (now : Int) (fault : Bool) : Except StoreErr Store :=
  if fault then .error .unavailable
  else if s.users.any (fun u => u.user_id == userID) then .ok s
  else .ok { s with users := s.users ++ [newUser userID name username referrerID now] }

/-- Users `1001` and `2002`, both authorized, each with a balance of 5000. -/
def twoBuyersStore : Store :=
  { users := [mkUser 5000 [] [], { mkUser 5000 [] [] with user_id := "2002", name := "Su" }],
    prices := none, authorized := some ["1001", "2002"], settings := none }

/-- The order ids held by each user. -/
def orderIds (s : Store) : List (List String) :=
  s.users.map (fun u => u.orders.map (fun o => o.order_id))

/-- Users `1001` and `3003` are authorized; `3003` has never sent `/start`, so
only `1001` has a record. -/
def noRecordStore : Store :=
  { users := [mkUser 5000 [] []], prices := none, authorized := some ["1001", "3003"],
    settings := none }

/-! ## Maintenance switches (`handlers/admin_handlers.go`) -/

/-- Store call `UpdateSetting` at the key `maintenance.<feature>` with a
boolean value, the only form in which `HandleMaintenance` calls it: a `$set`
of the dotted path with upsert, which creates the settings document and the
`maintenance` sub-document when they are absent. -/
def UpdateSetting (s : Store) (feature : String) (value : Bool) (fault : Bool) :
    Except StoreErr Store :=
  if fault then .error .unavailable
  else
    match s.settings with
    | none =>
      .ok { s with settings := some { payment_info := none,
                                      maintenance := some [(feature, .bool value)],
                                      affiliate := none, auto_delete := none } }
    | some config =>
      .ok { s with settings := some { config with
              maintenance := some (insertKey (config.maintenance.getD []) feature
                (.bool value)) } }

/-- Source `isValidFeature`. -/
def isValidFeature (feature : String) : Bool :=
  ["orders", "topups", "general"].contains feature

/-- Source `isValidStatus`. -/
def isValidStatus (status : String) : Bool := status == "on" || status == "off"

/-- What `HandleMaintenance` sends back. -/
inductive MaintenanceReply where
  | notAdmin
  | help
  | invalidFeature
  | invalidStatus
  | updateError
  | updated (feature : String) (newStatus : Bool)
  deriving DecidableEq, Repr

/-- Source `HandleMaintenance`. -/
def HandleMaintenance (cfg : Config) (s : Store) (fromID : Int) (args : String)
    (fault : Bool) : Store × MaintenanceReply :=
  if !isAdmin cfg (FormatInt fromID) then (s, .notAdmin)
  else
    match Fields args with
    | [arg0, arg1] =>
      let feature := ToLower arg0
      let status := ToLower arg1
      if !isValidFeature feature then (s, .invalidFeature)
      else if !isValidStatus status then (s, .invalidStatus)
      else
        let newStatus := status == "on"
        match UpdateSetting s feature newStatus fault with
        | .error _ => (s, .updateError)
        | .ok s1 => (s1, .updated feature newStatus)
    | _ => (s, .help)

/-- The value stored at `maintenance.<feature>` in the settings document, if
there is one. -/
def maintenanceFlag (s : Store) (feature : String) : Option Value :=
  match s.settings with
  | some config =>
    match config.maintenance with
    | some maintenance => lookupKey maintenance feature
    | none => none
  | none => none

/-! ## Non-negative prices -/

/-- A price-table value is not a negative integer. -/
def valueNonneg : Value → Bool
  | .int n => decide (0 ≤ n)
  | .int32 n => decide (0 ≤ n)
  | .int64 n => decide (0 ≤ n)
  | _ => true

/-- Every integer entry of a price table is at least 0. -/
def EntriesNonneg (m : List (String × Value)) : Prop := ∀ kv ∈ m, valueNonneg kv.2 = true

/-- The integer part of a `float64`. -/
def F64.trunc (x : F64) : Nat := x.m * 2 ^ x.e.toNat / 2 ^ (-x.e).toNat

/-- The ten `float64` products `(price / weekNum) * i` of the weekly-pass
update have an integer part below `2 ^ 63`, so that their conversion to `int`
is the truncation. -/
def weeklyFits (price weekNum : Nat) : Bool :=
  (List.range 10).all (fun k =>
    decide ((F64.mul (F64.div (F64.ofNat price) (F64.ofNat weekNum)) (F64.ofNat (k + 1))).trunc
      < 9223372036854775808))

/-- How `HandleMmb` may change a user record: same id, a balance that is not
higher, and every order either held before or with a positive price. -/
def PurchaseStep (u u' : User) : Prop :=
  u'.user_id = u.user_id ∧ u'.balance ≤ u.balance ∧
    ∀ o ∈ u'.orders, o ∈ u.orders ∨ 0 < o.price

/-! ## Pending top-ups per user -/

/-- The number of top-ups of a user with status pending. -/
def pendingCount (u : User) : Nat :=
  (u.topups.filter (fun t => t.status == "pending")).length

/-- Every user has at most one pending top-up. -/
def AtMostOnePending (s : Store) : Prop := ∀ u ∈ s.users, pendingCount u ≤ 1

/-- Users `1001` and `2002` have both bought in the second 1700000000: each
holds one pending order, and both orders carry the id `ORD1700000000`. -/
def sameSecondOrdersStore : Store :=
  run adminCfg .byId twoBuyersStore
    [.mmb 1001 1001 "12345678 1234 11" 1700000000 noMmbFaults,
     .mmb 2002 2002 "87654321 4321 22" 1700000000 noMmbFaults]

/-- User `1001` holds two pending orders. -/
def twoPendingOrdersStore : Store :=
  mkStore 0 [mkOrder "ORD1700000000" "11" 950 "pending",
             mkOrder "ORD1700000050" "86" 5100 "pending"] [] none

/-- Users `10001234` and `20001234` each hold one pending top-up; both top-ups
carry the id that `GenerateTopupID` gives the two users in the second
1700000000. -/
def sameIdTopupsStore : Store :=
  { users :=
      [{ mkUser 0 [] [{ mkTopup "TOP17000000001234" 5000 "pending" with
                          user_id := "10001234", chat_id := 10001234 }] with
           user_id := "10001234" },
       { mkUser 0 [] [{ mkTopup "TOP17000000001234" 3000 "pending" with
                          user_id := "20001234", chat_id := 20001234 }] with
           user_id := "20001234", name := "Su", username := "su" }],
    prices := none, authorized := some ["10001234", "20001234"], settings := none }

/-! # Verification -/

/-! ## Order cancellation -/

/-- The cancel handler never changes the store: the record it inspects comes
from `getOrderByID`, whose status is empty. -/
theorem handleOrderCancel_eq (cfg : Config) (r : PosRule) (s : Store) (fromID : Int)
    (adminName data : String) (now : Int) (f : CancelFaults) :
    handleOrderCancel cfg r s fromID adminName data now f = (s, .ignored) := by
  unfold handleOrderCancel getOrderByID
  split <;> simp

/-- C1 (the code at the failing input): the admin's cancel action on the
pending order of `cancelStore` (stored price 5100) leaves the store as it was,
so the order is still pending and the owner's balance is still 0, under either
positional rule. -/
theorem handleOrderCancel_keeps_pending_order :
    ∀ r : PosRule,
      handleOrderCancel adminCfg r cancelStore 42 "Admin" "order_cancel_ORD1700000000"
          1700000100 { findAndUpdateOrder := false, updateBalance := false }
        = (cancelStore, CallbackReply.ignored) ∧
      cancelStore.users.map (fun u => (u.balance, u.orders.map (fun o => (o.status, o.price))))
        = [(0, [("pending", 5100)])] := by
  intro r
  refine ⟨?_, by decide⟩
  cases r <;> decide

/-- C2 (the code at the failing input): in `twoOrdersStore` the order
`ORD1700000000` is already confirmed, yet resolving it again succeeds because
its owner has another pending order: `FindAndUpdateOrder` returns the owner
without error and the confirm action rewrites an order, the confirmed one
(stamped anew) under the rule by id and the other, pending one (now confirmed)
under the rule by status. -/
theorem handleOrderConfirm_on_resolved_order_succeeds :
    (∀ r : PosRule,
      (FindAndUpdateOrder r twoOrdersStore "ORD1700000000" (confirmUpdates 1700000100)
        false).toOption.map Prod.snd = some "1001") ∧
    orderStamps twoOrdersStore = [[("confirmed", some 1700000060), ("pending", none)]] ∧
    orderStamps (handleOrderConfirm adminCfg .byId twoOrdersStore 42 "Admin"
        "order_confirm_ORD1700000000" 1700000100 false).1
      = [[("confirmed", some 1700000100), ("pending", none)]] ∧
    orderStamps (handleOrderConfirm adminCfg .byStatus twoOrdersStore 42 "Admin"
        "order_confirm_ORD1700000000" 1700000100 false).1
      = [[("confirmed", some 1700000060), ("confirmed", some 1700000100)]] := by
  refine ⟨?_, by decide, by decide, by decide⟩
  intro r
  cases r <;> decide

/-! ## First-match lemmas -/

theorem find?_append_cons_first {α : Type} (p : α → Bool) (pre post : List α) (x : α)
    (hpre : ∀ y ∈ pre, p y = false) (hx : p x = true) :
    (pre ++ x :: post).find? p = some x := by
  induction pre with
  | nil => simp [hx]
  | cons y ys ih =>
    have hy : p y = false := hpre y (by simp)
    have hys : ∀ z ∈ ys, p z = false := fun z hz => hpre z (by simp [hz])
    simp [List.find?, hy, ih hys]

theorem modifyFirst_append_cons_first {α : Type} (p : α → Bool) (f : α → α)
    (pre post : List α) (x : α) (hpre : ∀ y ∈ pre, p y = false) (hx : p x = true) :
    modifyFirst p f (pre ++ x :: post) = pre ++ f x :: post := by
  induction pre with
  | nil => simp [modifyFirst, hx]
  | cons y ys ih =>
    have hy : p y = false := hpre y (by simp)
    have hys : ∀ z ∈ ys, p z = false := fun z hz => hpre z (by simp [hz])
    simp [modifyFirst, hy, ih hys]

theorem modifyFirst_eq_self_of_forall {α : Type} (p : α → Bool) (f : α → α) (l : List α)
    (h : ∀ y ∈ l, p y = false) : modifyFirst p f l = l := by
  induction l with
  | nil => rfl
  | cons y ys ih =>
    have hy : p y = false := h y (by simp)
    have hys : ∀ z ∈ ys, p z = false := fun z hz => h z (by simp [hz])
    simp [modifyFirst, hy, ih hys]

theorem find?_eq_some_split {α : Type} (p : α → Bool) (l : List α) (x : α)
    (h : l.find? p = some x) :
    ∃ pre post, l = pre ++ x :: post ∧ (∀ y ∈ pre, p y = false) ∧ p x = true := by
  induction l with
  | nil => simp at h
  | cons y ys ih =>
    by_cases hy : p y = true
    · simp [List.find?, hy] at h
      exact ⟨[], ys, by simp [h], by simp, by rw [← h]; exact hy⟩
    · have hy' : p y = false := by simpa using hy
      simp [List.find?, hy'] at h
      obtain ⟨pre, post, hl, hpre, hx⟩ := ih h
      refine ⟨y :: pre, post, by simp [hl], ?_, hx⟩
      intro z hz
      rcases List.mem_cons.mp hz with rfl | hz'
      · exact hy'
      · exact hpre z hz'

/-! ## Top-up approval -/

/-- C3 (counterexample): the pending top-up of `negativeTopupStore` stores the
amount -500; approving it marks it approved and leaves the owner's balance at
1000 instead of changing it by the stored amount, under either positional
rule. -/
theorem FindAndUpdateTopup_negative_amount_not_applied :
    topupStatuses negativeTopupStore = [["pending"]] ∧
    balances negativeTopupStore = [1000] ∧
    (approveNegative .byId).2 = .ok "1001" ∧
    topupStatuses (approveNegative .byId).1 = [["approved"]] ∧
    balances (approveNegative .byId).1 = [1000] ∧
    balances (approveNegative .byId).1 ≠ [1000 + (-500)] ∧
    (approveNegative .byStatus).2 = .ok "1001" ∧
    topupStatuses (approveNegative .byStatus).1 = [["approved"]] ∧
    balances (approveNegative .byStatus).1 = [1000] ∧
    balances (approveNegative .byStatus).1 ≠ [1000 + (-500)] := by
  decide

/-- C3 (amended): let `t` be a pending top-up with stored amount `a ≥ 0` in the
record of `u`, such that no earlier document holds a top-up with the id of `t`
or has the user id of `u`, and no earlier top-up of `u` has the id of `t` or is
pending.  Approving `t` through `FindAndUpdateTopup` succeeds with the owner's
id, writes the update (status approved) on `t`, adds exactly `a` to the balance
of `u`, and leaves every other document, every other top-up and the rest of
the store as they were. -/
theorem FindAndUpdateTopup_approve_credits_stored_amount (r : PosRule) (s : Store)
    (pre post : List User) (u : User) (tpre tpost : List Topup) (t : Topup)
    (upd : TopupUpdates)
    (hs : s.users = pre ++ u :: post)
    (hu : u.topups = tpre ++ t :: tpost)
    (hpending : t.status = "pending")
    (hupd : upd.status = some "approved")
    (hids : ∀ v ∈ pre, ∀ x ∈ v.topups, x.topup_id ≠ t.topup_id)
    (huids : ∀ v ∈ pre, v.user_id ≠ u.user_id)
    (hfirst : ∀ x ∈ tpre, x.topup_id ≠ t.topup_id ∧ x.status ≠ "pending")
    (hamount : 0 ≤ t.amount) :
    FindAndUpdateTopup r s t.topup_id upd noTopupFaults =
      ({ s with users := pre ++
          { u with balance := u.balance + t.amount,
                   topups := tpre ++ applyTopupUpdates upd t :: tpost } :: post },
        .ok u.user_id) := by
  have hidpre : ∀ v ∈ pre, topupIdFilter t.topup_id v = false := by
    intro v hv
    simp only [topupIdFilter, List.any_eq_false, beq_iff_eq]
    intro x hx
    exact hids v hv x hx
  have hidu : topupIdFilter t.topup_id u = true := by
    simp [topupIdFilter, hu]
  have hfpre : ∀ v ∈ pre, topupFilter t.topup_id v = false := by
    intro v hv
    have := hidpre v hv
    simp only [topupIdFilter] at this
    simp [topupFilter, this]
  have hfu : topupFilter t.topup_id u = true := by
    simp [topupFilter, hu, hpending]
  have hpos : ∀ x ∈ tpre, topupAtPos r t.topup_id x = false := by
    intro x hx
    cases r <;> simp [topupAtPos, (hfirst x hx).1, (hfirst x hx).2]
  have hpost : topupAtPos r t.topup_id t = true := by
    cases r <;> simp [topupAtPos, hpending]
  have hamt : topupAmountOf t.topup_id u.topups = t.amount := by
    have : (tpre ++ t :: tpost).find? (fun x => x.topup_id == t.topup_id) = some t :=
      find?_append_cons_first _ tpre tpost t
        (fun x hx => by simp [(hfirst x hx).1]) (by simp)
    simp [topupAmountOf, hu, this]
  have hupre : ∀ v ∈ pre, (fun w : User => w.user_id == u.user_id) v = false := by
    intro v hv
    simp [huids v hv]
  have hset : setTopupAtPos r s t.topup_id upd =
      { s with users := pre ++
          { u with topups := tpre ++ applyTopupUpdates upd t :: tpost } :: post } := by
    simp only [setTopupAtPos, hs]
    rw [modifyFirst_append_cons_first _ _ pre post u hfpre hfu, hu,
      modifyFirst_append_cons_first _ _ tpre tpost t hpos hpost]
  simp only [FindAndUpdateTopup, noTopupFaults, hs, Bool.false_eq_true, if_false,
    find?_append_cons_first _ pre post u hidpre hidu,
    find?_append_cons_first _ pre post u hfpre hfu, hupd, if_true, hamt]
  rw [hset]
  by_cases hpos' : t.amount > 0
  · simp only [hpos', if_true, UpdateBalance, updateUser, Bool.false_eq_true, if_false]
    rw [modifyFirst_append_cons_first _ _ pre post _ hupre (by simp)]
  · have h0 : t.amount = 0 := le_antisymm (not_lt.mp hpos') hamount
    simp [hpos', h0]

/-- Witness for C3 (amended): the pending top-up of 5000 in `pendingTopupStore`
is approved and the balance of `1001` goes from 0 to 5000. -/
theorem FindAndUpdateTopup_approve_credits_stored_amount_witness :
    FindAndUpdateTopup .byStatus pendingTopupStore
        (mkTopup "TOP17000000001001" 5000 "pending").topup_id (approveUpdates 1700000100)
        noTopupFaults =
      ({ pendingTopupStore with users := [] ++
          { mkUser 0 [] [mkTopup "TOP17000000001001" 5000 "pending"] with
              balance := (mkUser 0 [] [mkTopup "TOP17000000001001" 5000 "pending"]).balance +
                (mkTopup "TOP17000000001001" 5000 "pending").amount,
              topups := [] ++ applyTopupUpdates (approveUpdates 1700000100)
                (mkTopup "TOP17000000001001" 5000 "pending") :: [] } :: [] },
        .ok (mkUser 0 [] [mkTopup "TOP17000000001001" 5000 "pending"]).user_id) :=
  FindAndUpdateTopup_approve_credits_stored_amount .byStatus pendingTopupStore [] []
    (mkUser 0 [] [mkTopup "TOP17000000001001" 5000 "pending"]) [] []
    (mkTopup "TOP17000000001001" 5000 "pending") (approveUpdates 1700000100)
    rfl rfl rfl rfl (by simp) (by simp) (by simp) (by decide)

/-- C4 (the code at the failing input): in `twoTopupsStore` the approve action
on the top-up of 5000 is applied twice.  The first application credits 5000.
The second one is not refused, because the owner still has another pending
top-up: it reports success and credits 5000 again, so the balance is 10000;
under the rule by status it also marks the other top-up approved. -/
theorem handleTopupApprove_twice_credits_twice :
    (∀ r : PosRule,
      balances (approveFirst r twoTopupsStore 1700000100).1 = [5000] ∧
      (approveFirst r (approveFirst r twoTopupsStore 1700000100).1 1700000200).2 =
        .topupApproved "TOP17000000001001" "1001" ∧
      balances (approveFirst r (approveFirst r twoTopupsStore 1700000100).1 1700000200).1 =
        [10000]) ∧
    topupStatuses (approveFirst .byId (approveFirst .byId twoTopupsStore 1700000100).1
      1700000200).1 = [["approved", "pending"]] ∧
    topupStatuses (approveFirst .byStatus (approveFirst .byStatus twoTopupsStore 1700000100).1
      1700000200).1 = [["approved", "approved"]] := by
  refine ⟨?_, by decide, by decide⟩
  intro r
  cases r <;> decide

/-! ## Purchase flow -/

theorem mmbPurchase_success (s : Store) (userID : String) (chatID : Int)
    (gameID serverID amount : String) (price now : Int) (pre post : List User) (u : User)
    (hs : s.users = pre ++ u :: post)
    (hpre : ∀ v ∈ pre, v.user_id ≠ userID)
    (hu : u.user_id = userID)
    (hbal : price ≤ u.balance) :
    mmbPurchase s userID chatID gameID serverID amount price now noMmbFaults =
      ({ s with users := pre ++
          { u with balance := u.balance - price,
                   orders := u.orders ++
                     [newOrder (GenerateOrderID now) gameID serverID amount price now userID
                       chatID] } :: post },
        .orderConfirmation
          (newOrder (GenerateOrderID now) gameID serverID amount price now userID chatID)
          (u.balance - price)) := by
  obtain ⟨users, prices, authorized, settings⟩ := s
  simp only at hs
  subst hs
  have hp : ∀ v ∈ pre, (fun w : User => w.user_id == userID) v = false := by
    intro v hv
    simp [hpre v hv]
  have hfind : (pre ++ u :: post).find? (fun w : User => w.user_id == userID) = some u :=
    find?_append_cons_first _ pre post u hp (by simp [hu])
  have hnot : ¬ u.balance < price := not_lt.mpr hbal
  simp only [mmbPurchase, GetUser, noMmbFaults, Bool.false_eq_true, if_false, hfind, hnot,
    UpdateBalance, AddOrder, updateUser]
  rw [modifyFirst_append_cons_first _ _ pre post u hp (by simp [hu]),
    modifyFirst_append_cons_first _ _ pre post _ hp (by simp [hu])]
  simp only [Int.sub_eq_add_neg]

/-- C5: an authorized caller with a user record `u` (the first document with
the caller's id), orders not in maintenance, no pending top-up, three
arguments that pass the format and banned-account checks, an SKU with a
non-zero price and a balance of at least that price: `HandleMmb` subtracts
exactly the price `GetPrice sku customPrices` from the balance of `u`, appends
one pending order carrying the given game id, server id, SKU and that price,
and changes no other order, no other user, and neither the price table nor the
authorized list. -/
theorem HandleMmb_debits_price_and_appends_order (cfg : Config) (s : Store)
    (fromID chatID now : Int) (args gameID serverID amount : String)
    (pre post : List User) (u : User)
    (hs : s.users = pre ++ u :: post)
    (hpre : ∀ v ∈ pre, v.user_id ≠ FormatInt fromID)
    (hu : u.user_id = FormatInt fromID)
    (hauth : isAuthorized cfg (s.authorized.getD []) (FormatInt fromID) = true)
    (hmaint : maintenanceOff s.settings "orders" = false)
    (hnopending : ∀ t ∈ u.topups, t.status ≠ "pending")
    (hargs : Fields args = [gameID, serverID, amount])
    (hgame : ValidateGameID gameID = true)
    (hserver : ValidateServerID serverID = true)
    (hbanned : IsBannedAccount gameID = false)
    (hprice : GetPrice amount (s.prices.getD []) ≠ 0)
    (hbal : GetPrice amount (s.prices.getD []) ≤ u.balance) :
    HandleMmb cfg s fromID chatID args now noMmbFaults =
      ({ s with
          users := pre ++
            { u with balance := u.balance - GetPrice amount (s.prices.getD []),
                     orders := u.orders ++
                       [newOrder (GenerateOrderID now) gameID serverID amount
                         (GetPrice amount (s.prices.getD [])) now (FormatInt fromID) chatID] }
              :: post,
          settings := settingsAfterLoad s.settings },
        .orderConfirmation
          (newOrder (GenerateOrderID now) gameID serverID amount
            (GetPrice amount (s.prices.getD [])) now (FormatInt fromID) chatID)
          (u.balance - GetPrice amount (s.prices.getD []))) := by
  obtain ⟨users, prices, authorized, settings⟩ := s
  simp only at hs hauth hmaint hprice hbal
  subst hs
  have hp : ∀ v ∈ pre, (fun w : User => w.user_id == FormatInt fromID) v = false := by
    intro v hv
    simp [hpre v hv]
  have hfind : (pre ++ u :: post).find? (fun w : User => w.user_id == FormatInt fromID)
      = some u :=
    find?_append_cons_first _ pre post u hp (by simp [hu])
  have hnp : u.topups.any (fun t => t.status == "pending") = false := by
    simp only [List.any_eq_false, beq_iff_eq]
    exact hnopending
  have hmaint' : maintenanceOff (settingsAfterLoad settings) "orders" = false := by
    cases settings with
    | none => simp [settingsAfterLoad, maintenanceOff, lookupKey]
    | some c => simpa [settingsAfterLoad] using hmaint
  have hload : (match LoadSettings ⟨pre ++ u :: post, prices, authorized, settings⟩
        [] [] [] [] false with
      | .error _ => ((⟨pre ++ u :: post, prices, authorized, settings⟩ : Store),
          (none : Option Settings))
      | .ok (s1, config) => (s1, some config)) =
      (⟨pre ++ u :: post, prices, authorized, settingsAfterLoad settings⟩,
        settingsAfterLoad settings) := by
    cases settings with
    | none => simp [LoadSettings, settingsAfterLoad]
    | some c => simp [LoadSettings, settingsAfterLoad]
  have hpurchase := mmbPurchase_success
    ⟨pre ++ u :: post, prices, authorized, settingsAfterLoad settings⟩
    (FormatInt fromID) chatID gameID serverID amount (GetPrice amount (prices.getD [])) now
    pre post u rfl hpre hu hbal
  simp only [HandleMmb, noMmbFaults, LoadAuthorizedUsers, Bool.false_eq_true, if_false, hauth,
    Bool.not_true, hload, hmaint', HasPendingTopup, GetUser, hfind, hnp, mmbValidate, hargs,
    hgame, hserver, hbanned, LoadPrices, beq_iff_eq, hprice]
  exact hpurchase

/-- Witness for C5: user `1001` with balance 5000 buys SKU `11` (default price
950); the balance becomes 4050 and one pending order at 950 is appended. -/
theorem HandleMmb_debits_price_and_appends_order_witness :
    HandleMmb adminCfg (mkStore 5000 [] [] none) 1001 1001 "12345678 1234 11" 1700000000
        noMmbFaults =
      ({ users := [mkUser 4050
            [newOrder "ORD1700000000" "12345678" "1234" "11" 950 1700000000 "1001" 1001] []],
         prices := none, authorized := some ["1001"], settings := settingsAfterLoad none },
        .orderConfirmation
          (newOrder "ORD1700000000" "12345678" "1234" "11" 950 1700000000 "1001" 1001) 4050) :=
  (HandleMmb_debits_price_and_appends_order adminCfg (mkStore 5000 [] [] none) 1001 1001
    1700000000 "12345678 1234 11" "12345678" "1234" "11" [] [] (mkUser 5000 [] [])
    rfl (by simp) (by decide) (by decide) (by decide) (by simp [mkUser]) (by decide)
    (by decide) (by decide) (by decide) (by decide) (by decide)).trans (by decide)

/-! ## Balances stay non-negative -/

theorem modifyFirst_forall {α : Type} (P : α → Prop) (p : α → Bool) (f : α → α) (l : List α)
    (h : ∀ x ∈ l, P x) (hf : ∀ x ∈ l, p x = true → P (f x)) :
    ∀ x ∈ modifyFirst p f l, P x := by
  induction l with
  | nil => simp [modifyFirst]
  | cons y ys ih =>
    have hy : P y := h y (by simp)
    have hys : ∀ z ∈ ys, P z := fun z hz => h z (by simp [hz])
    have hfys : ∀ z ∈ ys, p z = true → P (f z) := fun z hz => hf z (by simp [hz])
    by_cases hp : p y = true
    · simp only [modifyFirst, hp, if_true]
      intro x hx
      rcases List.mem_cons.mp hx with rfl | hx'
      · exact hf y (by simp) hp
      · exact hys x hx'
    · simp only [modifyFirst, hp]
      intro x hx
      rcases List.mem_cons.mp hx with rfl | hx'
      · exact hy
      · exact ih hys hfys x hx'

theorem balancesNonneg_of_users_eq (s s1 : Store) (h : s1.users = s.users)
    (hs : BalancesNonneg s) : BalancesNonneg s1 := by
  unfold BalancesNonneg at *
  rw [h]
  exact hs

theorem balancesNonneg_updateUser (s : Store) (userID : String) (f : User → User)
    (hs : BalancesNonneg s)
    (hf : ∀ u ∈ s.users, u.user_id = userID → 0 ≤ (f u).balance) :
    BalancesNonneg (updateUser s userID f) := by
  unfold BalancesNonneg updateUser
  exact modifyFirst_forall (fun u : User => 0 ≤ u.balance) _ f s.users hs
    (fun u hu hp => hf u hu (by simpa using hp))

theorem balancesNonneg_credit (s : Store) (userID : String) (d : Int) (hd : 0 ≤ d)
    (hs : BalancesNonneg s) :
    BalancesNonneg (updateUser s userID (fun w => { w with balance := w.balance + d })) := by
  apply balancesNonneg_updateUser s userID _ hs
  intro u hu _
  have := hs u hu
  simp only
  omega

/-- A debit applied to the record that was read keeps balances non-negative
when it does not exceed the balance that was read. -/
theorem balancesNonneg_debit (s : Store) (userID : String) (u : User) (d : Int)
    (hs : BalancesNonneg s)
    (hfind : s.users.find? (fun w => w.user_id == userID) = some u)
    (hd : d ≤ u.balance) :
    BalancesNonneg (updateUser s userID (fun w => { w with balance := w.balance + -d })) := by
  obtain ⟨pre, post, hl, hpre, hx⟩ := find?_eq_some_split _ _ _ hfind
  unfold BalancesNonneg updateUser
  simp only
  rw [hl, modifyFirst_append_cons_first _ _ pre post u hpre hx]
  intro x hxmem
  have hall : ∀ y ∈ pre ++ u :: post, 0 ≤ y.balance := by
    intro y hy
    exact hs y (by rw [hl]; exact hy)
  rcases List.mem_append.mp hxmem with h1 | h2
  · exact hall x (List.mem_append.mpr (Or.inl h1))
  · rcases List.mem_cons.mp h2 with rfl | h3
    · simp only
      omega
    · exact hall x (List.mem_append.mpr (Or.inr (List.mem_cons.mpr (Or.inr h3))))

theorem LoadSettings_users (s s1 : Store) (d1 d2 d3 d4 : List (String × Value)) (fault : Bool)
    (c : Settings) (h : LoadSettings s d1 d2 d3 d4 fault = .ok (s1, c)) :
    s1.users = s.users := by
  unfold LoadSettings at h
  split at h
  · simp at h
  · split at h <;> simp at h <;> rw [← h.1]

theorem balancesNonneg_setOrderAtPos (r : PosRule) (s : Store) (orderID : String)
    (upd : OrderUpdates) (hs : BalancesNonneg s) :
    BalancesNonneg (setOrderAtPos r s orderID upd) := by
  unfold BalancesNonneg setOrderAtPos
  exact modifyFirst_forall (fun u : User => 0 ≤ u.balance) _ _ s.users hs (fun u hu _ => hs u hu)

theorem balancesNonneg_setTopupAtPos (r : PosRule) (s : Store) (topupID : String)
    (upd : TopupUpdates) (hs : BalancesNonneg s) :
    BalancesNonneg (setTopupAtPos r s topupID upd) := by
  unfold BalancesNonneg setTopupAtPos
  exact modifyFirst_forall (fun u : User => 0 ≤ u.balance) _ _ s.users hs (fun u hu _ => hs u hu)

theorem balancesNonneg_FindAndUpdateOrder (r : PosRule) (s s1 : Store) (orderID : String)
    (upd : OrderUpdates) (fault : Bool) (owner : String) (hs : BalancesNonneg s)
    (h : FindAndUpdateOrder r s orderID upd fault = .ok (s1, owner)) : BalancesNonneg s1 := by
  unfold FindAndUpdateOrder at h
  split at h
  · simp at h
  · split at h
    · simp at h
    · simp only [Except.ok.injEq, Prod.mk.injEq] at h
      rw [← h.1]
      exact balancesNonneg_setOrderAtPos r s orderID upd hs

theorem balancesNonneg_FindAndUpdateTopup (r : PosRule) (s : Store) (topupID : String)
    (upd : TopupUpdates) (f : TopupFaults) (hs : BalancesNonneg s) :
    BalancesNonneg (FindAndUpdateTopup r s topupID upd f).1 := by
  have h1 := balancesNonneg_setTopupAtPos r s topupID upd hs
  unfold FindAndUpdateTopup
  split
  · exact hs
  · split
    · exact hs
    · split
      · exact hs
      · split
        · exact hs
        · simp only
          split
          · split
            · rename_i hpos
              cases hfault : f.updateBalance
              · simp only [UpdateBalance, Bool.false_eq_true, if_false]
                exact balancesNonneg_credit _ _ _ (le_of_lt hpos) h1
              · simp only [UpdateBalance, if_true]
                exact h1
            · exact h1
          · exact h1

theorem balancesNonneg_mmbPurchase (s : Store) (userID : String) (chatID : Int)
    (gameID serverID amount : String) (price now : Int) (f : MmbFaults)
    (hs : BalancesNonneg s) :
    BalancesNonneg (mmbPurchase s userID chatID gameID serverID amount price now f).1 := by
  unfold mmbPurchase
  cases hget : GetUser s userID f.getUser with
  | error e => exact hs
  | ok found =>
    cases found with
    | none => exact hs
    | some userDoc =>
      have hfind : s.users.find? (fun w => w.user_id == userID) = some userDoc := by
        unfold GetUser at hget
        split at hget
        · simp at hget
        · simpa using hget
      simp only
      split
      · exact hs
      · rename_i hbal
        have hdebit := balancesNonneg_debit s userID userDoc price hs hfind (not_lt.mp hbal)
        cases hub : f.updateBalance
        · simp only [UpdateBalance, hub, Bool.false_eq_true, if_false]
          cases hao : f.addOrder
          · simp only [AddOrder, hao, Bool.false_eq_true, if_false]
            exact balancesNonneg_updateUser _ _ _ hdebit (fun u hu _ => hdebit u hu)
          · simp only [AddOrder, hao, if_true]
            exact hdebit
        · simp only [UpdateBalance, hub, if_true]
          exact hs

theorem balancesNonneg_mmbValidate (s : Store) (userID : String) (chatID : Int)
    (args : String) (now : Int) (f : MmbFaults) (hs : BalancesNonneg s) :
    BalancesNonneg (mmbValidate s userID chatID args now f).1 := by
  unfold mmbValidate
  split
  · split
    · exact hs
    · split
      · exact hs
      · split
        · exact hs
        · simp only
          split
          · exact hs
          · exact balancesNonneg_mmbPurchase _ _ _ _ _ _ _ _ _ hs
  · exact hs

theorem balancesNonneg_loaded (s : Store) (fault : Bool) (hs : BalancesNonneg s) :
    BalancesNonneg (match LoadSettings s [] [] [] [] fault with
      | .error _ => (s, (none : Option Settings))
      | .ok (s1, config) => (s1, some config)).1 := by
  cases h : LoadSettings s [] [] [] [] fault with
  | error e => exact hs
  | ok p =>
    obtain ⟨s1, c⟩ := p
    exact balancesNonneg_of_users_eq s s1 (LoadSettings_users s s1 _ _ _ _ fault c h) hs

theorem balancesNonneg_HandleMmb (cfg : Config) (s : Store) (fromID chatID : Int)
    (args : String) (now : Int) (f : MmbFaults) (hs : BalancesNonneg s) :
    BalancesNonneg (HandleMmb cfg s fromID chatID args now f).1 := by
  have hl := balancesNonneg_loaded s f.loadSettings hs
  unfold HandleMmb
  simp only
  split
  · exact hs
  · split
    · exact hs
    · split
      · exact hl
      · split
        · exact hl
        · exact balancesNonneg_mmbValidate _ _ _ _ _ _ hl

theorem balancesNonneg_HandleTopup (cfg : Config) (s : Store) (fromID : Int)
    (args : String) (f : TopupCmdFaults) (hs : BalancesNonneg s) :
    BalancesNonneg (HandleTopup cfg s fromID args f).1 := by
  have hl := balancesNonneg_loaded s f.loadSettings hs
  unfold HandleTopup
  simp only
  split
  · exact hs
  · split
    · exact hs
    · split
      · exact hl
      · split
        · exact hl
        · split
          · split
            · exact hl
            · split <;> exact hl
          · exact hl

theorem balancesNonneg_handleTopupPaymentMethod (s : Store) (data : String) (fault : Bool)
    (hs : BalancesNonneg s) : BalancesNonneg (handleTopupPaymentMethod s data fault).1 := by
  unfold handleTopupPaymentMethod
  split
  · split
    · exact hs
    · cases h : LoadSettings s [] [] [] [] fault with
      | error e => exact hs
      | ok p =>
        obtain ⟨s1, c⟩ := p
        exact balancesNonneg_of_users_eq s s1 (LoadSettings_users s s1 _ _ _ _ fault c h) hs
  · exact hs

theorem balancesNonneg_handleOrderConfirm (cfg : Config) (r : PosRule) (s : Store)
    (fromID : Int) (adminName data : String) (now : Int) (fault : Bool)
    (hs : BalancesNonneg s) :
    BalancesNonneg (handleOrderConfirm cfg r s fromID adminName data now fault).1 := by
  unfold handleOrderConfirm
  split
  · exact hs
  · simp only
    split
    · exact hs
    · rename_i s1 owner h
      exact balancesNonneg_FindAndUpdateOrder r s s1 _ _ fault owner hs h

theorem balancesNonneg_handleTopupApprove (cfg : Config) (r : PosRule) (s : Store)
    (fromID : Int) (adminName data : String) (now : Int) (f : TopupFaults)
    (hs : BalancesNonneg s) :
    BalancesNonneg (handleTopupApprove cfg r s fromID adminName data now f).1 := by
  unfold handleTopupApprove
  split
  · exact hs
  · simp only
    have h := balancesNonneg_FindAndUpdateTopup r s
      (trimLeading data "topup_approve_")
      { status := some "approved", approved_by := some adminName, approved_at := some now,
        rejected_by := none, rejected_at := none } f hs
    split
    · rename_i heq
      rw [heq] at h
      exact h
    · rename_i heq
      rw [heq] at h
      exact h

theorem balancesNonneg_handleTopupReject (cfg : Config) (r : PosRule) (s : Store)
    (fromID : Int) (adminName data : String) (now : Int) (f : TopupFaults)
    (hs : BalancesNonneg s) :
    BalancesNonneg (handleTopupReject cfg r s fromID adminName data now f).1 := by
  unfold handleTopupReject
  split
  · exact hs
  · simp only
    have h := balancesNonneg_FindAndUpdateTopup r s
      (trimLeading data "topup_reject_")
      { status := some "rejected", approved_by := none, approved_at := none,
        rejected_by := some adminName, rejected_at := some now } f hs
    split
    · rename_i heq
      rw [heq] at h
      exact h
    · rename_i heq
      rw [heq] at h
      exact h

theorem balancesNonneg_HandleApprove (cfg : Config) (r : PosRule) (s : Store)
    (fromID : Int) (adminName args : String) (now : Int) (f : ApproveFaults)
    (hs : BalancesNonneg s) :
    BalancesNonneg (HandleApprove cfg r s fromID adminName args now f).1 := by
  unfold HandleApprove
  split
  · exact hs
  · split
    · split
      · exact hs
      · split
        · exact hs
        · rename_i topupID _
          simp only
          have h := balancesNonneg_FindAndUpdateTopup r s topupID
            { status := some "approved", approved_by := some adminName,
              approved_at := some now, rejected_by := none, rejected_at := none }
            f.findAndUpdateTopup hs
          split
          · rename_i heq
            rw [heq] at h
            exact h
          · rename_i heq
            rw [heq] at h
            exact h
    · exact hs

theorem UpdateBalance_ok (s s1 : Store) (userID : String) (d : Int) (fault : Bool)
    (h : UpdateBalance s userID d fault = .ok s1) :
    s1 = updateUser s userID (fun w => { w with balance := w.balance + d }) := by
  unfold UpdateBalance at h
  split at h
  · simp at h
  · simp only [Except.ok.injEq] at h
    exact h.symm

theorem GetUser_ok_some (s : Store) (userID : String) (fault : Bool) (u : User)
    (h : GetUser s userID fault = .ok (some u)) :
    s.users.find? (fun w => w.user_id == userID) = some u := by
  unfold GetUser at h
  split at h
  · simp at h
  · simpa using h

theorem balancesNonneg_HandleDeduct (cfg : Config) (s : Store) (fromID : Int)
    (args : String) (f : DeductFaults) (hs : BalancesNonneg s) :
    BalancesNonneg (HandleDeduct cfg s fromID args f).1 := by
  unfold HandleDeduct
  split
  · exact hs
  · split
    · split
      · exact hs
      · split
        · exact hs
        · split
          · exact hs
          · exact hs
          · rename_i userDoc hget
            have hfind := GetUser_ok_some _ _ _ _ hget
            split
            · exact hs
            · rename_i hbal
              split
              · exact hs
              · rename_i s1 hub
                rw [UpdateBalance_ok _ _ _ _ _ hub]
                exact balancesNonneg_debit s _ userDoc _ hs hfind (not_lt.mp hbal)
    · exact hs

theorem SavePrices_users (s s1 : Store) (m : List (String × Value)) (fault : Bool)
    (h : SavePrices s m fault = .ok s1) : s1.users = s.users := by
  unfold SavePrices at h
  split at h
  · simp at h
  · simp only [Except.ok.injEq] at h
    rw [← h]

theorem handleBatchUpdate_users (s : Store) (items : List String) (category : String)
    (prices : List String) (m : List (String × Value)) (fault : Bool) :
    (handleBatchUpdate s items category prices m fault).1.users = s.users := by
  unfold handleBatchUpdate
  split
  · rfl
  · split
    · rfl
    · split
      · rfl
      · rename_i s1 h
        exact SavePrices_users s s1 _ fault h

theorem handleWeeklyPassUpdate_users (s : Store) (weekNum price : Nat)
    (m : List (String × Value)) (fault : Bool) :
    (handleWeeklyPassUpdate s weekNum price m fault).1.users = s.users := by
  unfold handleWeeklyPassUpdate
  simp only
  split
  · rfl
  · rename_i s1 h
    exact SavePrices_users s s1 _ fault h

/-- Price updates touch no user record. -/
theorem HandleSetPrice_users (cfg : Config) (s : Store) (fromID : Int) (args : String)
    (f : SetPriceFaults) : (HandleSetPrice cfg s fromID args f).1.users = s.users := by
  unfold HandleSetPrice
  split
  · rfl
  · split
    · rfl
    · rfl
    · simp only
      split
      · exact handleBatchUpdate_users _ _ _ _ _ _
      · split
        · exact handleBatchUpdate_users _ _ _ _ _ _
        · split
          · split
            · rfl
            · split
              · rfl
              · split
                · exact handleWeeklyPassUpdate_users _ _ _ _ _
                · split
                  · rfl
                  · rename_i s1 h
                    exact SavePrices_users s s1 _ _ h
          · rfl

theorem balancesNonneg_step (cfg : Config) (r : PosRule) (s : Store) (op : Op)
    (hs : BalancesNonneg s) : BalancesNonneg (step cfg r s op) := by
  cases op with
  | mmb fromID chatID args now f => exact balancesNonneg_HandleMmb cfg s fromID chatID args now f hs
  | topup fromID args f => exact balancesNonneg_HandleTopup cfg s fromID args f hs
  | paymentMethod data fault => exact balancesNonneg_handleTopupPaymentMethod s data fault hs
  | photo fromID => exact hs
  | topupApprove fromID adminName data now f =>
    exact balancesNonneg_handleTopupApprove cfg r s fromID adminName data now f hs
  | topupReject fromID adminName data now f =>
    exact balancesNonneg_handleTopupReject cfg r s fromID adminName data now f hs
  | orderConfirm fromID adminName data now fault =>
    exact balancesNonneg_handleOrderConfirm cfg r s fromID adminName data now fault hs
  | orderCancel fromID adminName data now f =>
    show BalancesNonneg (handleOrderCancel cfg r s fromID adminName data now f).1
    rw [handleOrderCancel_eq]
    exact hs
  | approve fromID adminName args now f =>
    exact balancesNonneg_HandleApprove cfg r s fromID adminName args now f hs
  | deduct fromID args f => exact balancesNonneg_HandleDeduct cfg s fromID args f hs
  | setPrice fromID args f =>
    exact balancesNonneg_of_users_eq s _ (HandleSetPrice_users cfg s fromID args f) hs

/-- C6: from a store in which every balance is non-negative, every sequence
of events handled one after the other (purchases, top-up declarations and
their payment steps, top-up approvals and rejections by callback or by
`/approve`, order confirmations and cancellations, deductions, price updates),
with any store faults and under either positional rule, ends in a store in
which every balance is non-negative. -/
theorem run_preserves_nonnegative_balances (cfg : Config) (r : PosRule) (s : Store)
    (ops : List Op) (hs : BalancesNonneg s) : BalancesNonneg (run cfg r s ops) := by
  unfold run
  induction ops generalizing s with
  | nil => exact hs
  | cons op rest ih =>
    simp only [List.foldl_cons]
    exact ih (step cfg r s op) (balancesNonneg_step cfg r s op hs)

/-- Witness for C6: a purchase of SKU `11` by user `1001` (balance 5000,
leaving 4050) followed by the admin's deduction of 4050 ends with balance 0. -/
theorem run_preserves_nonnegative_balances_witness :
    BalancesNonneg (mkStore 5000 [] [] none) ∧
    BalancesNonneg (run adminCfg .byStatus (mkStore 5000 [] [] none)
      [.mmb 1001 1001 "12345678 1234 11" 1700000000 noMmbFaults,
       .deduct 42 "1001 4050" { getUser := false, updateBalance := false }]) :=
  ⟨by simp [BalancesNonneg, mkStore, mkUser],
   run_preserves_nonnegative_balances adminCfg .byStatus (mkStore 5000 [] [] none) _
    (by simp [BalancesNonneg, mkStore, mkUser])⟩

/-! ## Order of the purchase checks -/

theorem loaded_noFault (s : Store) :
    (match LoadSettings s [] [] [] [] false with
      | .error _ => (s, (none : Option Settings))
      | .ok (s1, config) => (s1, some config)) =
      ({ s with settings := settingsAfterLoad s.settings }, settingsAfterLoad s.settings) := by
  obtain ⟨users, prices, authorized, settings⟩ := s
  cases settings with
  | none => simp [LoadSettings, settingsAfterLoad]
  | some c => simp [LoadSettings, settingsAfterLoad]

theorem maintenanceOff_settingsAfterLoad (settings : Option Settings) (feature : String) :
    maintenanceOff (settingsAfterLoad settings) feature = maintenanceOff settings feature := by
  cases settings with
  | none => simp [settingsAfterLoad, maintenanceOff, lookupKey]
  | some c => simp [settingsAfterLoad]

theorem length_ne_three_of_shape (fs : List String)
    (h : ∀ a b c : String, fs = [a, b, c] → False) : (fs.length == 3) = false := by
  match fs, h with
  | [], _ => rfl
  | [_], _ => rfl
  | [_, _], _ => rfl
  | [a, b, c], h => exact (h a b c rfl).elim
  | _ :: _ :: _ :: _ :: _, _ => simp

theorem mmbValidate_first_failing (s : Store) (userID : String) (chatID : Int)
    (args : String) (now : Int) (reply : MmbReply)
    (h : firstFailure
      [((Fields args).length == 3, .invalidFormat),
       (ValidateGameID ((Fields args).getD 0 ""), .invalidGameID),
       (ValidateServerID ((Fields args).getD 1 ""), .invalidServerID),
       (!IsBannedAccount ((Fields args).getD 0 ""), .bannedAccount),
       (GetPrice ((Fields args).getD 2 "") (s.prices.getD []) != 0, .invalidAmount),
       (match s.users.find? (fun u => u.user_id == userID) with
        | some u => decide (GetPrice ((Fields args).getD 2 "") (s.prices.getD []) ≤ u.balance)
        | none => true,
        .insufficientBalance (GetPrice ((Fields args).getD 2 "") (s.prices.getD []))
          (match s.users.find? (fun u => u.user_id == userID) with
            | some u => u.balance
            | none => 0))] = some reply) :
    (mmbValidate s userID chatID args now noMmbFaults).2 = reply ∧
      (mmbValidate s userID chatID args now noMmbFaults).1.users = s.users := by
  unfold mmbValidate
  split
  · rename_i gameID serverID amount hfs
    simp only [hfs, firstFailure, List.length_cons, List.length_nil, List.getD_cons_zero,
      List.getD_cons_succ] at h
    cases hG : ValidateGameID gameID
    · simp [hG] at h
      simp [h]
    · cases hS : ValidateServerID serverID
      · simp [hG, hS] at h
        simp [h]
      · cases hB : IsBannedAccount gameID
        swap
        · simp [hG, hS, hB] at h
          simp [h]
        · by_cases hP : GetPrice amount (s.prices.getD []) = 0
          · simp [hG, hS, hB, hP] at h
            simp [LoadPrices, noMmbFaults, hP, h]
          · cases hU : s.users.find? (fun u => u.user_id == userID) with
            | none => simp [hG, hS, hB, hP, hU] at h
            | some u =>
              by_cases hbal : GetPrice amount (s.prices.getD []) ≤ u.balance
              · simp [hG, hS, hB, hP, hU, hbal] at h
              · simp [hG, hS, hB, hP, hU, hbal] at h
                have hlt : u.balance < GetPrice amount (s.prices.getD []) := not_le.mp hbal
                simp [LoadPrices, noMmbFaults, hP, mmbPurchase, GetUser, hU, hlt, h]
  · rename_i hshape
    have hlen := length_ne_three_of_shape (Fields args) hshape
    simp [hlen, firstFailure] at h
    simp [h]

/-- C7: with the store answering every call, whenever one of the nine checks
of the purchase flow fails, the response of `HandleMmb` is the response of the
first failing check in the specified order, and the users collection (hence
every balance and every order list) is left as it was. -/
theorem HandleMmb_reply_of_first_failing_check (cfg : Config) (s : Store)
    (fromID chatID : Int) (args : String) (now : Int) (reply : MmbReply)
    (h : firstFailure (mmbChecks cfg s fromID args) = some reply) :
    (HandleMmb cfg s fromID chatID args now noMmbFaults).2 = reply ∧
      (HandleMmb cfg s fromID chatID args now noMmbFaults).1.users = s.users := by
  simp only [HandleMmb, noMmbFaults, LoadAuthorizedUsers, Bool.false_eq_true, if_false,
    loaded_noFault, maintenanceOff_settingsAfterLoad, HasPendingTopup, GetUser]
  simp only [mmbChecks, firstFailure] at h
  cases hA : isAuthorized cfg (s.authorized.getD []) (FormatInt fromID)
  · simp [hA] at h
    simp [h]
  · simp only [hA, if_true] at h
    cases hM : maintenanceOff s.settings "orders"
    swap
    · simp [hM] at h
      simp [h]
    · simp only [hM, Bool.not_false, if_true] at h
      cases hU : s.users.find? (fun u => u.user_id == FormatInt fromID) with
      | none =>
        simp only [hU, Bool.not_false, if_true] at h
        have hv := mmbValidate_first_failing
          { s with settings := settingsAfterLoad s.settings } (FormatInt fromID) chatID args now
          reply (by simpa [hU, firstFailure] using h)
        simpa using hv
      | some u =>
        simp only [hU] at h
        cases hP : u.topups.any (fun t => t.status == "pending")
        swap
        · simp [hP] at h
          simp [hP, h]
        · simp only [hP, Bool.not_false, if_true] at h
          have hv := mmbValidate_first_failing
            { s with settings := settingsAfterLoad s.settings } (FormatInt fromID) chatID args
            now reply (by simpa [hU, firstFailure] using h)
          simpa [hP] using hv

/-- Witness for C7: user `1001` has balance 100 and sends a valid game id, the
two-character server id `12` and an unknown SKU; the server id check is the
first to fail, and its response is the one sent. -/
theorem HandleMmb_reply_of_first_failing_check_witness :
    firstFailure (mmbChecks adminCfg (mkStore 100 [] [] none) 1001 "12345678 12 zz")
        = some MmbReply.invalidServerID ∧
      ((HandleMmb adminCfg (mkStore 100 [] [] none) 1001 1001 "12345678 12 zz" 1700000000
          noMmbFaults).2 = MmbReply.invalidServerID ∧
        (HandleMmb adminCfg (mkStore 100 [] [] none) 1001 1001 "12345678 12 zz" 1700000000
          noMmbFaults).1.users = (mkStore 100 [] [] none).users) :=
  ⟨by decide,
   HandleMmb_reply_of_first_failing_check adminCfg (mkStore 100 [] [] none) 1001 1001
    "12345678 12 zz" 1700000000 MmbReply.invalidServerID (by decide)⟩

/-- C8 (the code at the failing input): user `1001` (balance 5000) buys SKU
`11`; the debit succeeds and the order append fails.  `HandleMmb` returns
silently with the balance debited to 4050 and no order recorded. -/
theorem HandleMmb_failed_append_keeps_debit :
    balances (mkStore 5000 [] [] none) = [5000] ∧
    (HandleMmb adminCfg (mkStore 5000 [] [] none) 1001 1001 "12345678 1234 11" 1700000000
      addOrderFails).2 = MmbReply.silent ∧
    balances (HandleMmb adminCfg (mkStore 5000 [] [] none) 1001 1001 "12345678 1234 11"
      1700000000 addOrderFails).1 = [4050] ∧
    orderStatuses (HandleMmb adminCfg (mkStore 5000 [] [] none) 1001 1001 "12345678 1234 11"
      1700000000 addOrderFails).1 = [[]] := by
  decide

/-! ## Resolving what is not pending -/

theorem find?_eq_none_of_forall {α : Type} (p : α → Bool) (l : List α)
    (h : ∀ x ∈ l, p x = false) : l.find? p = none := by
  induction l with
  | nil => rfl
  | cons y ys ih =>
    have hy : p y = false := h y (by simp)
    have hys : ∀ z ∈ ys, p z = false := fun z hz => h z (by simp [hz])
    simp [List.find?, hy, ih hys]

theorem FindAndUpdateTopup_of_no_match (r : PosRule) (s : Store) (topupID : String)
    (upd : TopupUpdates) (f : TopupFaults)
    (h : ∀ u ∈ s.users, topupFilter topupID u = false) :
    (FindAndUpdateTopup r s topupID upd f).1 = s ∧
      ∃ e, (FindAndUpdateTopup r s topupID upd f).2 = .error e := by
  have hnone := find?_eq_none_of_forall _ _ h
  unfold FindAndUpdateTopup
  split
  · exact ⟨rfl, _, rfl⟩
  · split
    · exact ⟨rfl, _, rfl⟩
    · split
      · exact ⟨rfl, _, rfl⟩
      · simp [hnone]

theorem FindAndUpdateTopup_noFaults_of_no_match (r : PosRule) (s : Store) (topupID : String)
    (upd : TopupUpdates) (h : ∀ u ∈ s.users, topupFilter topupID u = false) :
    FindAndUpdateTopup r s topupID upd noTopupFaults = (s, .error .errNoDocuments) := by
  have hnone := find?_eq_none_of_forall _ _ h
  unfold FindAndUpdateTopup
  simp only [noTopupFaults, Bool.false_eq_true, if_false, hnone]
  split <;> rfl

theorem handleTopupApprove_of_no_match (cfg : Config) (r : PosRule) (s : Store)
    (fromID : Int) (adminName data : String) (now : Int) (f : TopupFaults)
    (h : ∀ u ∈ s.users, ∀ topupID, topupFilter topupID u = false) :
    handleTopupApprove cfg r s fromID adminName data now f = (s, .ignored) := by
  unfold handleTopupApprove
  split
  · rfl
  · simp only
    obtain ⟨h1, e, h2⟩ := FindAndUpdateTopup_of_no_match r s
      (trimLeading data "topup_approve_")
      { status := some "approved", approved_by := some adminName, approved_at := some now,
        rejected_by := none, rejected_at := none } f (fun u hu => h u hu _)
    split
    · rename_i s1 e1 heq
      rw [heq] at h1
      simp only at h1
      rw [h1]
    · rename_i s1 owner heq
      rw [heq] at h2
      simp at h2

/-- C9 (the code on the scenario): user `1001` with balance 0 declares a
top-up of 5000, selects a payment method and sends the screenshot.  No top-up
record exists afterwards (`handlePhoto` only logs), so whatever top-up id the
admin's approve action names, it is ignored and the balance stays 0 instead of
becoming 5000; the purchase of SKU `11` is then refused for insufficient
balance.  Started from a balance of 5000, the purchase of SKU `11` leaves 4050
and the admin's cancel action leaves the balance at 4050 and the order
pending, instead of returning the balance to 5000. -/
theorem topup_purchase_cancel_scenario :
    ∀ r : PosRule,
      topupStatuses (afterProofStore r) = [[]] ∧
      balances (afterProofStore r) = [0] ∧
      (∀ (data : String) (now : Int),
        handleTopupApprove adminCfg r (afterProofStore r) 42 "Admin" data now noTopupFaults
          = (afterProofStore r, .ignored)) ∧
      (HandleMmb adminCfg (afterProofStore r) 1001 1001 "12345678 1234 11" 1700000300
        noMmbFaults).2 = .insufficientBalance 950 0 ∧
      balances (HandleMmb adminCfg (mkStore 5000 [] [] none) 1001 1001 "12345678 1234 11"
        1700000300 noMmbFaults).1 = [4050] ∧
      balances (afterCancelStore r) = [4050] ∧
      orderStatuses (afterCancelStore r) = [["pending"]] := by
  intro r
  refine ⟨by cases r <;> decide, by cases r <;> decide, ?_, by cases r <;> decide, by decide,
    by cases r <;> decide, by cases r <;> decide⟩
  intro data now
  apply handleTopupApprove_of_no_match
  have hst : (afterProofStore r).users = [mkUser 0 [] []] := by cases r <;> decide
  intro u hu topupID
  rw [hst] at hu
  simp only [List.mem_singleton] at hu
  subst hu
  simp [topupFilter, mkUser]

/-- C10 (counterexample): in `resolvedStore` the order `ORD1700000000` exists
and is confirmed and the top-up `TOP17000000001001` exists and is approved,
while `ORD1600000000` and `TOP16000000001001` do not exist; the store calls
return the very same error value in the two situations, under either
positional rule. -/
theorem resolved_and_missing_ids_give_same_error :
    FindAndUpdateOrder .byId resolvedStore "ORD1700000000" (confirmUpdates 1700000100) false
      = .error .errNoDocuments ∧
    FindAndUpdateOrder .byId resolvedStore "ORD1600000000" (confirmUpdates 1700000100) false
      = .error .errNoDocuments ∧
    FindAndUpdateOrder .byStatus resolvedStore "ORD1700000000" (confirmUpdates 1700000100)
      false = .error .errNoDocuments ∧
    FindAndUpdateOrder .byStatus resolvedStore "ORD1600000000" (confirmUpdates 1700000100)
      false = .error .errNoDocuments ∧
    (FindAndUpdateTopup .byId resolvedStore "TOP17000000001001" (approveUpdates 1700000100)
      noTopupFaults).2 = .error .errNoDocuments ∧
    (FindAndUpdateTopup .byId resolvedStore "TOP16000000001001" (approveUpdates 1700000100)
      noTopupFaults).2 = .error .errNoDocuments ∧
    (FindAndUpdateTopup .byStatus resolvedStore "TOP17000000001001" (approveUpdates 1700000100)
      noTopupFaults).2 = .error .errNoDocuments ∧
    (FindAndUpdateTopup .byStatus resolvedStore "TOP16000000001001" (approveUpdates 1700000100)
      noTopupFaults).2 = .error .errNoDocuments := by
  decide

/-- C10 (amended): when no document holds an order with the given id together
with a pending order (the id does not exist, or its order is resolved and the
owner has nothing pending), `FindAndUpdateOrder` fails with the no-documents
error; likewise `FindAndUpdateTopup` for top-ups, leaving the store unchanged.
Both situations are reported by that one error value. -/
theorem FindAndUpdate_without_pending_match_errNoDocuments (r : PosRule) (s : Store)
    (orderID topupID : String) (updO : OrderUpdates) (updT : TopupUpdates)
    (hO : ∀ u ∈ s.users,
      (∀ o ∈ u.orders, o.order_id ≠ orderID) ∨ (∀ o ∈ u.orders, o.status ≠ "pending"))
    (hT : ∀ u ∈ s.users,
      (∀ t ∈ u.topups, t.topup_id ≠ topupID) ∨ (∀ t ∈ u.topups, t.status ≠ "pending")) :
    FindAndUpdateOrder r s orderID updO false = .error .errNoDocuments ∧
      FindAndUpdateTopup r s topupID updT noTopupFaults = (s, .error .errNoDocuments) := by
  have hO' : ∀ u ∈ s.users, orderFilter orderID u = false := by
    intro u hu
    rcases hO u hu with h | h
    · have : u.orders.any (fun o => o.order_id == orderID) = false := by
        simp only [List.any_eq_false, beq_iff_eq]
        exact h
      simp [orderFilter, this]
    · have : u.orders.any (fun o => o.status == "pending") = false := by
        simp only [List.any_eq_false, beq_iff_eq]
        exact h
      simp [orderFilter, this]
  have hT' : ∀ u ∈ s.users, topupFilter topupID u = false := by
    intro u hu
    rcases hT u hu with h | h
    · have : u.topups.any (fun t => t.topup_id == topupID) = false := by
        simp only [List.any_eq_false, beq_iff_eq]
        exact h
      simp [topupFilter, this]
    · have : u.topups.any (fun t => t.status == "pending") = false := by
        simp only [List.any_eq_false, beq_iff_eq]
        exact h
      simp [topupFilter, this]
  refine ⟨?_, FindAndUpdateTopup_noFaults_of_no_match r s topupID updT hT'⟩
  simp [FindAndUpdateOrder, find?_eq_none_of_forall _ _ hO']

/-- Witness for C10 (amended): the resolved order and the resolved top-up of
`resolvedStore`. -/
theorem FindAndUpdate_without_pending_match_errNoDocuments_witness :
    FindAndUpdateOrder .byId resolvedStore "ORD1700000000" (confirmUpdates 1700000100) false
        = .error .errNoDocuments ∧
      FindAndUpdateTopup .byId resolvedStore "TOP17000000001001" (approveUpdates 1700000100)
        noTopupFaults = (resolvedStore, .error .errNoDocuments) :=
  FindAndUpdate_without_pending_match_errNoDocuments .byId resolvedStore "ORD1700000000"
    "TOP17000000001001" (confirmUpdates 1700000100) (approveUpdates 1700000100)
    (by simp [resolvedStore, mkStore, mkUser, mkOrder])
    (by simp [resolvedStore, mkStore, mkUser, mkTopup])

/-! ## Confirming an order, rejecting a top-up -/

theorem trimLeading_append (pre x : String) : trimLeading (pre ++ x) pre = x := by
  have h1 : (pre ++ x).toList = pre.toList ++ x.toList := by
    simp [String.toList]
  have h2 : pre.toList.isPrefixOf (pre.toList ++ x.toList) = true := by
    simp
  have h3 : pre.length = pre.toList.length := rfl
  simp only [trimLeading, h1, h2, if_true, h3, List.drop_left]
  rfl

theorem setOrderAtPos_first (r : PosRule) (s : Store) (pre post : List User) (u : User)
    (opre opost : List Order) (o : Order) (upd : OrderUpdates)
    (hs : s.users = pre ++ u :: post)
    (hu : u.orders = opre ++ o :: opost)
    (hpending : o.status = "pending")
    (hids : ∀ v ∈ pre, ∀ x ∈ v.orders, x.order_id ≠ o.order_id)
    (hfirst : ∀ x ∈ opre, x.order_id ≠ o.order_id)
    (hpos : r = .byId ∨ ∀ x ∈ opre, x.status ≠ "pending") :
    s.users.find? (orderFilter o.order_id) = some u ∧
      setOrderAtPos r s o.order_id upd =
        { s with users := pre ++
            { u with orders := opre ++ applyOrderUpdates upd o :: opost } :: post } := by
  have hfpre : ∀ v ∈ pre, orderFilter o.order_id v = false := by
    intro v hv
    have : v.orders.any (fun x => x.order_id == o.order_id) = false := by
      simp only [List.any_eq_false, beq_iff_eq]
      exact hids v hv
    simp [orderFilter, this]
  have hfu : orderFilter o.order_id u = true := by
    simp [orderFilter, hu, hpending]
  have hp : ∀ x ∈ opre, orderAtPos r o.order_id x = false := by
    intro x hx
    rcases hpos with h | h
    · subst h
      simp [orderAtPos, hfirst x hx]
    · cases r
      · simp [orderAtPos, hfirst x hx]
      · simp [orderAtPos, h x hx]
  have hpo : orderAtPos r o.order_id o = true := by
    cases r <;> simp [orderAtPos, hpending]
  refine ⟨by rw [hs]; exact find?_append_cons_first _ pre post u hfpre hfu, ?_⟩
  simp only [setOrderAtPos, hs]
  rw [modifyFirst_append_cons_first _ _ pre post u hfpre hfu, hu,
    modifyFirst_append_cons_first _ _ opre opost o hp hpo]

/-- C11 (counterexample): in `sameSecondOrdersStore` the pending orders of
users `1001` and `2002` share the id `ORD1700000000`; the admin's confirm
action on the order of `2002` confirms the order of `1001` and leaves the order
of `2002` pending, under both positional rules.  And in
`twoPendingOrdersStore`, where the positional `$` follows the status
condition, the confirm action on the second order confirms the first one. -/
theorem handleOrderConfirm_confirms_another_order :
    orderIds sameSecondOrdersStore = [["ORD1700000000"], ["ORD1700000000"]] ∧
    orderStatuses sameSecondOrdersStore = [["pending"], ["pending"]] ∧
    balances sameSecondOrdersStore = [4050, 3100] ∧
    orderStatuses (handleOrderConfirm adminCfg .byId sameSecondOrdersStore 42 "Admin"
      "order_confirm_ORD1700000000" 1700000100 false).1 = [["confirmed"], ["pending"]] ∧
    orderStatuses (handleOrderConfirm adminCfg .byStatus sameSecondOrdersStore 42 "Admin"
      "order_confirm_ORD1700000000" 1700000100 false).1 = [["confirmed"], ["pending"]] ∧
    orderStatuses (handleOrderConfirm adminCfg .byStatus twoPendingOrdersStore 42 "Admin"
      "order_confirm_ORD1700000050" 1700000100 false).1 = [["confirmed", "pending"]] := by
  decide

/-- C11 (amended): let `o` be a pending order in the record of `u`, the first
order in the store that carries its id, and let `o` be its owner's first
pending order (or let the positional `$` follow the id condition).  The
admin's confirm action on the id of `o` sets the status of `o` to confirmed
(stamped with the admin's name and the time) and leaves every balance, every
other order and the rest of the store as they were. -/
theorem handleOrderConfirm_confirms_pending_order (cfg : Config) (r : PosRule) (s : Store)
    (fromID : Int) (adminName : String) (now : Int) (pre post : List User) (u : User)
    (opre opost : List Order) (o : Order)
    (hadmin : isAdmin cfg (FormatInt fromID) = true)
    (hs : s.users = pre ++ u :: post)
    (hu : u.orders = opre ++ o :: opost)
    (hpending : o.status = "pending")
    (hids : ∀ v ∈ pre, ∀ x ∈ v.orders, x.order_id ≠ o.order_id)
    (hfirst : ∀ x ∈ opre, x.order_id ≠ o.order_id)
    (hpos : r = .byId ∨ ∀ x ∈ opre, x.status ≠ "pending") :
    handleOrderConfirm cfg r s fromID adminName ("order_confirm_" ++ o.order_id) now false =
      ({ s with users := pre ++
          { u with orders := opre ++
              { o with status := "confirmed", confirmed_by := some adminName,
                       confirmed_at := some now } :: opost } :: post },
        .orderConfirmed o.order_id u.user_id) := by
  obtain ⟨hfind, hset⟩ := setOrderAtPos_first r s pre post u opre opost o
    { status := some "confirmed", confirmed_by := some adminName, confirmed_at := some now,
      cancelled_by := none, cancelled_at := none } hs hu hpending hids hfirst hpos
  simp only [handleOrderConfirm, hadmin, Bool.not_true, Bool.false_eq_true, if_false,
    trimLeading_append, FindAndUpdateOrder, hfind, hset]
  simp [applyOrderUpdates]


/-- Witness for C11 (amended): in `twoOrdersStore` the second order is pending
and the first one is already confirmed; confirming the second order marks it
confirmed and changes nothing else. -/
theorem handleOrderConfirm_confirms_pending_order_witness :
    handleOrderConfirm adminCfg .byStatus twoOrdersStore 42 "Admin"
        ("order_confirm_" ++ (mkOrder "ORD1700000050" "86" 5100 "pending").order_id)
        1700000100 false =
      (mkStore 100
        [applyOrderUpdates (confirmUpdates 1700000060)
           (mkOrder "ORD1700000000" "11" 950 "pending"),
         applyOrderUpdates (confirmUpdates 1700000100)
           (mkOrder "ORD1700000050" "86" 5100 "pending")] [] none,
        .orderConfirmed "ORD1700000050" "1001") :=
  (handleOrderConfirm_confirms_pending_order adminCfg .byStatus twoOrdersStore 42 "Admin"
    1700000100 [] []
    (mkUser 100 [applyOrderUpdates (confirmUpdates 1700000060)
        (mkOrder "ORD1700000000" "11" 950 "pending"),
      mkOrder "ORD1700000050" "86" 5100 "pending"] [])
    [applyOrderUpdates (confirmUpdates 1700000060) (mkOrder "ORD1700000000" "11" 950 "pending")]
    [] (mkOrder "ORD1700000050" "86" 5100 "pending")
    (by decide) rfl rfl rfl (by simp) (by decide) (Or.inr (by decide))).trans (by decide)


theorem setTopupAtPos_first (r : PosRule) (s : Store) (pre post : List User) (u : User)
    (tpre tpost : List Topup) (t : Topup) (upd : TopupUpdates)
    (hs : s.users = pre ++ u :: post)
    (hu : u.topups = tpre ++ t :: tpost)
    (hpending : t.status = "pending")
    (hids : ∀ v ∈ pre, ∀ x ∈ v.topups, x.topup_id ≠ t.topup_id)
    (hfirst : ∀ x ∈ tpre, x.topup_id ≠ t.topup_id)
    (hpos : r = .byId ∨ ∀ x ∈ tpre, x.status ≠ "pending") :
    s.users.find? (topupIdFilter t.topup_id) = some u ∧
      s.users.find? (topupFilter t.topup_id) = some u ∧
      setTopupAtPos r s t.topup_id upd =
        { s with users := pre ++
            { u with topups := tpre ++ applyTopupUpdates upd t :: tpost } :: post } := by
  have hidpre : ∀ v ∈ pre, topupIdFilter t.topup_id v = false := by
    intro v hv
    simp only [topupIdFilter, List.any_eq_false, beq_iff_eq]
    exact hids v hv
  have hidu : topupIdFilter t.topup_id u = true := by
    simp [topupIdFilter, hu]
  have hfpre : ∀ v ∈ pre, topupFilter t.topup_id v = false := by
    intro v hv
    have := hidpre v hv
    simp only [topupIdFilter] at this
    simp [topupFilter, this]
  have hfu : topupFilter t.topup_id u = true := by
    simp [topupFilter, hu, hpending]
  have hp : ∀ x ∈ tpre, topupAtPos r t.topup_id x = false := by
    intro x hx
    rcases hpos with h | h
    · subst h
      simp [topupAtPos, hfirst x hx]
    · cases r
      · simp [topupAtPos, hfirst x hx]
      · simp [topupAtPos, h x hx]
  have hpt : topupAtPos r t.topup_id t = true := by
    cases r <;> simp [topupAtPos, hpending]
  refine ⟨by rw [hs]; exact find?_append_cons_first _ pre post u hidpre hidu,
    by rw [hs]; exact find?_append_cons_first _ pre post u hfpre hfu, ?_⟩
  simp only [setTopupAtPos, hs]
  rw [modifyFirst_append_cons_first _ _ pre post u hfpre hfu, hu,
    modifyFirst_append_cons_first _ _ tpre tpost t hp hpt]

/-- C12 (counterexample): in `sameIdTopupsStore` the pending top-ups of users
`10001234` and `20001234` share the id `TOP17000000001234`; the admin's reject
action on the top-up of `20001234` rejects the top-up of `10001234` and leaves
the one of `20001234` pending, under both positional rules.  And in
`twoTopupsStore`, where the positional `$` follows the status condition, the
reject action on the second top-up rejects the first one. -/
theorem handleTopupReject_rejects_another_topup :
    GenerateTopupID 1700000000 "10001234" = utf8Bytes "TOP17000000001234" ∧
    GenerateTopupID 1700000000 "20001234" = utf8Bytes "TOP17000000001234" ∧
    topupStatuses sameIdTopupsStore = [["pending"], ["pending"]] ∧
    topupStatuses (handleTopupReject adminCfg .byId sameIdTopupsStore 42 "Admin"
      "topup_reject_TOP17000000001234" 1700000100 noTopupFaults).1
        = [["rejected"], ["pending"]] ∧
    topupStatuses (handleTopupReject adminCfg .byStatus sameIdTopupsStore 42 "Admin"
      "topup_reject_TOP17000000001234" 1700000100 noTopupFaults).1
        = [["rejected"], ["pending"]] ∧
    topupStatuses (handleTopupReject adminCfg .byStatus twoTopupsStore 42 "Admin"
      "topup_reject_TOP17000000501001" 1700000100 noTopupFaults).1
        = [["rejected", "pending"]] := by
  decide

/-- C12 (amended): let `t` be a pending top-up in the record of `u`, the first
top-up in the store that carries its id, and let `t` be its owner's first
pending top-up (or let the positional `$` follow the id condition).  With the
store answering every call, the admin's reject action on the id of `t` sets
the status of `t` to rejected (stamped with the admin's name and the time) and
leaves every balance, every other top-up and the rest of the store as they
were. -/
theorem handleTopupReject_rejects_pending_topup (cfg : Config) (r : PosRule) (s : Store)
    (fromID : Int) (adminName : String) (now : Int) (pre post : List User) (u : User)
    (tpre tpost : List Topup) (t : Topup)
    (hadmin : isAdmin cfg (FormatInt fromID) = true)
    (hs : s.users = pre ++ u :: post)
    (hu : u.topups = tpre ++ t :: tpost)
    (hpending : t.status = "pending")
    (hids : ∀ v ∈ pre, ∀ x ∈ v.topups, x.topup_id ≠ t.topup_id)
    (hfirst : ∀ x ∈ tpre, x.topup_id ≠ t.topup_id)
    (hpos : r = .byId ∨ ∀ x ∈ tpre, x.status ≠ "pending") :
    handleTopupReject cfg r s fromID adminName ("topup_reject_" ++ t.topup_id) now
        noTopupFaults =
      ({ s with users := pre ++
          { u with topups := tpre ++
              { t with status := "rejected", rejected_by := some adminName,
                       rejected_at := some now } :: tpost } :: post },
        .topupRejected t.topup_id u.user_id) := by
  obtain ⟨hfind1, hfind2, hset⟩ := setTopupAtPos_first r s pre post u tpre tpost t
    { status := some "rejected", approved_by := none, approved_at := none,
      rejected_by := some adminName, rejected_at := some now } hs hu hpending hids hfirst hpos
  simp only [handleTopupReject, hadmin, Bool.not_true, Bool.false_eq_true, if_false,
    trimLeading_append, FindAndUpdateTopup, noTopupFaults, hfind1, hfind2, hset]
  simp [applyTopupUpdates]


/-- Witness for C12 (amended): the pending top-up of 5000 in
`pendingTopupStore` is rejected and the balance of `1001` stays 0. -/
theorem handleTopupReject_rejects_pending_topup_witness :
    handleTopupReject adminCfg .byStatus pendingTopupStore 42 "Admin"
        ("topup_reject_" ++ (mkTopup "TOP17000000001001" 5000 "pending").topup_id)
        1700000100 noTopupFaults =
      (mkStore 0 []
        [{ mkTopup "TOP17000000001001" 5000 "rejected" with
            rejected_by := some "Admin", rejected_at := some 1700000100 }] none,
        .topupRejected "TOP17000000001001" "1001") :=
  (handleTopupReject_rejects_pending_topup adminCfg .byStatus pendingTopupStore 42 "Admin"
    1700000100 [] [] (mkUser 0 [] [mkTopup "TOP17000000001001" 5000 "pending"]) [] []
    (mkTopup "TOP17000000001001" 5000 "pending")
    (by decide) rfl rfl rfl (by simp) (by simp) (Or.inr (by simp))).trans (by decide)

/-! ## Affiliate commission -/

/-- C13 (the code at the failing input): in `referralStore` user `1001` was
referred by `2002`; the admin approves the top-up of 5000 of `1001`.  The
top-up amount is credited to `1001`, and the referrer's balance and referral
earnings both stay 0: `processAffiliateCommission` returns the store it is
given, for every store, user and top-up. -/
theorem handleTopupApprove_pays_no_commission :
    (∀ (s : Store) (userID topupID : String),
      processAffiliateCommission s userID topupID = s) ∧
    earnings referralStore = [("2002", 0, 0), ("1001", 0, 0)] ∧
    ∀ r : PosRule,
      (handleTopupApprove adminCfg r referralStore 42 "Admin"
        "topup_approve_TOP17000000001001" 1700000100 noTopupFaults).2
          = .topupApproved "TOP17000000001001" "1001" ∧
      earnings (handleTopupApprove adminCfg r referralStore 42 "Admin"
        "topup_approve_TOP17000000001001" 1700000100 noTopupFaults).1
          = [("2002", 0, 0), ("1001", 5000, 0)] := by
  refine ⟨fun _ _ _ => rfl, by decide, ?_⟩
  intro r
  cases r <;> decide

/-! ## Price lookup -/

/-- C14 (the code at the failing input): after the admin's `/setprice 86 6000`
the persisted table holds the integer 6000 for `86`, which `LoadPrices` hands
back as a 32 bit integer.  `GetPrice` asserts the Go type `int`, so it skips
that entry and returns the built-in 5100, and the purchase of `86` is charged
5100.  With the same number held as a Go `int` the entry is returned. -/
theorem GetPrice_skips_loaded_custom_price :
    (HandleSetPrice adminCfg (mkStore 10000 [] [] none) 42 "86 6000" noSetPriceFaults).2
      = .priceUpdated "86" 6000 ∧
    LoadPrices afterSetPriceStore false = .ok [("86", .int32 6000)] ∧
    GetPrice "86" [("86", .int32 6000)] = 5100 ∧
    GetPrice "86" [("86", .int 6000)] = 6000 ∧
    (HandleMmb adminCfg afterSetPriceStore 1001 1001 "12345678 1234 86" 1700000000
      noMmbFaults).2 =
        .orderConfirmation
          (newOrder "ORD1700000000" "12345678" "1234" "86" 5100 1700000000 "1001" 1001) 4900 := by
  decide

/-! ## Banned-account heuristic -/

theorem leadByte_and (x : UInt8) :
    (x &&& 0x1f ||| 0xc0) &&& 0xc0 = 0xc0 ∧ (x &&& 0x0f ||| 0xe0) &&& 0xc0 = 0xc0 ∧
      (x &&& 0x07 ||| 0xf0) &&& 0xc0 = 0xc0 ∧ (x &&& 0x3f ||| 0x80) &&& 0xc0 = 0x80 := by
  obtain ⟨v⟩ := x
  revert v
  decide

theorem ascii_le (c : Char) : c.val ≤ 0x7f ↔ c.toNat < 128 := by
  show c.val.toNat ≤ 127 ↔ c.val.toNat < 128
  omega

theorem toUInt8_inj (a b : UInt32) (ha : a.toNat < 128) (hb : b.toNat < 128)
    (h : a.toUInt8 = b.toUInt8) : a = b := by
  have h1 : a.toUInt8.toNat = b.toUInt8.toNat := by rw [h]
  have h2 : ∀ x : UInt32, x.toUInt8.toNat = x.toNat % 256 := fun _ => rfl
  rw [h2, h2] at h1
  exact UInt32.toNat.inj (by omega)

/-- The encoding of an ASCII character is its single byte. -/
theorem utf8EncodeChar_ascii (c : Char) (h : c.toNat < 128) :
    String.utf8EncodeChar c = [c.val.toUInt8] := by
  have h1 : c.val ≤ 0x7f := (ascii_le c).mpr h
  simp [String.utf8EncodeChar, h1]

/-- The encoding of any other character starts with two different bytes. -/
theorem utf8EncodeChar_multi (c : Char) (h : ¬ c.toNat < 128) :
    ∃ b1 b2 tl, String.utf8EncodeChar c = b1 :: b2 :: tl ∧ b1 ≠ b2 := by
  have h1 : ¬ c.val ≤ 0x7f := fun hle => h ((ascii_le c).mp hle)
  have hne : ∀ x y : UInt8, x &&& 0xc0 = 0xc0 → y &&& 0xc0 = 0x80 → x ≠ y := by
    intro x y hx hy hxy
    rw [hxy, hy] at hx
    exact absurd hx (by decide)
  unfold String.utf8EncodeChar
  simp only [h1, if_false]
  split
  · exact ⟨_, _, _, rfl, hne _ _ (leadByte_and _).1 (leadByte_and _).2.2.2⟩
  · split
    · exact ⟨_, _, _, rfl, hne _ _ (leadByte_and _).2.1 (leadByte_and _).2.2.2⟩
    · exact ⟨_, _, _, rfl, hne _ _ (leadByte_and _).2.2.1 (leadByte_and _).2.2.2⟩

/-- A character whose bytes all equal `b` is the ASCII character with byte `b`. -/
theorem char_of_constant_bytes (c : Char) (b : UInt8)
    (h : ∀ x ∈ String.utf8EncodeChar c, x = b) : c.toNat < 128 ∧ c.val.toUInt8 = b := by
  by_cases hc : c.toNat < 128
  · refine ⟨hc, ?_⟩
    rw [utf8EncodeChar_ascii c hc] at h
    exact h _ (by simp)
  · obtain ⟨b1, b2, tl, heq, hne⟩ := utf8EncodeChar_multi c hc
    rw [heq] at h
    have e1 := h b1 (by simp)
    have e2 := h b2 (by simp)
    exact absurd (e1.trans e2.symm) hne

/-- C15 (counterexample): `aaaaaa` is not in the deny-list and contains no
digit, yet `IsBannedAccount` accepts it as banned. -/
theorem IsBannedAccount_repeated_letter :
    IsBannedAccount "aaaaaa" = true ∧ "aaaaaa" ∉ bannedIDs ∧
      "aaaaaa".toList.any Char.isDigit = false := by
  decide

/-- C15 (amended): `IsBannedAccount g` holds exactly when `g` is in the
deny-list or `g` is non-empty and consists of one ASCII character repeated
(all its bytes are equal); the character need not be a digit. -/
theorem IsBannedAccount_iff_denied_or_repeated_byte (g : String) :
    IsBannedAccount g = true ↔
      g ∈ bannedIDs ∨ ∃ (c : Char) (n : Nat), c.toNat < 128 ∧
        g.toList = List.replicate (n + 1) c := by
  unfold IsBannedAccount
  by_cases hd : g ∈ bannedIDs
  · simp [hd]
  · have hd' : bannedIDs.contains g = false := by simpa using hd
    simp only [hd', Bool.false_eq_true, if_false, hd, false_or]
    constructor
    · intro h
      cases hg : g.toList with
      | nil =>
        have hg' : g.data = [] := hg
        simp [utf8Bytes, hg'] at h
      | cons c cs =>
        cases hb : utf8Bytes g with
        | nil => simp [hb] at h
        | cons first rest =>
          simp only [hb, List.all_eq_true, beq_iff_eq] at h
          have hall : ∀ x ∈ utf8Bytes g, x = first := by
            intro x hx
            rw [hb] at hx
            rcases List.mem_cons.mp hx with rfl | hx'
            · rfl
            · exact h x hx'
          have hchar : ∀ d ∈ g.toList, d.toNat < 128 ∧ d.val.toUInt8 = first := by
            intro d hdm
            apply char_of_constant_bytes
            intro x hx
            exact hall x (by
              simp only [utf8Bytes, List.mem_flatMap]
              exact ⟨d, hdm, hx⟩)
          have hc := hchar c (by rw [hg]; exact List.mem_cons_self c cs)
          refine ⟨c, cs.length, hc.1, ?_⟩
          rw [List.eq_replicate_iff]
          refine ⟨by simp, ?_⟩
          intro d hdm
          have hdc := hchar d (by rw [hg]; exact hdm)
          exact Char.ext (toUInt8_inj _ _ hdc.1 hc.1 (hdc.2.trans hc.2.symm))
    · rintro ⟨c, n, hc, hg⟩
      have hb : utf8Bytes g = List.replicate (n + 1) c.val.toUInt8 := by
        simp only [utf8Bytes, hg]
        clear hg
        induction n with
        | zero => simp [utf8EncodeChar_ascii c hc]
        | succ k ih =>
          rw [List.replicate_succ, List.flatMap_cons, ih, utf8EncodeChar_ascii c hc]
          simp [List.replicate_succ]
      rw [hb, List.replicate_succ]
      simp

/-- C16 (counterexample): `123456789` is an entry of the deny-list of
`IsBannedAccount`, so it is reported as banned. -/
theorem IsBannedAccount_sequence_is_denied :
    "123456789" ∈ bannedIDs ∧ IsBannedAccount "123456789" = true := by
  decide

/-- C16 (amended): `IsBannedAccount` is true on `111111111`, true on
`123456789` (an entry of the deny-list) and true on `00000000` (eight zeros,
by the repeated-character rule, not by the deny-list). -/
theorem IsBannedAccount_examples :
    IsBannedAccount "111111111" = true ∧ IsBannedAccount "123456789" = true ∧
      IsBannedAccount "00000000" = true ∧ "00000000" ∉ bannedIDs := by
  decide

/-! ## Format checks -/

theorem foldl_digits_lt (ds : List Char) (acc : Nat) (h : ds.all Char.isDigit = true) :
    ds.foldl (fun a c => a * 10 + (c.toNat - 48)) acc < (acc + 1) * 10 ^ ds.length := by
  induction ds generalizing acc with
  | nil => simp
  | cons d rest ih =>
    simp only [List.all_cons, Bool.and_eq_true] at h
    have hd : d.toNat - 48 ≤ 9 := by
      have := h.1
      simp only [Char.isDigit, Bool.and_eq_true, decide_eq_true_eq] at this
      have h2 : d.val.toNat ≤ 57 := this.2
      show d.val.toNat - 48 ≤ 9
      omega
    have := ih (acc * 10 + (d.toNat - 48)) h.2
    simp only [List.foldl_cons, List.length_cons]
    calc List.foldl (fun a c => a * 10 + (c.toNat - 48)) (acc * 10 + (d.toNat - 48)) rest
        < (acc * 10 + (d.toNat - 48) + 1) * 10 ^ rest.length := this
      _ ≤ ((acc + 1) * 10) * 10 ^ rest.length := by
          apply Nat.mul_le_mul_right
          omega
      _ = (acc + 1) * 10 ^ (rest.length + 1) := by ring

theorem digitsValue_lt (ds : List Char) (h : ds.all Char.isDigit = true) :
    digitsValue ds < 10 ^ ds.length := by
  have := foldl_digits_lt ds 0 h
  simpa [digitsValue] using this

/-- Without a range error `Atoi` succeeds exactly on signed decimals. -/
theorem Atoi_isSome_iff (s : String) (hlen : s.length ≤ 18) :
    (Atoi s).isSome = true ↔ isSignedDecimal s = true := by
  unfold Atoi isSignedDecimal
  simp only
  have hlen2 : (if (s.toList.head? == some '-' || s.toList.head? == some '+') = true
      then s.toList.tail else s.toList).length ≤ 18 := by
    have hl : s.toList.length ≤ 18 := hlen
    split
    · simp only [List.length_tail]
      omega
    · exact hl
  generalize (if (s.toList.head? == some '-' || s.toList.head? == some '+') = true
      then s.toList.tail else s.toList) = ds at hlen2 ⊢
  generalize (s.toList.head? == some '-') = neg
  cases he : ds.isEmpty
  · cases ha : ds.all Char.isDigit
    · simp
    · have hval := digitsValue_lt ds ha
      have hpow : 10 ^ ds.length ≤ 10 ^ 18 := Nat.pow_le_pow_right (by decide) hlen2
      have h18 : (10 : Nat) ^ 18 ≤ 9223372036854775807 := by decide
      have hb1 : digitsValue ds ≤ 9223372036854775807 := by omega
      have hb2 : digitsValue ds ≤ 9223372036854775808 := by omega
      cases neg <;> simp [hb1, hb2]
  · simp

/-- The strings accepted by `Atoi` are signed decimals, whatever their length. -/
theorem isSignedDecimal_of_Atoi (s : String) (h : (Atoi s).isSome = true) :
    isSignedDecimal s = true := by
  unfold Atoi at h
  unfold isSignedDecimal
  simp only at h ⊢
  generalize (if (s.toList.head? == some '-' || s.toList.head? == some '+') = true
      then s.toList.tail else s.toList) = ds at h ⊢
  cases he : ds.isEmpty
  · cases ha : ds.all Char.isDigit
    · simp [he, ha] at h
    · simp
  · simp [he] at h

/-- A signed decimal consists of one-byte characters. -/
theorem utf8ByteSize_of_isSignedDecimal (s : String) (h : isSignedDecimal s = true) :
    s.utf8ByteSize = s.length := by
  have hgo : ∀ cs : List Char, (∀ c ∈ cs, c.toNat < 128) →
      String.utf8ByteSize.go cs = cs.length := by
    intro cs
    induction cs with
    | nil => intro _; rfl
    | cons c rest ih =>
      intro hall
      have hc : c.val ≤ 0x7f := (ascii_le c).mpr (hall c (by simp))
      have hr := ih (fun d hd => hall d (by simp [hd]))
      have hsz : c.utf8Size = 1 := by
        unfold Char.utf8Size
        exact if_pos hc
      simp only [String.utf8ByteSize.go, hr, hsz, List.length_cons]
  have hdigit : ∀ c : Char, c.isDigit = true → c.toNat < 128 := by
    intro c hc
    simp only [Char.isDigit, Bool.and_eq_true, decide_eq_true_eq] at hc
    have h2 : c.val.toNat ≤ 57 := hc.2
    show c.val.toNat < 128
    omega
  have hall : ∀ c ∈ s.toList, c.toNat < 128 := by
    unfold isSignedDecimal at h
    simp only [Bool.and_eq_true, List.all_eq_true] at h
    intro c hc
    cases hs : s.toList with
    | nil => rw [hs] at hc; simp at hc
    | cons d rest =>
      rw [hs] at hc h
      simp only [List.head?_cons, List.tail_cons] at h
      by_cases hsign : (some d == some '-' || some d == some '+') = true
      · rw [if_pos hsign] at h
        rcases List.mem_cons.mp hc with rfl | hc'
        · simp only [Bool.or_eq_true, beq_iff_eq, Option.some.injEq] at hsign
          rcases hsign with rfl | rfl <;> decide
        · exact hdigit c (h.2 c hc')
      · rw [if_neg hsign] at h
        exact hdigit c (h.2 c hc)
  show String.utf8ByteSize.go s.data = s.data.length
  exact hgo s.data hall

/-- C17 (counterexample): `+12345` and `-123456789` pass `ValidateGameID` and
`-12` and `+1234` pass `ValidateServerID`, although each contains a sign. -/
theorem Validate_accepts_signed :
    ValidateGameID "+12345" = true ∧ ValidateGameID "-123456789" = true ∧
      ValidateServerID "-12" = true ∧ ValidateServerID "+1234" = true ∧
      "+12345".toList.all Char.isDigit = false ∧ "-12".toList.all Char.isDigit = false := by
  decide

/-- C17 (amended): `ValidateGameID s` holds exactly when `s` has 6 to 10
characters and is an optional sign followed by decimal digits, and
`ValidateServerID s` holds exactly when `s` has 3 to 5 characters and is an
optional sign followed by decimal digits. -/
theorem Validate_iff_length_and_signed_decimal (s : String) :
    (ValidateGameID s = true ↔
      (6 ≤ s.length ∧ s.length ≤ 10 ∧ isSignedDecimal s = true)) ∧
    (ValidateServerID s = true ↔
      (3 ≤ s.length ∧ s.length ≤ 5 ∧ isSignedDecimal s = true)) := by
  constructor
  · unfold ValidateGameID
    constructor
    · intro h
      split at h
      · simp at h
      · rename_i hb
        have hsd := isSignedDecimal_of_Atoi s h
        have hlen := utf8ByteSize_of_isSignedDecimal s hsd
        simp only [Bool.or_eq_true, decide_eq_true_eq, not_or, not_lt] at hb
        rw [hlen] at hb
        exact ⟨hb.1, by omega, hsd⟩
    · rintro ⟨h1, h2, h3⟩
      have hlen := utf8ByteSize_of_isSignedDecimal s h3
      have hb : ¬ ((decide (s.utf8ByteSize < 6) || decide (s.utf8ByteSize > 10)) = true) := by
        simp only [Bool.or_eq_true, decide_eq_true_eq, not_or, not_lt]
        rw [hlen]
        exact ⟨h1, by omega⟩
      rw [if_neg hb]
      exact (Atoi_isSome_iff s (by omega)).mpr h3
  · unfold ValidateServerID
    constructor
    · intro h
      split at h
      · simp at h
      · rename_i hb
        have hsd := isSignedDecimal_of_Atoi s h
        have hlen := utf8ByteSize_of_isSignedDecimal s hsd
        simp only [Bool.or_eq_true, decide_eq_true_eq, not_or, not_lt] at hb
        rw [hlen] at hb
        exact ⟨hb.1, by omega, hsd⟩
    · rintro ⟨h1, h2, h3⟩
      have hlen := utf8ByteSize_of_isSignedDecimal s h3
      have hb : ¬ ((decide (s.utf8ByteSize < 3) || decide (s.utf8ByteSize > 5)) = true) := by
        simp only [Bool.or_eq_true, decide_eq_true_eq, not_or, not_lt]
        rw [hlen]
        exact ⟨h1, by omega⟩
      rw [if_neg hb]
      exact (Atoi_isSome_iff s (by omega)).mpr h3

/-! ## Price table updates -/

theorem lookupKey_replace_other {β : Type} (m : List (String × β)) (k k' : String) (v : β)
    (hk' : k' ≠ k) :
    lookupKey (m.map (fun kv => if kv.1 == k then (k, v) else kv)) k' = lookupKey m k' := by
  have hne : (k == k') = false := by
    simp only [beq_eq_false_iff_ne, ne_eq]
    exact fun h => hk' h.symm
  induction m with
  | nil => rfl
  | cons kv rest ih =>
    by_cases hk : kv.1 = k
    · have hkv : (kv.1 == k') = false := by
        rw [hk]
        exact hne
      simp only [lookupKey, List.map_cons, hk, beq_self_eq_true, if_true, List.find?, hne,
        hkv] at ih ⊢
      exact ih
    · have hne2 : (kv.1 == k) = false := by simpa using hk
      by_cases hkv : kv.1 = k'
      · have hkv' : (kv.1 == k') = true := by simpa using hkv
        simp only [lookupKey, List.map_cons, hne2, Bool.false_eq_true, if_false, List.find?,
          hkv']
      · have hne3 : (kv.1 == k') = false := by simpa using hkv
        simp only [lookupKey, List.map_cons, hne2, Bool.false_eq_true, if_false, List.find?,
          hne3] at ih ⊢
        exact ih

theorem lookupKey_replace_same {β : Type} (m : List (String × β)) (k : String) (v : β)
    (hany : m.any (fun kv => kv.1 == k) = true) :
    lookupKey (m.map (fun kv => if kv.1 == k then (k, v) else kv)) k = some v := by
  induction m with
  | nil => simp at hany
  | cons kv rest ih =>
    by_cases hk : kv.1 = k
    · simp [lookupKey, List.find?, hk]
    · have hne2 : (kv.1 == k) = false := by simpa using hk
      have hrest : rest.any (fun kv => kv.1 == k) = true := by
        simpa [List.any_cons, hne2] using hany
      have := ih hrest
      simp only [lookupKey, List.map_cons, hne2, Bool.false_eq_true, if_false,
        List.find?] at this ⊢
      exact this

theorem lookupKey_insertKey {β : Type} (m : List (String × β)) (k k' : String) (v : β) :
    lookupKey (insertKey m k v) k' = if k' = k then some v else lookupKey m k' := by
  unfold insertKey
  by_cases hany : m.any (fun kv => kv.1 == k) = true
  · rw [if_pos hany]
    by_cases hk' : k' = k
    · subst hk'
      rw [lookupKey_replace_same m k' v hany, if_pos rfl]
    · rw [lookupKey_replace_other m k k' v hk', if_neg hk']
  · rw [if_neg hany]
    have hnone : ∀ kv ∈ m, (kv.1 == k) = false := by
      intro kv hkv
      cases hb : (kv.1 == k)
      · rfl
      · exact absurd (List.any_eq_true.mpr ⟨kv, hkv, hb⟩) hany
    by_cases hk' : k' = k
    · subst hk'
      have : m.find? (fun kv => kv.1 == k') = none := find?_eq_none_of_forall _ m hnone
      simp [lookupKey, List.find?_append, this]
    · have hne : (k == k') = false := by
        simp only [beq_eq_false_iff_ne, ne_eq]
        exact fun h => hk' h.symm
      simp only [lookupKey, List.find?_append, hk', if_false]
      cases hf : m.find? (fun kv => kv.1 == k') with
      | none => simp [List.find?, hne]
      | some kv => simp

theorem lookupKey_map_value {β γ : Type} (m : List (String × β)) (f : β → γ) (k : String) :
    lookupKey (m.map (fun kv => (kv.1, f kv.2))) k = (lookupKey m k).map f := by
  induction m with
  | nil => simp [lookupKey]
  | cons kv rest ih =>
    by_cases hk : kv.1 = k
    · simp [lookupKey, List.find?, hk]
    · have hne : (kv.1 == k) = false := by simpa using hk
      simp only [lookupKey, List.map_cons, List.find?, hne] at ih ⊢
      exact ih

/-- After assigning `val j` to `key j` for `j = 0, ..., n - 1` in order, with
distinct keys, every `key i` holds `val i`. -/
theorem lookupKey_foldl_range {β : Type} (key : Nat → String) (val : Nat → β) (n : Nat)
    (m : List (String × β)) (hinj : ∀ i < n, ∀ j < n, key i = key j → i = j) :
    ∀ i < n, lookupKey ((List.range n).foldl (fun acc k => insertKey acc (key k) (val k)) m)
      (key i) = some (val i) := by
  induction n with
  | zero => intro i hi; omega
  | succ n ih =>
    intro i hi
    rw [List.range_succ, List.foldl_append]
    simp only [List.foldl_cons, List.foldl_nil]
    rw [lookupKey_insertKey]
    by_cases hin : i = n
    · subst hin
      simp
    · have hne : key i ≠ key n := fun h => hin (hinj i hi n (by omega) h)
      rw [if_neg hne]
      exact ih (fun a ha b hb => hinj a (by omega) b (by omega)) i (by omega)

theorem weeklyKeys_distinct :
    ∀ i < 10, ∀ j < 10,
      "wp" ++ FormatInt ((i + 1 : Nat) : Int) = "wp" ++ FormatInt ((j + 1 : Nat) : Int) →
        i = j := by
  decide

set_option maxRecDepth 8000 in
/-- C18 (counterexample): `/setprice wp7 60000` stores 59999 for `wp7`, while
the truncation of the exact value of `(60000 / 7) * 7` is 60000. -/
theorem weekly_pass_update_rounds_down :
    weeklyPrice 60000 7 7 = 59999 ∧
    lookupKey ((HandleSetPrice adminCfg (mkStore 0 [] [] none) 42 "wp7 60000"
      noSetPriceFaults).1.prices.getD []) "wp7" = some (.int32 59999) ∧
    Int.floor (((60000 : ℚ) / 7) * 7) = 60000 := by
  refine ⟨by decide, by decide, ?_⟩
  norm_num

/-- C18 (amended): for an admin's `/setprice wp<weekNum> <price>` with
`price ≥ 0`, a week number from 1 to 10 and the store answering every call,
the saved table holds for each `i` from 1 to 10, under the key `wp<i>`, the
truncation of the `float64` product `(float64(price) / float64(weekNum)) *
float64(i)`, each operation rounded to the nearest `float64`; this can be one
less than the truncation of the exact value. -/
theorem HandleSetPrice_weekly_pass_prices (cfg : Config) (s : Store) (fromID : Int)
    (args arg priceStr : String) (weekNum price : Int)
    (hadmin : isAdmin cfg (FormatInt fromID) = true)
    (hargs : Fields args = [arg, priceStr])
    (hweek : weekNumOf (ToLower arg) = some weekNum)
    (hprice : Atoi priceStr = some price)
    (hnonneg : 0 ≤ price) :
    ∀ i : Nat, 1 ≤ i → i ≤ 10 →
      lookupKey ((HandleSetPrice cfg s fromID args noSetPriceFaults).1.prices.getD [])
          ("wp" ++ FormatInt (i : Int)) =
        some (encodeValue (.int (weeklyPrice price.toNat weekNum.toNat i))) := by
  intro i hi1 hi10
  have hn : (ToLower arg == "normal") = false := by
    cases h : (ToLower arg == "normal")
    · rfl
    · have hnone : weekNumOf "normal" = none := by decide
      rw [beq_iff_eq.mp h, hnone] at hweek
      cases hweek
  have h2 : (ToLower arg == "2x") = false := by
    cases h : (ToLower arg == "2x")
    · rfl
    · have hnone : weekNumOf "2x" = none := by decide
      rw [beq_iff_eq.mp h, hnone] at hweek
      cases hweek
  have hlt : ¬ price < 0 := not_lt.mpr hnonneg
  simp only [HandleSetPrice, hadmin, Bool.not_true, Bool.false_eq_true, if_false, hargs, hn, h2,
    hprice, hlt, hweek, handleWeeklyPassUpdate, SavePrices, noSetPriceFaults, Option.getD_some]
  rw [lookupKey_map_value]
  have hfold := lookupKey_foldl_range
    (fun k => "wp" ++ FormatInt ((k + 1 : Nat) : Int))
    (fun k => Value.int (weeklyPrice price.toNat weekNum.toNat (k + 1))) 10
    (match LoadPrices s false with
      | .error _ => []
      | .ok m => m) weeklyKeys_distinct (i - 1) (by omega)
  have hi : i - 1 + 1 = i := by omega
  simp only [hi] at hfold
  exact congrArg (Option.map encodeValue) hfold

set_option maxRecDepth 8000 in
/-- Witness for C18 (amended): `/setprice wp10 60000` stores 6000, 12000, ...,
60000 for `wp1`, ..., `wp10`; shown for `wp7` through the theorem and for the
whole list by evaluation. -/
theorem HandleSetPrice_weekly_pass_prices_witness :
    lookupKey ((HandleSetPrice adminCfg (mkStore 0 [] [] none) 42 "wp10 60000"
        noSetPriceFaults).1.prices.getD []) ("wp" ++ FormatInt ((7 : Nat) : Int)) =
      some (encodeValue (.int (weeklyPrice (60000 : Int).toNat (10 : Int).toNat 7))) ∧
    (List.range 10).map (fun k => weeklyPrice 60000 10 (k + 1)) =
      [6000, 12000, 18000, 24000, 30000, 36000, 42000, 48000, 54000, 60000] ∧
    (List.range 10).map (fun k =>
      lookupKey ((HandleSetPrice adminCfg (mkStore 0 [] [] none) 42 "wp10 60000"
        noSetPriceFaults).1.prices.getD []) ("wp" ++ FormatInt ((k + 1 : Nat) : Int))) =
      [some (.int32 6000), some (.int32 12000), some (.int32 18000), some (.int32 24000),
       some (.int32 30000), some (.int32 36000), some (.int32 42000), some (.int32 48000),
       some (.int32 54000), some (.int32 60000)] :=
  ⟨HandleSetPrice_weekly_pass_prices adminCfg (mkStore 0 [] [] none) 42 "wp10 60000" "wp10"
    "60000" 10 60000 (by decide) (by decide) (by decide) (by decide) (by decide) 7
    (by decide) (by decide), by decide, by decide⟩

/-! ### Batch updates -/

theorem batchAssign_error (items prices : List String) (m : List (String × Value))
    (hlen : prices.length = items.length)
    (hbad : ∃ p ∈ prices, Atoi p = none ∨ ∃ price, Atoi p = some price ∧ price < 0) :
    ∃ d, batchAssign items prices m = .error d := by
  induction items generalizing prices m with
  | nil =>
    cases prices with
    | nil => simp at hbad
    | cons p ps => simp at hlen
  | cons d ds ih =>
    cases prices with
    | nil => simp at hlen
    | cons p ps =>
      simp only [List.length_cons, add_left_inj] at hlen
      unfold batchAssign
      cases hp : Atoi p with
      | none => exact ⟨d, rfl⟩
      | some price =>
        simp only
        by_cases hneg : price < 0
        · rw [if_pos hneg]
          exact ⟨d, rfl⟩
        · rw [if_neg hneg]
          apply ih ps _ hlen
          obtain ⟨q, hq, hqbad⟩ := hbad
          rcases List.mem_cons.mp hq with rfl | hq'
          · rcases hqbad with h | ⟨pr, h1, h2⟩
            · rw [hp] at h
              cases h
            · rw [hp] at h1
              cases h1
              exact absurd h2 hneg
          · exact ⟨q, hq', hqbad⟩

theorem batchAssign_ok (items prices : List String) (ints : List Int)
    (m : List (String × Value))
    (hparse : prices.map Atoi = ints.map some) (hnonneg : ∀ p ∈ ints, 0 ≤ p) :
    batchAssign items prices m = .ok (batchResult items ints m) := by
  induction items generalizing prices ints m with
  | nil =>
    cases prices <;> simp [batchAssign, batchResult]
  | cons d ds ih =>
    cases prices with
    | nil =>
      cases ints with
      | nil => simp [batchAssign, batchResult]
      | cons a as => simp at hparse
    | cons p ps =>
      cases ints with
      | nil => simp at hparse
      | cons a as =>
        simp only [List.map_cons, List.cons.injEq] at hparse
        have ha : ¬ a < 0 := not_lt.mpr (hnonneg a (by simp))
        unfold batchAssign
        simp only [hparse.1, ha, if_false]
        rw [ih ps as _ hparse.2 (fun q hq => hnonneg q (by simp [hq]))]
        simp [batchResult]

theorem lookupKey_batchResult_other (items : List String) (ints : List Int)
    (m : List (String × Value)) (k : String) (hk : k ∉ items) :
    lookupKey (batchResult items ints m) k = lookupKey m k := by
  induction items generalizing ints m with
  | nil => simp [batchResult]
  | cons d ds ih =>
    cases ints with
    | nil => simp [batchResult]
    | cons a as =>
      have hkd : k ≠ d := fun h => hk (by simp [h])
      have hkds : k ∉ ds := fun h => hk (by simp [h])
      have := ih as (insertKey m d (.int a)) hkds
      simp only [batchResult, List.zip_cons_cons, List.foldl_cons] at this ⊢
      rw [this, lookupKey_insertKey, if_neg hkd]

theorem lookupKey_batchResult_at (items : List String) (ints : List Int)
    (m : List (String × Value)) (hnodup : items.Nodup) :
    ∀ kp ∈ items.zip ints, lookupKey (batchResult items ints m) kp.1 = some (.int kp.2) := by
  induction items generalizing ints m with
  | nil => simp
  | cons d ds ih =>
    cases ints with
    | nil => simp
    | cons a as =>
      intro kp hkp
      have hd : d ∉ ds := (List.nodup_cons.mp hnodup).1
      have hnd : ds.Nodup := (List.nodup_cons.mp hnodup).2
      simp only [List.zip_cons_cons, List.mem_cons] at hkp
      rcases hkp with rfl | hkp'
      · have := lookupKey_batchResult_other ds as (insertKey m d (.int a)) d hd
        simp only [batchResult, List.zip_cons_cons, List.foldl_cons] at this ⊢
        rw [this, lookupKey_insertKey, if_pos rfl]
      · have := ih as (insertKey m d (.int a)) hnd kp hkp'
        simp only [batchResult, List.zip_cons_cons, List.foldl_cons] at this ⊢
        exact this

theorem handleBatchUpdate_rejected (s : Store) (items : List String) (category : String)
    (prices : List String) (m : List (String × Value)) (fault : Bool)
    (hbad : prices.length ≠ items.length ∨
      ∃ p ∈ prices, Atoi p = none ∨ ∃ price, Atoi p = some price ∧ price < 0) :
    (handleBatchUpdate s items category prices m fault).1 = s := by
  unfold handleBatchUpdate
  by_cases hlen : prices.length = items.length
  · rcases hbad with h | h
    · exact absurd hlen h
    · obtain ⟨d, hd⟩ := batchAssign_error items prices m hlen h
      simp [hlen, hd]
  · simp [hlen]

theorem handleBatchUpdate_accepted (s : Store) (items : List String) (category : String)
    (prices : List String) (ints : List Int) (m : List (String × Value))
    (hparse : prices.map Atoi = ints.map some) (hnonneg : ∀ p ∈ ints, 0 ≤ p)
    (hlen : ints.length = items.length) :
    handleBatchUpdate s items category prices m false =
      ({ s with prices := some ((batchResult items ints m).map
          (fun kv => (kv.1, encodeValue kv.2))) }, .batchPriceUpdated category) := by
  have hl : prices.length = items.length := by
    have := congrArg List.length hparse
    simp only [List.length_map] at this
    omega
  unfold handleBatchUpdate
  simp [hl, batchAssign_ok items prices ints m hparse hnonneg, SavePrices]

/-- C19: for an admin's `/setprice normal ...` (23 SKUs) or `/setprice 2x ...`
(4 SKUs).  If the number of supplied prices differs from the length of the SKU
list, or some supplied price does not parse or is negative, the whole store is
left as it was, whatever the store faults.  Otherwise, with the store
answering every call, the users are untouched and in the saved table every SKU
of the list holds the price supplied at its position, while every key outside
the list holds the value it had before (as the store encodes it). -/
theorem HandleSetPrice_batch_all_or_nothing (cfg : Config) (s : Store) (fromID : Int)
    (args arg : String) (rest items : List String)
    (hadmin : isAdmin cfg (FormatInt fromID) = true)
    (hargs : Fields args = arg :: rest)
    (hitem : (ToLower arg = "normal" ∧ items = normalDiamonds) ∨
      (ToLower arg = "2x" ∧ items = doublePass)) :
    ((rest.length ≠ items.length ∨
        ∃ p ∈ rest, Atoi p = none ∨ ∃ price, Atoi p = some price ∧ price < 0) →
      ∀ f : SetPriceFaults, (HandleSetPrice cfg s fromID args f).1 = s) ∧
    (∀ ints : List Int, rest.map Atoi = ints.map some → (∀ p ∈ ints, 0 ≤ p) →
      ints.length = items.length →
      (HandleSetPrice cfg s fromID args noSetPriceFaults).1.users = s.users ∧
      (∀ kp ∈ items.zip ints,
        lookupKey ((HandleSetPrice cfg s fromID args noSetPriceFaults).1.prices.getD []) kp.1
          = some (encodeValue (.int kp.2))) ∧
      (∀ k, k ∉ items →
        lookupKey ((HandleSetPrice cfg s fromID args noSetPriceFaults).1.prices.getD []) k
          = (lookupKey (s.prices.getD []) k).map encodeValue)) := by
  have hnodup : items.Nodup := by
    rcases hitem with ⟨_, h⟩ | ⟨_, h⟩ <;> subst h <;> decide
  have hpos : 0 < items.length := by
    rcases hitem with ⟨_, h⟩ | ⟨_, h⟩ <;> subst h <;> decide
  have hdispatch : ∀ f : SetPriceFaults, rest ≠ [] →
      HandleSetPrice cfg s fromID args f =
        handleBatchUpdate s items (if ToLower arg = "normal" then "Normal Diamonds"
          else "2X Diamonds") rest
          (match LoadPrices s f.loadPrices with
            | .error _ => []
            | .ok m => m) f.savePrices := by
    intro f hne
    cases rest with
    | nil => exact absurd rfl hne
    | cons p ps =>
      rcases hitem with ⟨h1, h2⟩ | ⟨h1, h2⟩
      · subst h2
        simp [HandleSetPrice, hadmin, hargs, h1]
      · subst h2
        simp [HandleSetPrice, hadmin, hargs, h1]
  constructor
  · intro hbad f
    cases hrest : rest with
    | nil => simp [HandleSetPrice, hadmin, hargs, hrest]
    | cons p ps =>
      rw [hdispatch f (by simp [hrest])]
      exact handleBatchUpdate_rejected s items _ rest _ _ hbad
  · intro ints hparse hnonneg hlen
    have hne : rest ≠ [] := by
      intro h
      rw [h] at hparse
      have := congrArg List.length hparse
      simp only [List.map_nil, List.length_nil, List.length_map] at this
      omega
    rw [hdispatch noSetPriceFaults hne]
    simp only [noSetPriceFaults, LoadPrices, Bool.false_eq_true, if_false]
    rw [handleBatchUpdate_accepted s items _ rest ints _ hparse hnonneg hlen]
    simp only [Option.getD_some]
    refine ⟨trivial, ?_, ?_⟩
    · intro kp hkp
      rw [lookupKey_map_value, lookupKey_batchResult_at items ints _ hnodup kp hkp]
      rfl
    · intro k hk
      rw [lookupKey_map_value, lookupKey_batchResult_other items ints _ k hk]

/-- Witness for C19: on `cancelStore` (whose table holds `86`), the batch
`/setprice 2x 3400 -1 15900 32900` is rejected and leaves the store as it was,
and the batch `/setprice 2x 3400 9900 15900 32900` saves 9900 for `165`, the
second SKU of the list, and keeps the entry of `86`. -/
theorem HandleSetPrice_batch_all_or_nothing_witness :
    (HandleSetPrice adminCfg cancelStore 42 "2x 3400 -1 15900 32900" noSetPriceFaults).1
        = cancelStore ∧
      lookupKey ((HandleSetPrice adminCfg cancelStore 42 "2x 3400 9900 15900 32900"
          noSetPriceFaults).1.prices.getD []) "165" = some (encodeValue (.int 9900)) ∧
      lookupKey ((HandleSetPrice adminCfg cancelStore 42 "2x 3400 9900 15900 32900"
          noSetPriceFaults).1.prices.getD []) "86"
        = (lookupKey (cancelStore.prices.getD []) "86").map encodeValue :=
  ⟨(HandleSetPrice_batch_all_or_nothing adminCfg cancelStore 42 "2x 3400 -1 15900 32900" "2x"
      ["3400", "-1", "15900", "32900"] doublePass (by decide) (by decide)
      (Or.inr ⟨by decide, rfl⟩)).1
      (Or.inr ⟨"-1", by decide, Or.inr ⟨-1, by decide, by decide⟩⟩) noSetPriceFaults,
   ((HandleSetPrice_batch_all_or_nothing adminCfg cancelStore 42 "2x 3400 9900 15900 32900"
      "2x" ["3400", "9900", "15900", "32900"] doublePass (by decide) (by decide)
      (Or.inr ⟨by decide, rfl⟩)).2 [3400, 9900, 15900, 32900] (by decide) (by decide)
      (by decide)).2.1 ("165", 9900) (by decide),
   ((HandleSetPrice_batch_all_or_nothing adminCfg cancelStore 42 "2x 3400 9900 15900 32900"
      "2x" ["3400", "9900", "15900", "32900"] doublePass (by decide) (by decide)
      (Or.inr ⟨by decide, rfl⟩)).2 [3400, 9900, 15900, 32900] (by decide) (by decide)
      (by decide)).2.2 "86" (by decide)⟩

/-! ## Top-up declaration -/

theorem HandleTopup_users (cfg : Config) (s : Store) (fromID : Int) (args : String)
    (f : TopupCmdFaults) : (HandleTopup cfg s fromID args f).1.users = s.users := by
  have hl : (match LoadSettings s [] [] [] [] f.loadSettings with
      | .error _ => (s, (none : Option Settings))
      | .ok (s1, config) => (s1, some config)).1.users = s.users := by
    cases h : LoadSettings s [] [] [] [] f.loadSettings with
    | error e => rfl
    | ok p =>
      obtain ⟨s1, c⟩ := p
      exact LoadSettings_users s s1 _ _ _ _ _ c h
  unfold HandleTopup
  simp only
  split
  · rfl
  · split
    · rfl
    · split
      · exact hl
      · split
        · exact hl
        · split
          · split
            · exact hl
            · split <;> exact hl
          · exact hl

/-- The argument check of `HandleTopup`. -/
theorem topupArgs_iff (s : Store) (args : String) :
    (∃ amount,
      (match Fields args with
        | [amountStr] =>
          match Atoi amountStr with
          | none => (s, TopupReply.invalidAmount)
          | some amount =>
            if amount < 1000 then (s, TopupReply.invalidAmount)
            else (s, TopupReply.paymentMethodSelection amount)
        | _ => (s, TopupReply.invalidFormat)).2 = .paymentMethodSelection amount) ↔
      ∃ amountStr amount, Fields args = [amountStr] ∧ Atoi amountStr = some amount ∧
        1000 ≤ amount := by
  constructor
  · rintro ⟨amount, h⟩
    split at h
    · rename_i amountStr hf
      split at h
      · simp at h
      · rename_i a ha
        split at h
        · simp at h
        · rename_i hlt
          exact ⟨amountStr, a, hf, ha, not_lt.mp hlt⟩
    · simp at h
  · rintro ⟨amountStr, amount, hf, ha, hge⟩
    have hlt : ¬ amount < 1000 := not_lt.mpr hge
    exact ⟨amount, by simp [hf, ha, hlt]⟩

/-- C20: with the store answering every call, `HandleTopup` answers with the
payment-method selection exactly when the caller is authorized (or is the
admin), the settings do not hold `maintenance.topups = false`, the caller's
record (if any) holds no pending top-up, and the arguments are one field that
parses to an amount of at least 1000; and in every case, with or without
store faults, the users collection (every balance and every top-up list) is
left as it was. -/
theorem HandleTopup_accepts_iff (cfg : Config) (s : Store) (fromID : Int) (args : String) :
    ((∃ amount, (HandleTopup cfg s fromID args noTopupCmdFaults).2
        = .paymentMethodSelection amount) ↔
      (isAuthorized cfg (s.authorized.getD []) (FormatInt fromID) = true ∧
        maintenanceOff s.settings "topups" = false ∧
        (∀ u, s.users.find? (fun w => w.user_id == FormatInt fromID) = some u →
          ∀ t ∈ u.topups, t.status ≠ "pending") ∧
        ∃ amountStr amount, Fields args = [amountStr] ∧ Atoi amountStr = some amount ∧
          1000 ≤ amount)) ∧
    ∀ f : TopupCmdFaults, (HandleTopup cfg s fromID args f).1.users = s.users := by
  refine ⟨?_, fun f => HandleTopup_users cfg s fromID args f⟩
  simp only [HandleTopup, noTopupCmdFaults, LoadAuthorizedUsers, Bool.false_eq_true, if_false,
    loaded_noFault, maintenanceOff_settingsAfterLoad, HasPendingTopup, GetUser]
  cases hA : isAuthorized cfg (s.authorized.getD []) (FormatInt fromID)
  · simp
  · cases hM : maintenanceOff s.settings "topups"
    swap
    · simp
    · simp only [Bool.not_true, Bool.false_eq_true, if_false, true_and]
      cases hU : s.users.find? (fun w => w.user_id == FormatInt fromID) with
      | none =>
        simp only [Bool.false_eq_true, if_false, false_implies, implies_true, true_and,
          reduceCtorEq]
        exact topupArgs_iff _ args
      | some u =>
        simp only [Option.some.injEq, forall_eq']
        by_cases hP : (u.topups.any (fun t => t.status == "pending")) = true
        · have hnp : ¬ ∀ t ∈ u.topups, t.status ≠ "pending" := by
            simpa using hP
          rw [if_pos hP]
          simp [hnp]
        · have hnp : ∀ t ∈ u.topups, t.status ≠ "pending" := by
            simpa using hP
          rw [if_neg hP]
          exact (topupArgs_iff _ args).trans (and_iff_right hnp).symm

/-! ## Decimal rendering and parsing -/

/-- The value of a digit list extended by one digit at the end. -/
theorem digitsValue_append_singleton (ds : List Char) (c : Char) :
    digitsValue (ds ++ [c]) = digitsValue ds * 10 + (c.toNat - 48) := by
  simp [digitsValue, List.foldl_append]

/-- Every decimal digit character is a digit with the expected value. -/
theorem digitChar_spec (d : Nat) (h : d < 10) :
    (Nat.digitChar d).isDigit = true ∧ (Nat.digitChar d).toNat - 48 = d := by
  interval_cases d <;> decide

/-- The accumulator of `Nat.toDigitsCore` is appended at the end. -/
theorem toDigitsCore_acc (fuel : Nat) : ∀ (n : Nat) (acc : List Char),
    Nat.toDigitsCore 10 fuel n acc = Nat.toDigitsCore 10 fuel n [] ++ acc := by
  induction fuel with
  | zero => intro n acc; simp [Nat.toDigitsCore]
  | succ fuel ih =>
    intro n acc
    simp only [Nat.toDigitsCore]
    split
    · simp
    · rw [ih (n / 10) (Nat.digitChar (n % 10) :: acc), ih (n / 10) [Nat.digitChar (n % 10)]]
      simp

/-- With enough fuel `Nat.toDigitsCore` yields a non-empty list of decimal
digits whose value is the number. -/
theorem toDigitsCore_spec (fuel : Nat) : ∀ n : Nat, n < fuel →
    (Nat.toDigitsCore 10 fuel n []).all Char.isDigit = true ∧
      Nat.toDigitsCore 10 fuel n [] ≠ [] ∧
      digitsValue (Nat.toDigitsCore 10 fuel n []) = n := by
  induction fuel with
  | zero => intro n h; omega
  | succ fuel ih =>
    intro n h
    have hd := digitChar_spec (n % 10) (Nat.mod_lt n (by decide))
    simp only [Nat.toDigitsCore]
    split
    · rename_i h0
      refine ⟨by simp [hd.1], by simp, ?_⟩
      have : digitsValue [Nat.digitChar (n % 10)] = (Nat.digitChar (n % 10)).toNat - 48 := by
        simp [digitsValue]
      rw [this, hd.2]
      omega
    · rename_i h0
      have hlt : n / 10 < fuel := by omega
      obtain ⟨h1, h2, h3⟩ := ih (n / 10) hlt
      rw [toDigitsCore_acc fuel (n / 10) [Nat.digitChar (n % 10)]]
      refine ⟨?_, by simp, ?_⟩
      · rw [List.all_append, h1]
        simp [hd.1]
      · rw [digitsValue_append_singleton, h3, hd.2]
        omega

/-- The decimal rendering of a natural number: non-empty, digits only, and
its value is the number. -/
theorem toDigits_spec (n : Nat) :
    (Nat.toDigits 10 n).all Char.isDigit = true ∧ Nat.toDigits 10 n ≠ [] ∧
      digitsValue (Nat.toDigits 10 n) = n :=
  toDigitsCore_spec (n + 1) n (Nat.lt_succ_self n)

/-- The characters of `FormatInt` of a non-negative number. -/
theorem FormatInt_ofNat_toList (m : Nat) : (FormatInt (m : Int)).toList = Nat.toDigits 10 m := rfl

/-- The characters of `FormatInt` of a negative number. -/
theorem FormatInt_negSucc_toList (m : Nat) :
    (FormatInt (Int.negSucc m)).toList = '-' :: Nat.toDigits 10 (m + 1) := rfl

/-- A non-empty list of digits does not start with a sign. -/
theorem head?_of_digits (ds : List Char) (h : ds.all Char.isDigit = true) :
    (ds.head? == some '-') = false ∧ (ds.head? == some '+') = false := by
  cases ds with
  | nil => exact ⟨rfl, rfl⟩
  | cons c cs =>
    have hc : c.isDigit = true := by
      simp only [List.all_cons, Bool.and_eq_true] at h
      exact h.1
    have h1 : c ≠ '-' := by
      intro hc'
      rw [hc'] at hc
      exact absurd hc (by decide)
    have h2 : c ≠ '+' := by
      intro hc'
      rw [hc'] at hc
      exact absurd hc (by decide)
    simp [h1, h2]

/-- Parsing the decimal rendering of an integer gives the integer back when
it is in the range of a 64 bit `int`, and fails otherwise. -/
theorem Atoi_FormatInt (n : Int) :
    Atoi (FormatInt n) =
      if -9223372036854775808 ≤ n ∧ n ≤ 9223372036854775807 then some n else none := by
  cases n with
  | ofNat m =>
    obtain ⟨h1, h2, h3⟩ := toDigits_spec m
    obtain ⟨hs1, hs2⟩ := head?_of_digits _ h1
    have he : (Nat.toDigits 10 m).isEmpty = false := by
      cases h : Nat.toDigits 10 m with
      | nil => exact absurd h h2
      | cons _ _ => rfl
    unfold Atoi
    simp only [Int.ofNat_eq_coe, FormatInt_ofNat_toList, hs1, hs2, Bool.or_self,
      Bool.false_eq_true, if_false, he, h1, Bool.not_true, h3]
    by_cases hm : m ≤ 9223372036854775807
    · have : -9223372036854775808 ≤ (m : Int) ∧ (m : Int) ≤ 9223372036854775807 := by omega
      simp [hm, this]
    · have : ¬ (-9223372036854775808 ≤ (m : Int) ∧ (m : Int) ≤ 9223372036854775807) := by omega
      simp [hm, this]
  | negSucc m =>
    obtain ⟨h1, h2, h3⟩ := toDigits_spec (m + 1)
    have he : (Nat.toDigits 10 (m + 1)).isEmpty = false := by
      cases h : Nat.toDigits 10 (m + 1) with
      | nil => exact absurd h h2
      | cons _ _ => rfl
    unfold Atoi
    simp only [FormatInt_negSucc_toList, List.head?_cons, beq_self_eq_true, Bool.true_or,
      if_true, List.tail_cons, he, h1, Bool.not_true, Bool.or_self, Bool.false_eq_true, if_false,
      h3]
    have hneg : Int.negSucc m = -((m : Int) + 1) := Int.negSucc_eq m
    by_cases hm : m + 1 ≤ 9223372036854775808
    · have : -9223372036854775808 ≤ Int.negSucc m ∧ Int.negSucc m ≤ 9223372036854775807 := by
        omega
      simp only [hm, if_true, this, and_self]
      rw [hneg]
      simp
    · have : ¬ (-9223372036854775808 ≤ Int.negSucc m ∧ Int.negSucc m ≤ 9223372036854775807) := by
        omega
      simp [hm, this]

/-- The admin test on a rendered sender id: the sender is the configured admin
(and the id is in the 64 bit range). -/
theorem isAdmin_FormatInt (cfg : Config) (n : Int) :
    isAdmin cfg (FormatInt n) = true ↔
      (n = cfg.AdminID ∧ -9223372036854775808 ≤ n ∧ n ≤ 9223372036854775807) := by
  unfold isAdmin
  rw [Atoi_FormatInt]
  by_cases h : -9223372036854775808 ≤ n ∧ n ≤ 9223372036854775807
  · simp [h]
  · rw [if_neg h]
    constructor
    · intro hc
      exact Bool.noConfusion hc
    · intro hc
      exact absurd hc.2 h

/-- A sender other than the configured admin fails the admin test. -/
theorem isAdmin_of_ne (cfg : Config) (n : Int) (h : n ≠ cfg.AdminID) :
    isAdmin cfg (FormatInt n) = false := by
  cases hb : isAdmin cfg (FormatInt n)
  · rfl
  · exact absurd ((isAdmin_FormatInt cfg n).mp hb).1 h

/-- `FormatInt` is injective. -/
theorem FormatInt_injective (a b : Int) (h : FormatInt a = FormatInt b) : a = b := by
  have hl : (FormatInt a).toList = (FormatInt b).toList := by rw [h]
  cases a with
  | ofNat m =>
    cases b with
    | ofNat k =>
      rw [Int.ofNat_eq_coe, Int.ofNat_eq_coe, FormatInt_ofNat_toList, FormatInt_ofNat_toList] at hl
      have := congrArg digitsValue hl
      rw [(toDigits_spec m).2.2, (toDigits_spec k).2.2] at this
      rw [this]
    | negSucc k =>
      rw [Int.ofNat_eq_coe, FormatInt_ofNat_toList, FormatInt_negSucc_toList] at hl
      have hd := (head?_of_digits _ (toDigits_spec m).1).1
      rw [hl] at hd
      simp at hd
  | negSucc m =>
    cases b with
    | ofNat k =>
      rw [Int.ofNat_eq_coe, FormatInt_ofNat_toList, FormatInt_negSucc_toList] at hl
      have hd := (head?_of_digits _ (toDigits_spec k).1).1
      rw [← hl] at hd
      simp at hd
    | negSucc k =>
      rw [FormatInt_negSucc_toList, FormatInt_negSucc_toList] at hl
      have := congrArg digitsValue (List.cons.inj hl).2
      rw [(toDigits_spec (m + 1)).2.2, (toDigits_spec (k + 1)).2.2] at this
      have hmk : m = k := by omega
      rw [hmk]

/-! ## Callbacks from senders other than the admin -/

/-- C28: a callback whose sender id differs from the configured `AdminID`
leaves the whole store as it was, for each of the four resolve actions
(order confirm, order cancel, top-up approve, top-up reject), whatever the
callback data, the positional rule and the store faults; the handler does
nothing else either. -/
theorem resolve_actions_ignore_other_senders (cfg : Config) (r : PosRule) (s : Store)
    (fromID : Int) (adminName data : String) (now : Int) (fault : Bool) (cf : CancelFaults)
    (tf : TopupFaults) (h : fromID ≠ cfg.AdminID) :
    handleOrderConfirm cfg r s fromID adminName data now fault = (s, .ignored) ∧
    handleOrderCancel cfg r s fromID adminName data now cf = (s, .ignored) ∧
    handleTopupApprove cfg r s fromID adminName data now tf = (s, .ignored) ∧
    handleTopupReject cfg r s fromID adminName data now tf = (s, .ignored) := by
  have hna := isAdmin_of_ne cfg fromID h
  refine ⟨?_, ?_, ?_, ?_⟩
  · simp [handleOrderConfirm, hna]
  · simp [handleOrderCancel, hna]
  · simp [handleTopupApprove, hna]
  · simp [handleTopupReject, hna]

/-- Witness for C28: sender `1001` is not the admin `42`; the confirm action
on a pending order of `twoOrdersStore` and the approve and reject actions on
the pending top-up of `pendingTopupStore` change nothing. -/
theorem resolve_actions_ignore_other_senders_witness :
    handleOrderConfirm adminCfg .byId twoOrdersStore 1001 "Aye" "order_confirm_ORD1700000050"
        1700000100 false = (twoOrdersStore, .ignored) ∧
    handleTopupApprove adminCfg .byId pendingTopupStore 1001 "Aye"
        "topup_approve_TOP17000000001001" 1700000100 noTopupFaults
      = (pendingTopupStore, .ignored) :=
  ⟨(resolve_actions_ignore_other_senders adminCfg .byId twoOrdersStore 1001 "Aye"
      "order_confirm_ORD1700000050" 1700000100 false
      { findAndUpdateOrder := false, updateBalance := false } noTopupFaults (by decide)).1,
   (resolve_actions_ignore_other_senders adminCfg .byId pendingTopupStore 1001 "Aye"
      "topup_approve_TOP17000000001001" 1700000100 false
      { findAndUpdateOrder := false, updateBalance := false } noTopupFaults (by decide)).2.2.1⟩

/-! ## Deduction by the admin -/

/-- C30: for an admin's `/deduct user amount` with the store answering every
call: when the amount parses to a positive integer, the user exists (`u` is
the first record with that id) and `amount ≤ u.balance`, the result is the
store with that one balance lowered to `u.balance - amount`, which is not
negative, and nothing else changed.  In every other case (not the admin, not
two arguments, amount not numeric or not positive, unknown user, balance below
the amount) the store is returned as it was, whatever the store faults; in
particular for every sender other than the admin. -/
theorem HandleDeduct_debits_or_keeps_store (cfg : Config) (s : Store) (fromID : Int)
    (args : String) :
    (∀ (target amountStr : String) (amount : Int) (pre post : List User) (u : User),
      isAdmin cfg (FormatInt fromID) = true → Fields args = [target, amountStr] →
      Atoi amountStr = some amount → 0 < amount →
      s.users = pre ++ u :: post → (∀ v ∈ pre, v.user_id ≠ target) → u.user_id = target →
      amount ≤ u.balance →
      HandleDeduct cfg s fromID args noDeductFaults =
          ({ s with users := pre ++ { u with balance := u.balance - amount } :: post },
            .deducted target amount (u.balance - amount)) ∧
        0 ≤ u.balance - amount) ∧
    (∀ f : DeductFaults,
      (¬ ∃ (target amountStr : String) (amount : Int) (u : User),
        isAdmin cfg (FormatInt fromID) = true ∧ Fields args = [target, amountStr] ∧
        Atoi amountStr = some amount ∧ 0 < amount ∧
        s.users.find? (fun v => v.user_id == target) = some u ∧ amount ≤ u.balance) →
      (HandleDeduct cfg s fromID args f).1 = s) ∧
    (fromID ≠ cfg.AdminID → ∀ f : DeductFaults,
      HandleDeduct cfg s fromID args f = (s, .notAdmin)) := by
  refine ⟨?_, ?_, ?_⟩
  · intro target amountStr amount pre post u hadmin hargs hatoi hpos hs hpre hu hbal
    have hpre' : ∀ v ∈ pre, (fun w : User => w.user_id == target) v = false := by
      intro v hv
      simpa using hpre v hv
    have hu' : (fun w : User => w.user_id == target) u = true := by simpa using hu
    have hfind : s.users.find? (fun w => w.user_id == target) = some u := by
      rw [hs]
      exact find?_append_cons_first _ pre post u hpre' hu'
    have hmod : ∀ g : User → User,
        modifyFirst (fun w : User => w.user_id == target) g s.users = pre ++ g u :: post := by
      intro g
      rw [hs]
      exact modifyFirst_append_cons_first _ g pre post u hpre' hu'
    have h1 : ¬ amount ≤ 0 := by omega
    have h2 : ¬ u.balance < amount := by omega
    refine ⟨?_, by omega⟩
    simp only [HandleDeduct, hadmin, Bool.not_true, Bool.false_eq_true, if_false, hargs, hatoi,
      h1, GetUser, noDeductFaults, hfind, h2, UpdateBalance, updateUser, hmod]
    simp [Int.sub_eq_add_neg]
  · intro f hnot
    unfold HandleDeduct
    split
    · rfl
    · rename_i hadmin
      have hadmin' : isAdmin cfg (FormatInt fromID) = true := by simpa using hadmin
      split
      · rename_i target amountStr hargs
        split
        · rfl
        · rename_i amount hatoi
          split
          · rfl
          · rename_i hpos
            split
            · rfl
            · rfl
            · rename_i userDoc hget
              have hfind := GetUser_ok_some s target f.getUser userDoc hget
              split
              · rfl
              · rename_i hbal
                exact absurd ⟨target, amountStr, amount, userDoc, hadmin', hargs, hatoi,
                  by omega, hfind, by omega⟩ hnot
      · rfl
  · intro hne f
    simp [HandleDeduct, isAdmin_of_ne cfg fromID hne]

/-- Witness for C30: the admin deducts 2000 from the balance 5000 of user
`1001`, which leaves 3000; a deduction of 9000 is refused and leaves the store
as it was. -/
theorem HandleDeduct_debits_or_keeps_store_witness :
    (HandleDeduct adminCfg (mkStore 5000 [] [] none) 42 "1001 2000" noDeductFaults =
        (mkStore 3000 [] [] none, .deducted "1001" 2000 3000) ∧ (0 : Int) ≤ 5000 - 2000) ∧
    (HandleDeduct adminCfg (mkStore 5000 [] [] none) 42 "1001 9000" noDeductFaults).1 =
      mkStore 5000 [] [] none :=
  ⟨(HandleDeduct_debits_or_keeps_store adminCfg (mkStore 5000 [] [] none) 42 "1001 2000").1
      "1001" "2000" 2000 [] [] (mkUser 5000 [] []) (by decide) (by decide) (by decide)
      (by decide) rfl (by simp) rfl (by decide),
   (HandleDeduct_debits_or_keeps_store adminCfg (mkStore 5000 [] [] none) 42 "1001 9000").2.1
      noDeductFaults (by
        rintro ⟨target, amountStr, amount, u, -, hargs, hatoi, -, hfind, hbal⟩
        have h1 : Fields "1001 9000" = ["1001", "9000"] := by decide
        rw [h1] at hargs
        simp only [List.cons.injEq, and_true] at hargs
        obtain ⟨ht, ha⟩ := hargs
        subst ht ha
        have h2 : Atoi "9000" = some 9000 := by decide
        rw [h2] at hatoi
        have h3 : (mkStore 5000 [] [] none).users.find? (fun v => v.user_id == "1001")
            = some (mkUser 5000 [] []) := by decide
        rw [h3] at hfind
        simp only [Option.some.injEq] at hatoi hfind
        subst hatoi hfind
        exact absurd hbal (by decide))⟩

/-! ## Price updates leave the ledger alone -/

/-- C24: whatever the sender, the arguments and the store faults, a
`HandleSetPrice` call (single item, `normal` batch, `2x` batch or weekly-pass
derivation) returns the users collection it was given; in particular every
user's balance and the `price` of every existing order are as before. -/
theorem HandleSetPrice_keeps_orders_and_balances (cfg : Config) (s : Store) (fromID : Int)
    (args : String) (f : SetPriceFaults) :
    (HandleSetPrice cfg s fromID args f).1.users = s.users ∧
    (HandleSetPrice cfg s fromID args f).1.users.map
        (fun u => (u.user_id, u.balance, u.orders.map (fun o => (o.order_id, o.price)))) =
      s.users.map
        (fun u => (u.user_id, u.balance, u.orders.map (fun o => (o.order_id, o.price)))) := by
  have h := HandleSetPrice_users cfg s fromID args f
  exact ⟨h, by rw [h]⟩

/-! ## User creation -/

/-- C22: `CreateUser` on an id that already has a record returns the store as
it was (so no field of the existing record changes); on an id without a record
it appends a record with balance 0, no orders, no top-ups, referral earnings 0
and `referred_by` equal to the referrer supplied (absent when none is); and a
second call on the resulting store, with whatever name and referrer, changes
nothing. -/
theorem CreateUser_inserts_once (s : Store) (userID name username : String)
    (referrerID : Option String) (now : Int) :
    ((∃ u ∈ s.users, u.user_id = userID) →
      CreateUser s userID name username referrerID now false = .ok s) ∧
    ((∀ u ∈ s.users, u.user_id ≠ userID) →
      CreateUser s userID name username referrerID now false =
        .ok { s with users := s.users ++
          [{ user_id := userID, name := name, username := username, balance := 0,
             orders := [], topups := [], joined_at := now, referred_by := referrerID,
             referral_earnings := 0 }] }) ∧
    (∀ s1, CreateUser s userID name username referrerID now false = .ok s1 →
      ∀ (name2 username2 : String) (referrerID2 : Option String) (now2 : Int),
        CreateUser s1 userID name2 username2 referrerID2 now2 false = .ok s1) := by
  refine ⟨?_, ?_, ?_⟩
  · rintro ⟨u, hu, hid⟩
    have hany : s.users.any (fun u => u.user_id == userID) = true := by
      rw [List.any_eq_true]
      exact ⟨u, hu, by simpa using hid⟩
    simp [CreateUser, hany]
  · intro hnone
    have hany : s.users.any (fun u => u.user_id == userID) = false := by
      rw [List.any_eq_false]
      intro u hu
      simpa using hnone u hu
    simp [CreateUser, hany, newUser]
  · intro s1 h1 name2 username2 referrerID2 now2
    have hany : s1.users.any (fun u => u.user_id == userID) = true := by
      unfold CreateUser at h1
      simp only [Bool.false_eq_true, if_false] at h1
      split at h1
      · rename_i h
        simp only [Except.ok.injEq] at h1
        rw [← h1]
        exact h
      · simp only [Except.ok.injEq] at h1
        rw [← h1]
        simp [newUser]
    simp [CreateUser, hany]

/-! ## Identifiers -/

/-- Strings with equal character lists are equal, stated for appends. -/
theorem append_toList (a b : String) : (a ++ b).toList = a.toList ++ b.toList := by
  simp [String.toList]

/-- The bytes of a string of ASCII characters: one byte per character. -/
theorem flatMap_utf8_ascii (cs : List Char) (h : ∀ c ∈ cs, c.toNat < 128) :
    cs.flatMap String.utf8EncodeChar = cs.map (fun c => c.val.toUInt8) := by
  induction cs with
  | nil => rfl
  | cons c rest ih =>
    have hc := utf8EncodeChar_ascii c (h c (by simp))
    have hr := ih (fun d hd => h d (by simp [hd]))
    simp only [List.flatMap_cons, List.map_cons, hc, hr, List.singleton_append]

/-- ASCII strings with the same bytes are the same string. -/
theorem ascii_bytes_injective (cs ds : List Char) (hcs : ∀ c ∈ cs, c.toNat < 128)
    (hds : ∀ c ∈ ds, c.toNat < 128)
    (h : cs.flatMap String.utf8EncodeChar = ds.flatMap String.utf8EncodeChar) : cs = ds := by
  rw [flatMap_utf8_ascii cs hcs, flatMap_utf8_ascii ds hds] at h
  induction cs generalizing ds with
  | nil =>
    cases ds with
    | nil => rfl
    | cons d ds => simp at h
  | cons c cs ih =>
    cases ds with
    | nil => simp at h
    | cons d ds =>
      simp only [List.map_cons, List.cons.injEq] at h
      have hc : c.toNat < 128 := hcs c (by simp)
      have hd : d.toNat < 128 := hds d (by simp)
      have hcd : c = d := Char.ext (toUInt8_inj c.val d.val hc hd h.1)
      rw [hcd, ih ds (fun x hx => hcs x (by simp [hx])) (fun x hx => hds x (by simp [hx])) h.2]

/-- The characters of `FormatInt` are ASCII. -/
theorem FormatInt_ascii (n : Int) : ∀ c ∈ (FormatInt n).toList, c.toNat < 128 := by
  have hdig : ∀ m : Nat, ∀ c ∈ Nat.toDigits 10 m, c.toNat < 128 := by
    intro m c hc
    have hall := (toDigits_spec m).1
    have hd : c.isDigit = true := List.all_eq_true.mp hall c hc
    unfold Char.isDigit at hd
    simp only [ge_iff_le, Bool.and_eq_true, decide_eq_true_eq] at hd
    have h2 : c.val.toNat ≤ 57 := hd.2
    show c.val.toNat < 128
    omega
  cases n with
  | ofNat m =>
    intro c hc
    rw [Int.ofNat_eq_coe, FormatInt_ofNat_toList] at hc
    exact hdig m c hc
  | negSucc m =>
    intro c hc
    rw [FormatInt_negSucc_toList] at hc
    rcases List.mem_cons.mp hc with h | h
    · rw [h]
      decide
    · exact hdig (m + 1) c h

/-- Two renderings with the same bytes are renderings of the same number. -/
theorem utf8Bytes_FormatInt_injective (a b : Int)
    (h : utf8Bytes (FormatInt a) = utf8Bytes (FormatInt b)) : a = b := by
  unfold utf8Bytes at h
  have hl := ascii_bytes_injective _ _ (FormatInt_ascii a) (FormatInt_ascii b) h
  exact FormatInt_injective a b (String.ext hl)

/-- C23 (counterexample): users `1001` and `2002` both buy at the Unix time
1700000000, and both orders receive the id `ORD1700000000`; and the top-up ids
generated in one second for the users `10001234` and `20001234` coincide. -/
theorem same_second_ids_collide :
    orderIds (run adminCfg .byId twoBuyersStore
        [.mmb 1001 1001 "12345678 1234 11" 1700000000 noMmbFaults,
         .mmb 2002 2002 "87654321 4321 22" 1700000000 noMmbFaults]) =
      [["ORD1700000000"], ["ORD1700000000"]] ∧
    GenerateTopupID 1700000000 "10001234" = GenerateTopupID 1700000000 "20001234" ∧
    GenerateTopupID 1700000000 "10001234" = utf8Bytes "TOP17000000001234" ∧
    ("10001234" : String) ≠ "20001234" := by
  decide

/-- C23 (amended): the order ids of two creations differ exactly when the
creation times (Unix seconds) differ, and for user ids of at least four bytes
the top-up ids of two creations differ exactly when the creation times differ
or the last four bytes of the user ids differ. -/
theorem ids_distinct_iff_second_or_suffix (now1 now2 : Int) (userID1 userID2 : String)
    (h1 : 4 ≤ (utf8Bytes userID1).length) (h2 : 4 ≤ (utf8Bytes userID2).length) :
    (GenerateOrderID now1 ≠ GenerateOrderID now2 ↔ now1 ≠ now2) ∧
    (GenerateTopupID now1 userID1 ≠ GenerateTopupID now2 userID2 ↔
      (now1 ≠ now2 ∨
        (utf8Bytes userID1).drop ((utf8Bytes userID1).length - 4) ≠
          (utf8Bytes userID2).drop ((utf8Bytes userID2).length - 4))) := by
  constructor
  · refine not_congr ⟨fun h => ?_, fun h => by rw [h]⟩
    unfold GenerateOrderID at h
    have hl := congrArg String.toList h
    rw [append_toList, append_toList] at hl
    have hl2 := List.append_cancel_left hl
    exact FormatInt_injective now1 now2 (String.ext hl2)
  · rw [← not_and_or]
    refine not_congr ⟨fun h => ?_, fun h => ?_⟩
    · unfold GenerateTopupID at h
      simp only [ge_iff_le, if_pos h1, if_pos h2, List.append_assoc] at h
      have hl2 := List.append_cancel_left h
      have hlen : ((utf8Bytes userID1).drop ((utf8Bytes userID1).length - 4)).length =
          ((utf8Bytes userID2).drop ((utf8Bytes userID2).length - 4)).length := by
        rw [List.length_drop, List.length_drop]
        omega
      have hsplit := List.append_inj' hl2 hlen
      exact ⟨utf8Bytes_FormatInt_injective now1 now2 hsplit.1, hsplit.2⟩
    · unfold GenerateTopupID
      simp only [ge_iff_le, if_pos h1, if_pos h2, h.1, h.2]

/-- Witness for C23 (amended): an order id of the second 1700000000 differs
from one of the second 1700000001, and the top-up ids of the users `10001234`
and `10005678` differ within one second. -/
theorem ids_distinct_iff_second_or_suffix_witness :
    GenerateOrderID 1700000000 ≠ GenerateOrderID 1700000001 ∧
    GenerateTopupID 1700000000 "10001234" ≠ GenerateTopupID 1700000000 "10005678" :=
  ⟨(ids_distinct_iff_second_or_suffix 1700000000 1700000001 "10001234" "10005678"
      (by decide) (by decide)).1.mpr (by decide),
   (ids_distinct_iff_second_or_suffix 1700000000 1700000000 "10001234" "10005678"
      (by decide) (by decide)).2.mpr (Or.inr (by decide))⟩

/-! ## Weekly-pass keys -/

/-- The weekly-pass keys of `GetPrice`: `wp` followed by a string that `Atoi`
parses to a number from 1 to 10. -/
theorem weekNumOf_eq_some_iff (k : String) (w : Int) :
    weekNumOf k = some w ↔ ∃ t : String, k = "wp" ++ t ∧ Atoi t = some w ∧ 1 ≤ w ∧ w ≤ 10 := by
  constructor
  · intro h
    unfold weekNumOf at h
    split at h
    · rename_i hp
      obtain ⟨t, ht⟩ := List.isPrefixOf_iff_prefix.mp hp
      have hdrop : k.toList.drop 2 = t := by rw [← ht]; rfl
      rw [hdrop] at h
      refine ⟨String.mk t, ?_, ?_⟩
      · apply String.ext
        exact ht.symm
      · split at h
        · rename_i weekNum hw
          split at h
          · rename_i hr
            simp only [Option.some.injEq] at h
            subst h
            exact ⟨hw, hr.1, hr.2⟩
          · cases h
        · cases h
    · cases h
  · rintro ⟨t, hk, ha, h1, h10⟩
    have hl : k.toList = 'w' :: 'p' :: t.toList := by rw [hk, append_toList]; rfl
    unfold weekNumOf
    have hp : ['w', 'p'].isPrefixOf k.toList = true := by
      rw [hl]
      simp
    have hdrop : String.mk (k.toList.drop 2) = t := by
      rw [hl]
      rfl
    rw [if_pos hp, hdrop, ha]
    simp [h1, h10]

/-- C26 (counterexample): the keys `wp+3`, `wp03` and `wp0010` are in neither
table and are none of `wp1`, ..., `wp10`, yet `GetPrice` applies the
weekly-pass formula to them. -/
theorem GetPrice_lenient_weekly_keys :
    GetPrice "wp+3" [] = 18000 ∧ GetPrice "wp03" [] = 18000 ∧ GetPrice "wp0010" [] = 60000 ∧
    lookupKey defaultPrices "wp+3" = none ∧ lookupKey defaultPrices "wp03" = none ∧
    lookupKey defaultPrices "wp0010" = none ∧
    (∀ k ∈ ["wp+3", "wp03", "wp0010"],
      k ∉ ["wp1", "wp2", "wp3", "wp4", "wp5", "wp6", "wp7", "wp8", "wp9", "wp10"]) := by
  decide

/-- C26 (amended): let `k` be a key in neither the custom table nor the
built-in table.  When `k` is `wp` followed by a string that `strconv.Atoi`
parses to a number `w` from 1 to 10 (a leading `+` and leading zeros are
accepted by `Atoi`), `GetPrice` returns `w * 6000`; for every other `k` it
returns 0. -/
theorem GetPrice_weekly_or_zero (k : String) (c : List (String × Value))
    (hc : lookupKey c k = none) (hd : lookupKey defaultPrices k = none) :
    (∀ (t : String) (w : Int), k = "wp" ++ t → Atoi t = some w → 1 ≤ w → w ≤ 10 →
      GetPrice k c = w * 6000) ∧
    ((¬ ∃ (t : String) (w : Int), k = "wp" ++ t ∧ Atoi t = some w ∧ 1 ≤ w ∧ w ≤ 10) →
      GetPrice k c = 0) := by
  constructor
  · intro t w hk ha h1 h10
    have hw : weekNumOf k = some w := (weekNumOf_eq_some_iff k w).mpr ⟨t, hk, ha, h1, h10⟩
    simp [GetPrice, hc, hw]
  · intro hnot
    have hw : weekNumOf k = none := by
      cases h : weekNumOf k with
      | none => rfl
      | some w =>
        obtain ⟨t, hk, ha, h1, h10⟩ := (weekNumOf_eq_some_iff k w).mp h
        exact absurd ⟨t, w, hk, ha, h1, h10⟩ hnot
    simp [GetPrice, hc, hw, hd]

/-- Witness for C26 (amended): `wp7` costs 42000 and `diamonds` costs 0 when
the custom table is empty. -/
theorem GetPrice_weekly_or_zero_witness :
    GetPrice "wp7" [] = 7 * 6000 ∧ GetPrice "diamonds" [] = 0 :=
  ⟨(GetPrice_weekly_or_zero "wp7" [] rfl (by decide)).1 "7" 7 (by decide) (by decide)
      (by decide) (by decide),
   (GetPrice_weekly_or_zero "diamonds" [] rfl (by decide)).2 (by
      rintro ⟨t, w, hk, -⟩
      have hl := congrArg String.toList hk
      rw [append_toList] at hl
      have hh : ("diamonds" : String).toList.head? = some 'w' := by rw [hl]; rfl
      exact absurd hh (by decide))⟩

/-! ## Purchase by a caller without a record -/

/-- C27 (the code at the failing input): an authorized caller without a user
record whose `/mmb` arguments pass every check reaches the balance test, where
the handler reads `Balance` through the nil record returned by `GetUser`: the
run ends in a nil dereference instead of a reply.  Shown for every such call
with the store answering every call, and for user `3003` of `noRecordStore`. -/
theorem HandleMmb_without_record_dereferences_nil :
    (∀ (cfg : Config) (s : Store) (fromID chatID : Int) (args : String) (now : Int)
        (gameID serverID amount : String),
      isAuthorized cfg (s.authorized.getD []) (FormatInt fromID) = true →
      maintenanceOff s.settings "orders" = false →
      s.users.find? (fun u => u.user_id == FormatInt fromID) = none →
      Fields args = [gameID, serverID, amount] →
      ValidateGameID gameID = true → ValidateServerID serverID = true →
      IsBannedAccount gameID = false → GetPrice amount (s.prices.getD []) ≠ 0 →
      (HandleMmb cfg s fromID chatID args now noMmbFaults).2 = .nilDereference) ∧
    (HandleMmb adminCfg noRecordStore 3003 3003 "12345678 1234 11" 1700000000 noMmbFaults).2
      = .nilDereference := by
  refine ⟨?_, by decide⟩
  intro cfg s fromID chatID args now gameID serverID amount hauth hmaint hfind hargs hg hs hb hp
  simp only [HandleMmb, noMmbFaults, LoadAuthorizedUsers, Bool.false_eq_true, if_false, hauth,
    Bool.not_true, loaded_noFault, maintenanceOff_settingsAfterLoad, hmaint, HasPendingTopup,
    GetUser, hfind, mmbValidate, hargs, hg, hs, hb, LoadPrices, mmbPurchase]
  simp [hp]

/-! ## Maintenance switches -/

/-- The maintenance test of the user commands reads the stored flag: it holds
exactly when the flag is the boolean `false`. -/
theorem maintenanceOff_eq_flag (s : Store) (feature : String) :
    maintenanceOff s.settings feature = (maintenanceFlag s feature == some (.bool false)) := by
  obtain ⟨users, prices, authorized, settings⟩ := s
  cases settings with
  | none => rfl
  | some c =>
    obtain ⟨p, m, a, d⟩ := c
    cases m <;> rfl

theorem mmbPurchase_ne_maintenance (s : Store) (userID : String) (chatID : Int)
    (gameID serverID amount : String) (price now : Int) (f : MmbFaults) :
    (mmbPurchase s userID chatID gameID serverID amount price now f).2 ≠ .maintenance := by
  unfold mmbPurchase
  cases GetUser s userID f.getUser with
  | error e => simp
  | ok o =>
    cases o with
    | none => simp
    | some u =>
      simp only
      split
      · simp
      · cases UpdateBalance s userID (-price) f.updateBalance with
        | error e => simp
        | ok s2 =>
          simp only
          cases AddOrder s2 userID _ f.addOrder <;> simp

theorem mmbValidate_ne_maintenance (s : Store) (userID : String) (chatID : Int)
    (args : String) (now : Int) (f : MmbFaults) :
    (mmbValidate s userID chatID args now f).2 ≠ .maintenance := by
  unfold mmbValidate
  split
  · split
    · simp
    · split
      · simp
      · split
        · simp
        · simp only
          split
          · simp
          · exact mmbPurchase_ne_maintenance _ _ _ _ _ _ _ _ _
  · simp

/-- With the store answering every call, an authorized caller of `HandleMmb`
is refused for maintenance exactly when `maintenance.orders` is `false`. -/
theorem HandleMmb_maintenance_iff (cfg : Config) (s : Store) (fromID chatID : Int)
    (args : String) (now : Int)
    (hauth : isAuthorized cfg (s.authorized.getD []) (FormatInt fromID) = true) :
    (HandleMmb cfg s fromID chatID args now noMmbFaults).2 = .maintenance ↔
      maintenanceFlag s "orders" = some (.bool false) := by
  have hflag := maintenanceOff_eq_flag s "orders"
  simp only [HandleMmb, noMmbFaults, LoadAuthorizedUsers, Bool.false_eq_true, if_false, hauth,
    Bool.not_true, loaded_noFault, maintenanceOff_settingsAfterLoad]
  by_cases hm : maintenanceOff s.settings "orders" = true
  · rw [if_pos hm]
    rw [hm] at hflag
    simp only [true_iff]
    exact beq_iff_eq.mp hflag.symm
  · rw [if_neg hm]
    have hm' : maintenanceOff s.settings "orders" = false := by simpa using hm
    rw [hm'] at hflag
    have hne : maintenanceFlag s "orders" ≠ some (.bool false) := by
      intro h
      rw [h] at hflag
      simp at hflag
    constructor
    · intro h
      exfalso
      split at h
      · simp at h
      · exact mmbValidate_ne_maintenance _ _ _ _ _ _ h
    · intro h
      exact absurd h hne

/-- With the store answering every call, an authorized caller of `HandleTopup`
is refused for maintenance exactly when `maintenance.topups` is `false`. -/
theorem HandleTopup_maintenance_iff (cfg : Config) (s : Store) (fromID : Int) (args : String)
    (hauth : isAuthorized cfg (s.authorized.getD []) (FormatInt fromID) = true) :
    (HandleTopup cfg s fromID args noTopupCmdFaults).2 = .maintenance ↔
      maintenanceFlag s "topups" = some (.bool false) := by
  have hflag := maintenanceOff_eq_flag s "topups"
  simp only [HandleTopup, noTopupCmdFaults, LoadAuthorizedUsers, Bool.false_eq_true, if_false,
    hauth, Bool.not_true, loaded_noFault, maintenanceOff_settingsAfterLoad]
  by_cases hm : maintenanceOff s.settings "topups" = true
  · rw [if_pos hm]
    rw [hm] at hflag
    simp only [true_iff]
    exact beq_iff_eq.mp hflag.symm
  · rw [if_neg hm]
    have hm' : maintenanceOff s.settings "topups" = false := by simpa using hm
    rw [hm'] at hflag
    have hne : maintenanceFlag s "topups" ≠ some (.bool false) := by
      intro h
      rw [h] at hflag
      simp at hflag
    constructor
    · intro h
      exfalso
      split at h
      · simp at h
      · split at h
        · split at h
          · simp at h
          · split at h <;> simp at h
        · simp at h
    · intro h
      exact absurd h hne

/-- An accepted `/maintenance` command writes the one flag and nothing else. -/
theorem HandleMaintenance_sets_flag (cfg : Config) (s : Store) (fromID : Int)
    (args arg0 arg1 : String)
    (hadmin : isAdmin cfg (FormatInt fromID) = true)
    (hargs : Fields args = [arg0, arg1])
    (hfeature : isValidFeature (ToLower arg0) = true)
    (hstatus : isValidStatus (ToLower arg1) = true) :
    (HandleMaintenance cfg s fromID args false).2
        = .updated (ToLower arg0) (ToLower arg1 == "on") ∧
      maintenanceFlag (HandleMaintenance cfg s fromID args false).1 (ToLower arg0)
        = some (.bool (ToLower arg1 == "on")) ∧
      (∀ feature, feature ≠ ToLower arg0 →
        maintenanceFlag (HandleMaintenance cfg s fromID args false).1 feature
          = maintenanceFlag s feature) ∧
      (HandleMaintenance cfg s fromID args false).1.users = s.users ∧
      (HandleMaintenance cfg s fromID args false).1.prices = s.prices ∧
      (HandleMaintenance cfg s fromID args false).1.authorized = s.authorized := by
  obtain ⟨users, prices, authorized, settings⟩ := s
  cases settings with
  | none =>
    simp only [HandleMaintenance, hadmin, hargs, hfeature, hstatus, UpdateSetting,
      maintenanceFlag, Bool.not_true, Bool.false_eq_true, if_false, and_true, true_and]
    refine ⟨?_, ?_⟩
    · simp [lookupKey]
    · intro feature hne
      have : (ToLower arg0 == feature) = false := by
        simpa using fun h => hne h.symm
      simp [lookupKey, List.find?, this]
  | some c =>
    simp only [HandleMaintenance, hadmin, hargs, hfeature, hstatus, UpdateSetting,
      maintenanceFlag, Bool.not_true, Bool.false_eq_true, if_false, and_true, true_and,
      lookupKey_insertKey]
    refine ⟨by simp, ?_⟩
    intro feature hne
    rw [if_neg hne]
    cases c.maintenance with
    | none => simp [lookupKey]
    | some m => rfl

/-- C25: with the store answering every call and an authorized caller,
`HandleMmb` is refused for maintenance exactly when the settings hold
`maintenance.orders = false`, and `HandleTopup` exactly when they hold
`maintenance.topups = false` (so an absent flag leaves the feature enabled).
An admin's `/maintenance <feature> on|off` with a feature among `orders`,
`topups`, `general` stores `true` for `on` and `false` for `off` at that one
flag and changes no other flag, no user, no price and no authorization.
Hence after `/maintenance orders off` every `HandleMmb` call of an authorized
user is refused for maintenance, and after `/maintenance orders on` none is. -/
theorem maintenance_flags_default_on (cfg : Config) (s : Store) :
    (∀ (fromID chatID : Int) (args : String) (now : Int),
      isAuthorized cfg (s.authorized.getD []) (FormatInt fromID) = true →
      ((HandleMmb cfg s fromID chatID args now noMmbFaults).2 = .maintenance ↔
        maintenanceFlag s "orders" = some (.bool false))) ∧
    (∀ (fromID : Int) (args : String),
      isAuthorized cfg (s.authorized.getD []) (FormatInt fromID) = true →
      ((HandleTopup cfg s fromID args noTopupCmdFaults).2 = .maintenance ↔
        maintenanceFlag s "topups" = some (.bool false))) ∧
    (∀ (adminID : Int) (args arg0 arg1 : String),
      isAdmin cfg (FormatInt adminID) = true → Fields args = [arg0, arg1] →
      ToLower arg0 ∈ ["orders", "topups", "general"] →
      (ToLower arg1 = "on" ∨ ToLower arg1 = "off") →
      maintenanceFlag (HandleMaintenance cfg s adminID args false).1 (ToLower arg0)
          = some (.bool (ToLower arg1 == "on")) ∧
        (∀ feature, feature ≠ ToLower arg0 →
          maintenanceFlag (HandleMaintenance cfg s adminID args false).1 feature
            = maintenanceFlag s feature) ∧
        (HandleMaintenance cfg s adminID args false).1.users = s.users ∧
        (HandleMaintenance cfg s adminID args false).1.prices = s.prices ∧
        (HandleMaintenance cfg s adminID args false).1.authorized = s.authorized) ∧
    (∀ (adminID : Int) (args arg0 arg1 : String),
      isAdmin cfg (FormatInt adminID) = true → Fields args = [arg0, arg1] →
      ToLower arg0 = "orders" →
      ∀ (fromID chatID : Int) (mmbArgs : String) (now : Int),
        isAuthorized cfg (s.authorized.getD []) (FormatInt fromID) = true →
        (ToLower arg1 = "off" →
          (HandleMmb cfg (HandleMaintenance cfg s adminID args false).1 fromID chatID mmbArgs
            now noMmbFaults).2 = .maintenance) ∧
        (ToLower arg1 = "on" →
          (HandleMmb cfg (HandleMaintenance cfg s adminID args false).1 fromID chatID mmbArgs
            now noMmbFaults).2 ≠ .maintenance)) := by
  have hset : ∀ (adminID : Int) (args arg0 arg1 : String),
      isAdmin cfg (FormatInt adminID) = true → Fields args = [arg0, arg1] →
      ToLower arg0 ∈ ["orders", "topups", "general"] →
      (ToLower arg1 = "on" ∨ ToLower arg1 = "off") →
      maintenanceFlag (HandleMaintenance cfg s adminID args false).1 (ToLower arg0)
          = some (.bool (ToLower arg1 == "on")) ∧
        (∀ feature, feature ≠ ToLower arg0 →
          maintenanceFlag (HandleMaintenance cfg s adminID args false).1 feature
            = maintenanceFlag s feature) ∧
        (HandleMaintenance cfg s adminID args false).1.users = s.users ∧
        (HandleMaintenance cfg s adminID args false).1.prices = s.prices ∧
        (HandleMaintenance cfg s adminID args false).1.authorized = s.authorized := by
    intro adminID args arg0 arg1 hadmin hargs hfeature hstatus
    have hf : isValidFeature (ToLower arg0) = true := by
      unfold isValidFeature
      simpa using hfeature
    have hst : isValidStatus (ToLower arg1) = true := by
      unfold isValidStatus
      rcases hstatus with h | h <;> rw [h] <;> rfl
    obtain ⟨-, h2, h3, h4, h5, h6⟩ :=
      HandleMaintenance_sets_flag cfg s adminID args arg0 arg1 hadmin hargs hf hst
    exact ⟨h2, h3, h4, h5, h6⟩
  refine ⟨fun fromID chatID args now hauth => HandleMmb_maintenance_iff cfg s fromID chatID args
      now hauth,
    fun fromID args hauth => HandleTopup_maintenance_iff cfg s fromID args hauth, hset, ?_⟩
  intro adminID args arg0 arg1 hadmin hargs hfeature fromID chatID mmbArgs now hauth
  have hmem : ToLower arg0 ∈ ["orders", "topups", "general"] := by rw [hfeature]; decide
  constructor
  · intro hoff
    obtain ⟨h1, -, -, -, h5⟩ := hset adminID args arg0 arg1 hadmin hargs hmem (Or.inr hoff)
    rw [hfeature, hoff] at h1
    have hauth' : isAuthorized cfg
        ((HandleMaintenance cfg s adminID args false).1.authorized.getD [])
        (FormatInt fromID) = true := by rw [h5]; exact hauth
    exact (HandleMmb_maintenance_iff cfg _ fromID chatID mmbArgs now hauth').mpr
      (h1.trans (by decide))
  · intro hon
    obtain ⟨h1, -, -, -, h5⟩ := hset adminID args arg0 arg1 hadmin hargs hmem (Or.inl hon)
    rw [hfeature, hon] at h1
    have hauth' : isAuthorized cfg
        ((HandleMaintenance cfg s adminID args false).1.authorized.getD [])
        (FormatInt fromID) = true := by rw [h5]; exact hauth
    intro hm
    have := (HandleMmb_maintenance_iff cfg _ fromID chatID mmbArgs now hauth').mp hm
    rw [h1] at this
    exact absurd this (by decide)

/-- Witness for C25: on a store without a settings document user `1001` is not
refused for maintenance; after the admin's `/maintenance orders off` the
purchase is refused, and after `/maintenance Orders ON` it is not. -/
theorem maintenance_flags_default_on_witness :
    (HandleMmb adminCfg (mkStore 5000 [] [] none) 1001 1001 "12345678 1234 11" 1700000000
        noMmbFaults).2 ≠ .maintenance ∧
    (HandleMmb adminCfg
        (HandleMaintenance adminCfg (mkStore 5000 [] [] none) 42 "orders off" false).1
        1001 1001 "12345678 1234 11" 1700000000 noMmbFaults).2 = .maintenance ∧
    (HandleMmb adminCfg
        (HandleMaintenance adminCfg (mkStore 5000 [] [] none) 42 "Orders ON" false).1
        1001 1001 "12345678 1234 11" 1700000000 noMmbFaults).2 ≠ .maintenance :=
  ⟨fun h => absurd (((maintenance_flags_default_on adminCfg (mkStore 5000 [] [] none)).1 1001
      1001 "12345678 1234 11" 1700000000 (by decide)).mp h) (by decide),
   ((maintenance_flags_default_on adminCfg (mkStore 5000 [] [] none)).2.2.2 42 "orders off"
      "orders" "off" (by decide) (by decide) (by decide) 1001 1001 "12345678 1234 11"
      1700000000 (by decide)).1 (by decide),
   ((maintenance_flags_default_on adminCfg (mkStore 5000 [] [] none)).2.2.2 42 "Orders ON"
      "Orders" "ON" (by decide) (by decide) (by decide) 1001 1001 "12345678 1234 11"
      1700000000 (by decide)).2 (by decide)⟩

/-! ## Non-negative prices -/

theorem EntriesNonneg_insertKey (m : List (String × Value)) (k : String) (v : Value)
    (hm : EntriesNonneg m) (hv : valueNonneg v = true) : EntriesNonneg (insertKey m k v) := by
  unfold insertKey
  split
  · intro kv hkv
    obtain ⟨kv0, hkv0, rfl⟩ := List.mem_map.mp hkv
    split
    · exact hv
    · exact hm kv0 hkv0
  · intro kv hkv
    rcases List.mem_append.mp hkv with h | h
    · exact hm kv h
    · rw [List.mem_singleton.mp h]
      exact hv

theorem valueNonneg_encodeValue (v : Value) : valueNonneg (encodeValue v) = valueNonneg v := by
  cases v with
  | int n =>
    show valueNonneg (if -2147483648 ≤ n ∧ n ≤ 2147483647 then .int32 n else .int64 n) = _
    split <;> rfl
  | int32 n => rfl
  | int64 n => rfl
  | str s => rfl
  | bool b => rfl

theorem EntriesNonneg_encoded (m : List (String × Value)) (hm : EntriesNonneg m) :
    EntriesNonneg (m.map (fun kv => (kv.1, encodeValue kv.2))) := by
  intro kv hkv
  obtain ⟨kv0, hkv0, rfl⟩ := List.mem_map.mp hkv
  rw [valueNonneg_encodeValue]
  exact hm kv0 hkv0

/-- A save of a non-negative table leaves a non-negative table. -/
theorem EntriesNonneg_SavePrices (s s1 : Store) (m : List (String × Value)) (fault : Bool)
    (hm : EntriesNonneg m) (h : SavePrices s m fault = .ok s1) :
    EntriesNonneg (s1.prices.getD []) := by
  unfold SavePrices at h
  split at h
  · cases h
  · simp only [Except.ok.injEq] at h
    rw [← h]
    exact EntriesNonneg_encoded m hm

theorem EntriesNonneg_batchAssign (items prices : List String) (m m' : List (String × Value))
    (hm : EntriesNonneg m) (h : batchAssign items prices m = .ok m') : EntriesNonneg m' := by
  induction items generalizing prices m with
  | nil =>
    simp only [batchAssign, Except.ok.injEq] at h
    rw [← h]
    exact hm
  | cons d ds ih =>
    cases prices with
    | nil =>
      simp only [batchAssign, Except.ok.injEq] at h
      rw [← h]
      exact hm
    | cons p ps =>
      simp only [batchAssign] at h
      split at h
      · cases h
      · rename_i price hp
        split at h
        · cases h
        · rename_i hneg
          exact ih ps (insertKey m d (.int price))
            (EntriesNonneg_insertKey m d _ hm (by simpa [valueNonneg] using hneg)) h

theorem EntriesNonneg_handleBatchUpdate (s : Store) (items : List String) (category : String)
    (prices : List String) (m : List (String × Value)) (fault : Bool)
    (hs : EntriesNonneg (s.prices.getD [])) (hm : EntriesNonneg m) :
    EntriesNonneg ((handleBatchUpdate s items category prices m fault).1.prices.getD []) := by
  unfold handleBatchUpdate
  split
  · exact hs
  · split
    · exact hs
    · rename_i m' hok
      split
      · exact hs
      · rename_i s1 he
        exact EntriesNonneg_SavePrices s s1 m' fault (EntriesNonneg_batchAssign _ _ _ _ hm hok) he

/-- The conversion to `int` of a `float64` whose integer part is below
`2 ^ 63` is not negative. -/
theorem toInt_nonneg_of_trunc_lt (x : F64) (h : x.trunc < 9223372036854775808) :
    0 ≤ F64.toInt x := by
  unfold F64.trunc at h
  unfold F64.toInt
  rw [if_pos h]
  exact Int.ofNat_nonneg _

theorem weeklyPrice_nonneg (price weekNum i : Nat) (hfit : weeklyFits price weekNum = true)
    (h1 : 1 ≤ i) (h10 : i ≤ 10) : 0 ≤ weeklyPrice price weekNum i := by
  unfold weeklyFits at hfit
  rw [List.all_eq_true] at hfit
  have h := hfit (i - 1) (List.mem_range.mpr (by omega))
  have hi : i - 1 + 1 = i := by omega
  rw [hi] at h
  exact toInt_nonneg_of_trunc_lt _ (of_decide_eq_true h)

theorem EntriesNonneg_foldl_weekly (price weekNum : Nat) (hfit : weeklyFits price weekNum = true)
    (ks : List Nat) (hks : ∀ k ∈ ks, k < 10) (m : List (String × Value))
    (hm : EntriesNonneg m) :
    EntriesNonneg (ks.foldl
      (fun acc k => insertKey acc ("wp" ++ FormatInt ((k + 1 : Nat) : Int))
        (.int (weeklyPrice price weekNum (k + 1)))) m) := by
  induction ks generalizing m with
  | nil => exact hm
  | cons k ks ih =>
    have hk : k < 10 := hks k (by simp)
    simp only [List.foldl_cons]
    apply ih (fun j hj => hks j (by simp [hj]))
    apply EntriesNonneg_insertKey _ _ _ hm
    have := weeklyPrice_nonneg price weekNum (k + 1) hfit (by omega) (by omega)
    simpa [valueNonneg] using this

theorem EntriesNonneg_handleWeeklyPassUpdate (s : Store) (weekNum price : Nat)
    (m : List (String × Value)) (fault : Bool) (hfit : weeklyFits price weekNum = true)
    (hs : EntriesNonneg (s.prices.getD [])) (hm : EntriesNonneg m) :
    EntriesNonneg ((handleWeeklyPassUpdate s weekNum price m fault).1.prices.getD []) := by
  unfold handleWeeklyPassUpdate
  simp only
  split
  · exact hs
  · rename_i s1 he
    exact EntriesNonneg_SavePrices s s1 _ fault
      (EntriesNonneg_foldl_weekly price weekNum hfit (List.range 10)
        (fun k hk => List.mem_range.mp hk) m hm) he

/-- The table read by a handler (empty after a failed read) is non-negative
when the stored one is. -/
theorem EntriesNonneg_loaded (s : Store) (fault : Bool) (hs : EntriesNonneg (s.prices.getD [])) :
    EntriesNonneg (match LoadPrices s fault with
      | .error _ => []
      | .ok m => m) := by
  unfold LoadPrices
  split
  · rename_i h
    split at h
    · intro kv hkv
      cases hkv
    · cases h
  · rename_i m h
    split at h
    · cases h
    · simp only [Except.ok.injEq] at h
      rw [← h]
      exact hs

/-- `HandleSetPrice` keeps the table non-negative as long as the weekly-pass
products fit. -/
theorem EntriesNonneg_HandleSetPrice (cfg : Config) (s : Store) (fromID : Int) (args : String)
    (f : SetPriceFaults) (hs : EntriesNonneg (s.prices.getD []))
    (hfit : ∀ (arg priceStr : String) (weekNum price : Int), Fields args = [arg, priceStr] →
      weekNumOf (ToLower arg) = some weekNum → Atoi priceStr = some price →
      weeklyFits price.toNat weekNum.toNat = true) :
    EntriesNonneg ((HandleSetPrice cfg s fromID args f).1.prices.getD []) := by
  have hl := EntriesNonneg_loaded s f.loadPrices hs
  unfold HandleSetPrice
  split
  · exact hs
  · split
    · exact hs
    · exact hs
    · rename_i arg0 rest hne hargs
      simp only
      split
      · exact EntriesNonneg_handleBatchUpdate _ _ _ _ _ _ hs hl
      · split
        · exact EntriesNonneg_handleBatchUpdate _ _ _ _ _ _ hs hl
        · split
          · rename_i priceStr
            split
            · exact hs
            · rename_i price hp
              split
              · exact hs
              · rename_i hneg
                split
                · rename_i weekNum hw
                  exact EntriesNonneg_handleWeeklyPassUpdate _ _ _ _ _
                    (hfit arg0 priceStr weekNum price hargs hw hp) hs hl
                · split
                  · exact hs
                  · rename_i s1 he
                    exact EntriesNonneg_SavePrices s s1 _ f.savePrices
                      (EntriesNonneg_insertKey _ _ _ hl (by simpa [valueNonneg] using hneg)) he
          · exact hs

theorem lookupKey_mem {β : Type} (m : List (String × β)) (k : String) (v : β)
    (h : lookupKey m k = some v) : ∃ kv ∈ m, kv.2 = v := by
  unfold lookupKey at h
  split at h
  · rename_i kv hfind
    simp only [Option.some.injEq] at h
    exact ⟨kv, List.mem_of_find?_eq_some hfind, h⟩
  · cases h

theorem lookupKey_getD_nonneg (m : List (String × Int)) (k : String)
    (hm : ∀ kv ∈ m, 0 ≤ kv.2) : 0 ≤ (lookupKey m k).getD 0 := by
  cases h : lookupKey m k with
  | none => simp
  | some v =>
    obtain ⟨kv, hkv, rfl⟩ := lookupKey_mem m k v h
    simpa using hm kv hkv

/-- A non-negative custom table gives non-negative prices. -/
theorem GetPrice_nonneg (k : String) (c : List (String × Value)) (hc : EntriesNonneg c) :
    0 ≤ GetPrice k c := by
  have hweek : 0 ≤ (match weekNumOf k with
      | some weekNum => weekNum * 6000
      | none => (lookupKey defaultPrices k).getD 0) := by
    cases hw : weekNumOf k with
    | some w =>
      obtain ⟨t, -, -, h1, -⟩ := (weekNumOf_eq_some_iff k w).mp hw
      exact Int.mul_nonneg (by omega) (by decide)
    | none => exact lookupKey_getD_nonneg defaultPrices k (by decide)
  unfold GetPrice
  split
  · rename_i price hl
    obtain ⟨kv, hkv, hv⟩ := lookupKey_mem c k _ hl
    have := hc kv hkv
    rw [hv] at this
    simpa [valueNonneg] using this
  · exact hweek

theorem forall₂_modifyFirst {α : Type} (R : α → α → Prop) (p : α → Bool) (f : α → α)
    (l : List α) (hrefl : ∀ x, R x x) (hf : ∀ x, p x = true → R x (f x)) :
    List.Forall₂ R l (modifyFirst p f l) := by
  induction l with
  | nil => exact List.Forall₂.nil
  | cons x xs ih =>
    by_cases hp : p x = true
    · simp only [modifyFirst, hp, if_true]
      exact List.Forall₂.cons (hf x hp) (List.forall₂_same.mpr (fun y _ => hrefl y))
    · simp only [modifyFirst, hp, if_false]
      exact List.Forall₂.cons (hrefl x) ih

theorem forall₂_chain {α : Type} (R : α → α → Prop)
    (htrans : ∀ a b c, R a b → R b c → R a c) :
    ∀ l1 l2 l3 : List α, List.Forall₂ R l1 l2 → List.Forall₂ R l2 l3 → List.Forall₂ R l1 l3 := by
  intro l1 l2 l3 h12
  induction h12 generalizing l3 with
  | nil =>
    intro h23
    cases h23
    exact List.Forall₂.nil
  | cons hab _ ih =>
    intro h23
    cases h23 with
    | cons hbc htl => exact List.Forall₂.cons (htrans _ _ _ hab hbc) (ih _ htl)

theorem PurchaseStep_refl (u : User) : PurchaseStep u u :=
  ⟨rfl, le_refl _, fun _ ho => Or.inl ho⟩

theorem PurchaseStep_trans (a b c : User) (hab : PurchaseStep a b) (hbc : PurchaseStep b c) :
    PurchaseStep a c := by
  refine ⟨hbc.1.trans hab.1, le_trans hbc.2.1 hab.2.1, ?_⟩
  intro o ho
  rcases hbc.2.2 o ho with h | h
  · exact hab.2.2 o h
  · exact Or.inr h

/-- The debit and the append of `mmbPurchase` with a positive price. -/
theorem PurchaseStep_mmbPurchase (s : Store) (userID : String) (chatID : Int)
    (gameID serverID amount : String) (price now : Int) (f : MmbFaults) (hprice : 0 < price) :
    List.Forall₂ PurchaseStep s.users
        (mmbPurchase s userID chatID gameID serverID amount price now f).1.users ∧
      ∀ order nb, (mmbPurchase s userID chatID gameID serverID amount price now f).2
        = .orderConfirmation order nb → 0 < order.price := by
  have hsame : List.Forall₂ PurchaseStep s.users s.users :=
    List.forall₂_same.mpr (fun u _ => PurchaseStep_refl u)
  have hdebit : List.Forall₂ PurchaseStep s.users
      (updateUser s userID (fun u => { u with balance := u.balance + -price })).users :=
    forall₂_modifyFirst PurchaseStep _ _ s.users PurchaseStep_refl
      (fun u _ => ⟨rfl, by simp only; omega, fun _ ho => Or.inl ho⟩)
  unfold mmbPurchase
  cases GetUser s userID f.getUser with
  | error e => exact ⟨hsame, by simp⟩
  | ok o =>
    cases o with
    | none => exact ⟨hsame, by simp⟩
    | some u =>
      simp only
      split
      · exact ⟨hsame, by simp⟩
      · cases hub : UpdateBalance s userID (-price) f.updateBalance with
        | error e => exact ⟨hsame, by simp⟩
        | ok s2 =>
          have hs2 := UpdateBalance_ok s s2 userID (-price) f.updateBalance hub
          simp only
          cases hao : AddOrder s2 userID
              (newOrder (GenerateOrderID now) gameID serverID amount price now userID chatID)
              f.addOrder with
          | error e =>
            refine ⟨?_, by simp⟩
            simp only
            rw [hs2]
            exact hdebit
          | ok s3 =>
            refine ⟨?_, ?_⟩
            · simp only
              have hs3 : s3 = updateUser s2 userID (fun w => { w with orders := w.orders ++
                  [newOrder (GenerateOrderID now) gameID serverID amount price now userID
                    chatID] }) := by
                unfold AddOrder at hao
                split at hao
                · cases hao
                · simp only [Except.ok.injEq] at hao
                  exact hao.symm
              have happend : List.Forall₂ PurchaseStep s2.users s3.users := by
                rw [hs3]
                exact forall₂_modifyFirst PurchaseStep _ _ s2.users PurchaseStep_refl
                  (fun w _ => ⟨rfl, le_refl _, fun o ho => by
                    rcases List.mem_append.mp ho with h | h
                    · exact Or.inl h
                    · rw [List.mem_singleton.mp h]
                      exact Or.inr hprice⟩)
              rw [hs2] at happend
              exact forall₂_chain PurchaseStep PurchaseStep_trans _ _ _ hdebit happend
            · intro order nb h
              simp only [MmbReply.orderConfirmation.injEq] at h
              rw [← h.1]
              exact hprice

theorem PurchaseStep_mmbValidate (s : Store) (userID : String) (chatID : Int) (args : String)
    (now : Int) (f : MmbFaults) (hs : EntriesNonneg (s.prices.getD [])) :
    List.Forall₂ PurchaseStep s.users (mmbValidate s userID chatID args now f).1.users ∧
      ∀ order nb, (mmbValidate s userID chatID args now f).2
        = .orderConfirmation order nb → 0 < order.price := by
  have hsame : List.Forall₂ PurchaseStep s.users s.users :=
    List.forall₂_same.mpr (fun u _ => PurchaseStep_refl u)
  have hl := EntriesNonneg_loaded s f.loadPrices hs
  unfold mmbValidate
  split
  · rename_i gameID serverID amount hargs
    split
    · exact ⟨hsame, by simp⟩
    · split
      · exact ⟨hsame, by simp⟩
      · split
        · exact ⟨hsame, by simp⟩
        · simp only
          split
          · exact ⟨hsame, by simp⟩
          · rename_i hne
            have hnn := GetPrice_nonneg amount _ hl
            have hne' : GetPrice amount (match LoadPrices s f.loadPrices with
                | .error _ => []
                | .ok m => m) ≠ 0 := by simpa using hne
            exact PurchaseStep_mmbPurchase s userID chatID gameID serverID amount _ now f
              (lt_of_le_of_ne hnn (Ne.symm hne'))
  · exact ⟨hsame, by simp⟩

theorem LoadSettings_prices (s s1 : Store) (d1 d2 d3 d4 : List (String × Value)) (fault : Bool)
    (c : Settings) (h : LoadSettings s d1 d2 d3 d4 fault = .ok (s1, c)) :
    s1.prices = s.prices := by
  unfold LoadSettings at h
  split at h
  · simp at h
  · split at h <;> simp at h <;> rw [← h.1]

theorem PurchaseStep_HandleMmb (cfg : Config) (s : Store) (fromID chatID : Int) (args : String)
    (now : Int) (f : MmbFaults) (hs : EntriesNonneg (s.prices.getD [])) :
    List.Forall₂ PurchaseStep s.users (HandleMmb cfg s fromID chatID args now f).1.users ∧
      ∀ order nb, (HandleMmb cfg s fromID chatID args now f).2
        = .orderConfirmation order nb → 0 < order.price := by
  have hsame : List.Forall₂ PurchaseStep s.users s.users :=
    List.forall₂_same.mpr (fun u _ => PurchaseStep_refl u)
  have hloaded : (match LoadSettings s [] [] [] [] f.loadSettings with
        | .error _ => (s, (none : Option Settings))
        | .ok (s1, config) => (s1, some config)).1.users = s.users ∧
      (match LoadSettings s [] [] [] [] f.loadSettings with
        | .error _ => (s, (none : Option Settings))
        | .ok (s1, config) => (s1, some config)).1.prices = s.prices := by
    cases h : LoadSettings s [] [] [] [] f.loadSettings with
    | error e => exact ⟨rfl, rfl⟩
    | ok p =>
      obtain ⟨s1, c⟩ := p
      exact ⟨LoadSettings_users s s1 _ _ _ _ _ c h, LoadSettings_prices s s1 _ _ _ _ _ c h⟩
  have hkeep : List.Forall₂ PurchaseStep s.users
      (match LoadSettings s [] [] [] [] f.loadSettings with
        | .error _ => (s, (none : Option Settings))
        | .ok (s1, config) => (s1, some config)).1.users := by
    rw [hloaded.1]
    exact hsame
  have hval := PurchaseStep_mmbValidate
    (match LoadSettings s [] [] [] [] f.loadSettings with
      | .error _ => (s, (none : Option Settings))
      | .ok (s1, config) => (s1, some config)).1 (FormatInt fromID) chatID args now f
    (by rw [hloaded.2]; exact hs)
  rw [hloaded.1] at hval
  unfold HandleMmb
  simp only
  split
  · exact ⟨hsame, by simp⟩
  · split
    · exact ⟨hsame, by simp⟩
    · split
      · exact ⟨hkeep, by simp⟩
      · split
        · exact ⟨hkeep, by simp⟩
        · exact hval

set_option maxRecDepth 16000 in
/-- C29 (the code at the failing input): the table is empty and the admin
sends `/setprice wp1 1000000000000000000`.  The price passes the `price < 0`
test; the product for `wp10` is `1e19`, beyond the range of `int`, and the
handler converts it without a range test.  The conversion (as on amd64) gives
the smallest `int`, so the saved table holds a negative price for `wp10`, next
to 9000000000000000000 for `wp9`. -/
theorem weekly_pass_update_stores_negative :
    EntriesNonneg ((mkStore 0 [] [] none).prices.getD []) ∧
    (HandleSetPrice adminCfg (mkStore 0 [] [] none) 42 "wp1 1000000000000000000"
      noSetPriceFaults).2 = .weeklyPassUpdated 1000000000000000000 ∧
    lookupKey ((HandleSetPrice adminCfg (mkStore 0 [] [] none) 42 "wp1 1000000000000000000"
      noSetPriceFaults).1.prices.getD []) "wp9" = some (.int64 9000000000000000000) ∧
    lookupKey ((HandleSetPrice adminCfg (mkStore 0 [] [] none) 42 "wp1 1000000000000000000"
      noSetPriceFaults).1.prices.getD []) "wp10" = some (.int64 (-9223372036854775808)) ∧
    ¬ EntriesNonneg ((HandleSetPrice adminCfg (mkStore 0 [] [] none) 42
      "wp1 1000000000000000000" noSetPriceFaults).1.prices.getD []) := by
  have h10 : lookupKey ((HandleSetPrice adminCfg (mkStore 0 [] [] none) 42
      "wp1 1000000000000000000" noSetPriceFaults).1.prices.getD []) "wp10"
      = some (.int64 (-9223372036854775808)) := by decide
  refine ⟨fun kv hkv => (by cases hkv), by decide, by decide, h10, ?_⟩
  intro hall
  unfold lookupKey at h10
  split at h10
  · rename_i kv hfind
    have hmem := List.mem_of_find?_eq_some hfind
    have hv := hall kv hmem
    simp only [Option.some.injEq] at h10
    rw [h10] at hv
    exact absurd hv (by decide)
  · cases h10

/-- Away from that overflow the table stays non-negative: start from a price
table whose integer entries are all at least 0.  Every `HandleSetPrice` call
(single item, `normal` batch, `2x` batch, weekly-pass derivation; any sender,
any store faults) leaves a table whose integer entries are all at least 0,
provided that in the weekly-pass case the ten `float64` products stay below
`2 ^ 63`, the range in which their conversion to `int` is the truncation.  And
every `HandleMmb` call leaves each user with the same id, a balance that is
not higher and orders that were held before or have a positive price; the
order it confirms has a positive price. -/
theorem prices_and_purchases_stay_nonnegative (cfg : Config) (s : Store)
    (hs : EntriesNonneg (s.prices.getD [])) :
    (∀ (fromID : Int) (args : String) (f : SetPriceFaults),
      (∀ (arg priceStr : String) (weekNum price : Int), Fields args = [arg, priceStr] →
        weekNumOf (ToLower arg) = some weekNum → Atoi priceStr = some price →
        weeklyFits price.toNat weekNum.toNat = true) →
      EntriesNonneg ((HandleSetPrice cfg s fromID args f).1.prices.getD [])) ∧
    (∀ (fromID chatID : Int) (args : String) (now : Int) (f : MmbFaults),
      List.Forall₂ PurchaseStep s.users (HandleMmb cfg s fromID chatID args now f).1.users ∧
        ∀ order newBalance, (HandleMmb cfg s fromID chatID args now f).2
          = .orderConfirmation order newBalance → 0 < order.price) :=
  ⟨fun fromID args f hfit => EntriesNonneg_HandleSetPrice cfg s fromID args f hs hfit,
   fun fromID chatID args now f => PurchaseStep_HandleMmb cfg s fromID chatID args now f hs⟩

set_option maxRecDepth 16000 in
/-- An instance of the preceding theorem: on `cancelStore`, whose table holds
6000 for `86`, the update `/setprice wp10 60000` leaves a table without negative
entries; and the order that user `1001` is confirmed for SKU `11` costs 950. -/
theorem prices_and_purchases_stay_nonnegative_witness :
    EntriesNonneg ((HandleSetPrice adminCfg cancelStore 42 "wp10 60000"
      noSetPriceFaults).1.prices.getD []) ∧
    0 < (newOrder "ORD1700000000" "12345678" "1234" "11" 950 1700000000 "1001" 1001).price :=
  ⟨(prices_and_purchases_stay_nonnegative adminCfg cancelStore (by
      intro kv hkv
      have hkv' : kv ∈ [("86", Value.int32 6000)] := hkv
      rw [List.mem_singleton.mp hkv']
      rfl)).1 42 "wp10 60000" noSetPriceFaults (by
      intro arg priceStr weekNum price hf hw hp
      have h1 : Fields "wp10 60000" = ["wp10", "60000"] := by decide
      rw [h1] at hf
      simp only [List.cons.injEq, and_true] at hf
      obtain ⟨ha, hb⟩ := hf
      subst ha hb
      have h2 : weekNumOf (ToLower "wp10") = some 10 := by decide
      have h3 : Atoi "60000" = some 60000 := by decide
      rw [h2] at hw
      rw [h3] at hp
      simp only [Option.some.injEq] at hw hp
      subst hw hp
      decide),
   ((prices_and_purchases_stay_nonnegative adminCfg (mkStore 5000 [] [] none) (by
      intro kv hkv
      cases hkv)).2 1001 1001 "12345678 1234 11" 1700000000 noMmbFaults).2
      (newOrder "ORD1700000000" "12345678" "1234" "11" 950 1700000000 "1001" 1001) 4050
      (by decide)⟩

/-! ## At most one pending top-up -/

theorem pending_length_modifyFirst_le (q : Topup → Bool) (g : Topup → Topup)
    (hg : ∀ t, (g t).status = "pending" → t.status = "pending") (ts : List Topup) :
    ((modifyFirst q g ts).filter (fun t => t.status == "pending")).length ≤
      (ts.filter (fun t => t.status == "pending")).length := by
  induction ts with
  | nil => simp [modifyFirst]
  | cons t ts ih =>
    by_cases hq : q t = true
    · simp only [modifyFirst, hq, if_true]
      by_cases hp : (g t).status = "pending"
      · have ht := hg t hp
        simp [List.filter_cons, hp, ht]
      · by_cases ht : t.status = "pending"
        · simp [List.filter_cons, hp, ht]
        · simp [List.filter_cons, hp, ht]
    · simp only [modifyFirst, hq, Bool.false_eq_true, if_false]
      by_cases ht : t.status = "pending"
      · simp only [List.filter_cons, ht, beq_self_eq_true, if_true, List.length_cons]
        omega
      · simpa [List.filter_cons, ht] using ih

theorem applyTopupUpdates_pending (upd : TopupUpdates) (hupd : upd.status ≠ some "pending")
    (t : Topup) (h : (applyTopupUpdates upd t).status = "pending") : t.status = "pending" := by
  unfold applyTopupUpdates at h
  simp only at h
  cases hs : upd.status with
  | none =>
    rw [hs] at h
    exact h
  | some st =>
    rw [hs] at h
    simp only [Option.getD_some] at h
    rw [h] at hs
    exact absurd hs hupd

theorem atMostOnePending_of_users_eq (s s1 : Store) (h : s1.users = s.users)
    (hs : AtMostOnePending s) : AtMostOnePending s1 := by
  unfold AtMostOnePending at *
  rw [h]
  exact hs

theorem atMostOnePending_setTopupAtPos (r : PosRule) (s : Store) (topupID : String)
    (upd : TopupUpdates) (hupd : upd.status ≠ some "pending") (hs : AtMostOnePending s) :
    AtMostOnePending (setTopupAtPos r s topupID upd) := by
  unfold AtMostOnePending setTopupAtPos
  apply modifyFirst_forall (fun u : User => pendingCount u ≤ 1) _ _ s.users hs
  intro u hu _
  have h := pending_length_modifyFirst_le (topupAtPos r topupID) (applyTopupUpdates upd)
    (applyTopupUpdates_pending upd hupd) u.topups
  have hu1 := hs u hu
  unfold pendingCount at *
  simp only
  omega

theorem atMostOnePending_balance (s : Store) (userID : String) (d : Int)
    (hs : AtMostOnePending s) :
    AtMostOnePending (updateUser s userID (fun w => { w with balance := w.balance + d })) := by
  unfold AtMostOnePending updateUser
  exact modifyFirst_forall (fun u : User => pendingCount u ≤ 1) _ _ s.users hs
    (fun u hu _ => hs u hu)

theorem atMostOnePending_FindAndUpdateTopup (r : PosRule) (s : Store) (topupID : String)
    (upd : TopupUpdates) (f : TopupFaults) (hupd : upd.status ≠ some "pending")
    (hs : AtMostOnePending s) :
    AtMostOnePending (FindAndUpdateTopup r s topupID upd f).1 := by
  have h1 := atMostOnePending_setTopupAtPos r s topupID upd hupd hs
  unfold FindAndUpdateTopup
  split
  · exact hs
  · split
    · exact hs
    · split
      · exact hs
      · split
        · exact hs
        · simp only
          split
          · split
            · cases hfault : f.updateBalance
              · simp only [UpdateBalance, Bool.false_eq_true, if_false]
                exact atMostOnePending_balance _ _ _ h1
              · simp only [UpdateBalance, if_true]
                exact h1
            · exact h1
          · exact h1

theorem atMostOnePending_handleTopupApprove (cfg : Config) (r : PosRule) (s : Store)
    (fromID : Int) (adminName data : String) (now : Int) (f : TopupFaults)
    (hs : AtMostOnePending s) :
    AtMostOnePending (handleTopupApprove cfg r s fromID adminName data now f).1 := by
  unfold handleTopupApprove
  split
  · exact hs
  · simp only
    have h := atMostOnePending_FindAndUpdateTopup r s
      (trimLeading data "topup_approve_")
      { status := some "approved", approved_by := some adminName, approved_at := some now,
        rejected_by := none, rejected_at := none } f (by simp) hs
    split
    · rename_i heq
      rw [heq] at h
      exact h
    · rename_i heq
      rw [heq] at h
      exact h

theorem atMostOnePending_handleTopupReject (cfg : Config) (r : PosRule) (s : Store)
    (fromID : Int) (adminName data : String) (now : Int) (f : TopupFaults)
    (hs : AtMostOnePending s) :
    AtMostOnePending (handleTopupReject cfg r s fromID adminName data now f).1 := by
  unfold handleTopupReject
  split
  · exact hs
  · simp only
    have h := atMostOnePending_FindAndUpdateTopup r s
      (trimLeading data "topup_reject_")
      { status := some "rejected", approved_by := none, approved_at := none,
        rejected_by := some adminName, rejected_at := some now } f (by simp) hs
    split
    · rename_i heq
      rw [heq] at h
      exact h
    · rename_i heq
      rw [heq] at h
      exact h

theorem atMostOnePending_HandleApprove (cfg : Config) (r : PosRule) (s : Store)
    (fromID : Int) (adminName args : String) (now : Int) (f : ApproveFaults)
    (hs : AtMostOnePending s) :
    AtMostOnePending (HandleApprove cfg r s fromID adminName args now f).1 := by
  unfold HandleApprove
  split
  · exact hs
  · split
    · split
      · exact hs
      · split
        · exact hs
        · rename_i topupID _
          simp only
          have h := atMostOnePending_FindAndUpdateTopup r s topupID
            { status := some "approved", approved_by := some adminName,
              approved_at := some now, rejected_by := none, rejected_at := none }
            f.findAndUpdateTopup (by simp) hs
          split
          · rename_i heq
            rw [heq] at h
            exact h
          · rename_i heq
            rw [heq] at h
            exact h
    · exact hs

theorem atMostOnePending_handleTopupPaymentMethod (s : Store) (data : String) (fault : Bool)
    (hs : AtMostOnePending s) : AtMostOnePending (handleTopupPaymentMethod s data fault).1 := by
  unfold handleTopupPaymentMethod
  split
  · split
    · exact hs
    · cases h : LoadSettings s [] [] [] [] fault with
      | error e => exact hs
      | ok p =>
        obtain ⟨s1, c⟩ := p
        exact atMostOnePending_of_users_eq s s1 (LoadSettings_users s s1 _ _ _ _ fault c h) hs
  · exact hs

/-- An append through `AddTopup` keeps the bound when the new top-up is not
pending or the pending check on the user answers `false`. -/
theorem atMostOnePending_AddTopup (s s1 : Store) (userID : String) (t : Topup) (fault : Bool)
    (hs : AtMostOnePending s) (h : AddTopup s userID t fault = .ok s1)
    (hcheck : t.status ≠ "pending" ∨ HasPendingTopup s userID false = .ok false) :
    AtMostOnePending s1 := by
  unfold AddTopup at h
  split at h
  · cases h
  · simp only [Except.ok.injEq] at h
    rw [← h]
    unfold AtMostOnePending updateUser
    simp only
    cases hfind : s.users.find? (fun u => u.user_id == userID) with
    | none =>
      have hnone : ∀ u ∈ s.users, (fun u : User => u.user_id == userID) u = false := by
        intro u hu
        have := List.find?_eq_none.mp hfind u hu
        simpa using this
      rw [modifyFirst_eq_self_of_forall _ _ _ hnone]
      exact hs
    | some u =>
      obtain ⟨pre, post, hl, hpre, hu⟩ := find?_eq_some_split _ _ _ hfind
      rw [hl, modifyFirst_append_cons_first _ _ pre post u hpre hu]
      have hall : ∀ v ∈ pre ++ u :: post, pendingCount v ≤ 1 := by
        rw [← hl]
        exact hs
      intro v hv
      rcases List.mem_append.mp hv with hv | hv
      · exact hall v (List.mem_append_left _ hv)
      · rcases List.mem_cons.mp hv with hv | hv
        · rw [hv]
          have hu1 := hall u (by simp)
          unfold pendingCount at *
          simp only [List.filter_append, List.length_append]
          rcases hcheck with hnp | hnone
          · have : (List.filter (fun t => t.status == "pending") [t]).length = 0 := by
              simp [List.filter_cons, hnp]
            omega
          · have hzero : (u.topups.filter (fun t => t.status == "pending")).length = 0 := by
              unfold HasPendingTopup GetUser at hnone
              simp only [Bool.false_eq_true, if_false, hfind, Except.ok.injEq] at hnone
              rw [List.length_eq_zero, List.filter_eq_nil_iff]
              intro x hx
              have := List.any_eq_false.mp hnone x hx
              simpa using this
            have hle : (List.filter (fun t => t.status == "pending") [t]).length ≤ 1 := by
              by_cases hp : t.status = "pending" <;> simp [List.filter_cons, hp]
            omega
        · exact hall v (List.mem_append_right _ (List.mem_cons_of_mem _ hv))

/-- C21 (counterexample): user `1001` has one pending top-up; the store call
`AddTopup` appends a second pending one without any check, which yields
`twoTopupsStore`, where the user has two pending top-ups. -/
theorem AddTopup_adds_second_pending :
    AtMostOnePending pendingTopupStore ∧
    AddTopup pendingTopupStore "1001" (mkTopup "TOP17000000501001" 3000 "pending") false
      = .ok twoTopupsStore ∧
    ¬ AtMostOnePending twoTopupsStore := by
  refine ⟨?_, by decide, ?_⟩
  · intro u hu
    have hu' : u ∈ [mkUser 0 [] [mkTopup "TOP17000000001001" 5000 "pending"]] := hu
    rw [List.mem_singleton.mp hu']
    decide
  · intro h
    exact absurd (h (mkUser 0 [] [mkTopup "TOP17000000001001" 5000 "pending",
      mkTopup "TOP17000000501001" 3000 "pending"]) (List.mem_singleton.mpr rfl)) (by decide)

/-- C21 (amended): from a store in which every user has at most one pending
top-up, each handler of the top-up flow (`HandleTopup`, the payment-method
step, the proof-submission step, the approve and reject callbacks and
`HandleApprove`) leaves every user with at most one pending top-up, whatever
the inputs, the positional rule and the store faults; the store call
`AddTopup`, which itself checks nothing, does so when the appended top-up is
not pending or `HasPendingTopup` answers `false` for the user. -/
theorem handlers_keep_at_most_one_pending (cfg : Config) (r : PosRule) (s : Store)
    (hs : AtMostOnePending s) :
    (∀ (fromID : Int) (args : String) (f : TopupCmdFaults),
      AtMostOnePending (HandleTopup cfg s fromID args f).1) ∧
    (∀ (data : String) (fault : Bool),
      AtMostOnePending (handleTopupPaymentMethod s data fault).1) ∧
    (∀ fromID : Int, AtMostOnePending (handlePhoto s fromID)) ∧
    (∀ (fromID : Int) (adminName data : String) (now : Int) (f : TopupFaults),
      AtMostOnePending (handleTopupApprove cfg r s fromID adminName data now f).1) ∧
    (∀ (fromID : Int) (adminName data : String) (now : Int) (f : TopupFaults),
      AtMostOnePending (handleTopupReject cfg r s fromID adminName data now f).1) ∧
    (∀ (fromID : Int) (adminName args : String) (now : Int) (f : ApproveFaults),
      AtMostOnePending (HandleApprove cfg r s fromID adminName args now f).1) ∧
    (∀ (userID : String) (t : Topup) (fault : Bool) (s1 : Store),
      AddTopup s userID t fault = .ok s1 →
      (t.status ≠ "pending" ∨ HasPendingTopup s userID false = .ok false) →
      AtMostOnePending s1) :=
  ⟨fun fromID args f =>
      atMostOnePending_of_users_eq s _ (HandleTopup_users cfg s fromID args f) hs,
   fun data fault => atMostOnePending_handleTopupPaymentMethod s data fault hs,
   fun _ => hs,
   fun fromID adminName data now f =>
      atMostOnePending_handleTopupApprove cfg r s fromID adminName data now f hs,
   fun fromID adminName data now f =>
      atMostOnePending_handleTopupReject cfg r s fromID adminName data now f hs,
   fun fromID adminName args now f =>
      atMostOnePending_HandleApprove cfg r s fromID adminName args now f hs,
   fun userID t fault s1 h hcheck => atMostOnePending_AddTopup s s1 userID t fault hs h hcheck⟩

/-- Witness for C21 (amended): in `pendingTopupStore` user `1001` has one
pending top-up; after the admin's approve callback on it, and likewise after a
`/topup 3000` of the user, every user has at most one pending top-up. -/
theorem handlers_keep_at_most_one_pending_witness :
    AtMostOnePending (handleTopupApprove adminCfg .byStatus pendingTopupStore 42 "Admin"
      "topup_approve_TOP17000000001001" 1700000100 noTopupFaults).1 ∧
    AtMostOnePending (HandleTopup adminCfg pendingTopupStore 1001 "3000" noTopupCmdFaults).1 :=
  ⟨(handlers_keep_at_most_one_pending adminCfg .byStatus pendingTopupStore (by
      intro u hu
      have hu' : u ∈ [mkUser 0 [] [mkTopup "TOP17000000001001" 5000 "pending"]] := hu
      rw [List.mem_singleton.mp hu']
      decide)).2.2.2.1 42 "Admin" "topup_approve_TOP17000000001001" 1700000100 noTopupFaults,
   (handlers_keep_at_most_one_pending adminCfg .byStatus pendingTopupStore (by
      intro u hu
      have hu' : u ∈ [mkUser 0 [] [mkTopup "TOP17000000001001" 5000 "pending"]] := hu
      rw [List.mem_singleton.mp hu']
      decide)).1 1001 "3000" noTopupCmdFaults⟩

end Mlbb
